import Mathlib

/-!
Verification development for the JobFinder matching subsystem.

The Python modules `src/processing/text_cleaner.py`, `src/matching/scorer.py`
and `src/matching/evidence.py` are shallowly embedded below.  Python strings
are modelled as `List Char` (sequences of Unicode code points) with `String`
wrappers at the public interfaces; Python floats are modelled as rationals;
code that can raise models its result as `Option`.  Unicode case mapping
(`str.lower`, `re.IGNORECASE`) is modelled on the ASCII range: non-ASCII
letters are kept unchanged.  All inputs exercised by concrete evaluations in
this file are ASCII, where the model agrees with Python exactly.
-/

namespace JobFinder

/-- ASCII lowercasing, modelling Python `str.lower` (and `re.IGNORECASE`
matching) on the ASCII range; non-ASCII characters are left unchanged. -/
def pyToLower (c : Char) : Char :=
  if 'A' ≤ c ∧ c ≤ 'Z' then Char.ofNat (c.toNat + 32) else c

/-- Lowercase every character of a Python string. -/
def lowerStr (l : List Char) : List Char := l.map pyToLower

/-- The code points Python's `str.strip` / `str.split` treat as whitespace. -/
def pyWsChars : List Char :=
  ['\t', '\n', '\x0b', '\x0c', '\r', '\x1c', '\x1d', '\x1e',
   '\x1f', ' ', '\x85', '\xa0', '\u1680', '\u2000', '\u2001', '\u2002',
   '\u2003', '\u2004', '\u2005', '\u2006', '\u2007', '\u2008', '\u2009', '\u200a',
   '\u2028', '\u2029', '\u202f', '\u205f', '\u3000']

/-- Python `str.isspace` on a single character. -/
def pyIsSpace (c : Char) : Bool := pyWsChars.contains c

/-- Characters matched by the regex class `[ \t]` (space or tab). -/
def isSpTab (c : Char) : Bool := c == ' ' || c == '\t'

/-- Python `str.strip()`: drop leading and trailing whitespace. -/
def pyStrip (l : List Char) : List Char :=
  ((l.dropWhile pyIsSpace).reverse.dropWhile pyIsSpace).reverse

/-- Accumulating scanner behind `splitPyWs`; `cur` is the current word,
reversed. -/
def splitPyWsAux (cur : List Char) : List Char → List (List Char)
  | [] => if cur.isEmpty then [] else [cur.reverse]
  | c :: rest =>
    if pyIsSpace c then
      if cur.isEmpty then splitPyWsAux [] rest
      else cur.reverse :: splitPyWsAux [] rest
    else splitPyWsAux (c :: cur) rest

/-- Python `str.split()` with no separator: split on whitespace runs,
dropping empty fields. -/
def splitPyWs (l : List Char) : List (List Char) := splitPyWsAux [] l

/-- Membership test used below for decidable substring occurrence. -/
def containsSeq (p : List Char) : List Char → Bool
  | [] => p.isEmpty
  | c :: rest => p.isPrefixOf (c :: rest) || containsSeq p rest

/-- The Python substring relation `p in l`: `l = u ++ p ++ v` for some
`u`, `v`. -/
def occursIn (p l : List Char) : Prop := ∃ u v, l = u ++ p ++ v

theorem isPrefixOf_iff_append {p l : List Char} :
    p.isPrefixOf l = true ↔ ∃ v, l = p ++ v := by
  induction p generalizing l with
  | nil => simp [List.isPrefixOf]
  | cons a p ih =>
    cases l with
    | nil => simp [List.isPrefixOf]
    | cons b l =>
      simp only [List.isPrefixOf, Bool.and_eq_true, beq_iff_eq, ih, List.cons_append]
      constructor
      · rintro ⟨rfl, v, rfl⟩; exact ⟨v, rfl⟩
      · rintro ⟨v, hv⟩
        injection hv with h1 h2
        exact ⟨h1.symm, v, h2⟩

theorem occursIn_iff_containsSeq {p l : List Char} :
    occursIn p l ↔ containsSeq p l = true := by
  induction l with
  | nil =>
    simp only [containsSeq, occursIn, List.isEmpty_iff]
    constructor
    · rintro ⟨u, v, huv⟩
      rcases List.append_eq_nil.mp huv.symm with ⟨h1, h2⟩
      exact (List.append_eq_nil.mp h1).2
    · rintro rfl; exact ⟨[], [], rfl⟩
  | cons c rest ih =>
    simp only [containsSeq, Bool.or_eq_true, isPrefixOf_iff_append, ← ih]
    constructor
    · rintro ⟨u, v, huv⟩
      cases u with
      | nil => exact Or.inl ⟨v, by simpa using huv⟩
      | cons a u =>
        right
        injection huv with h1 h2
        exact ⟨u, v, h2⟩
    · rintro (⟨v, hv⟩ | ⟨u, v, huv⟩)
      · exact ⟨[], v, by simpa using hv⟩
      · exact ⟨c :: u, v, by simp [huv]⟩

instance (p l : List Char) : Decidable (occursIn p l) :=
  decidable_of_iff _ occursIn_iff_containsSeq.symm

/-! ### HTML tag stripping and entity decoding (`text_cleaner.py` steps 1-2) -/

/-- Scanner behind `tagSub`.  `st = none` means we are outside any
candidate tag; `st = some inner` means a `<` has been read and `inner`
holds the non-`>` characters seen since, reversed.  A `>` after at least
one such character completes a match of `<[^>]+>` (which is replaced by a
single space); a `>` immediately after the `<` fails the match, and the
regex engine resumes scanning after it; at end of input the pending
characters are flushed unchanged (no `>` follows, so no match can use
them). -/
def tagAux (st : Option (List Char)) : List Char → List Char
  | [] =>
    match st with
    | none => []
    | some inner => '<' :: inner.reverse
  | c :: rest =>
    match st with
    | none =>
      if c = '<' then tagAux (some []) rest
      else c :: tagAux none rest
    | some inner =>
      if c = '>' then
        if inner.isEmpty then '<' :: '>' :: tagAux none rest
        else ' ' :: tagAux none rest
      else tagAux (some (c :: inner)) rest

/-- Replace every match of `<[^>]+>` by a single space, scanning left to
right as `re.sub` does.  Models `HTML_TAG_PATTERN.sub(" ", text)`. -/
def tagSub (l : List Char) : List Char := tagAux none l

/-- Scanner behind `hasTag`; the state mirrors `tagAux`, tracking whether
at least one non-`>` character followed the pending `<`. -/
def hasTagAux (st : Option Bool) : List Char → Bool
  | [] => false
  | c :: rest =>
    match st with
    | none =>
      if c = '<' then hasTagAux (some false) rest
      else hasTagAux none rest
    | some hasInner =>
      if c = '>' then
        if hasInner then true else hasTagAux none rest
      else hasTagAux (some true) rest

/-- Does the regex `HTML_TAG_PATTERN = <[^>]+>` match anywhere in the text?
Models `HTML_TAG_PATTERN.search`. -/
def hasTag (l : List Char) : Bool := hasTagAux none l

/-- The full HTML5 named character reference table of the Python standard
library (`html.entities.html5`), as an association list. Keys may or may
not end with a semicolon, exactly as in the Python table. -/
def html5Table : List (String × String) := [
  ("AElig", "\u00c6"), ("AElig;", "\u00c6"), ("AMP", "&"), ("AMP;", "&"),
  ("Aacute", "\u00c1"), ("Aacute;", "\u00c1"), ("Abreve;", "\u0102"), ("Acirc", "\u00c2"),
  ("Acirc;", "\u00c2"), ("Acy;", "\u0410"), ("Afr;", "𝔄"), ("Agrave", "\u00c0"),
  ("Agrave;", "\u00c0"), ("Alpha;", "\u0391"), ("Amacr;", "\u0100"), ("And;", "\u2a53"),
  ("Aogon;", "\u0104"), ("Aopf;", "𝔸"), ("ApplyFunction;", "\u2061"), ("Aring", "\u00c5"),
  ("Aring;", "\u00c5"), ("Ascr;", "𝒜"), ("Assign;", "\u2254"), ("Atilde", "\u00c3"),
  ("Atilde;", "\u00c3"), ("Auml", "\u00c4"), ("Auml;", "\u00c4"), ("Backslash;", "\u2216"),
  ("Barv;", "\u2ae7"), ("Barwed;", "\u2306"), ("Bcy;", "\u0411"), ("Because;", "\u2235"),
  ("Bernoullis;", "\u212c"), ("Beta;", "\u0392"), ("Bfr;", "𝔅"), ("Bopf;", "𝔹"),
  ("Breve;", "\u02d8"), ("Bscr;", "\u212c"), ("Bumpeq;", "\u224e"), ("CHcy;", "\u0427"),
  ("COPY", "\u00a9"), ("COPY;", "\u00a9"), ("Cacute;", "\u0106"), ("Cap;", "\u22d2"),
  ("CapitalDifferentialD;", "\u2145"), ("Cayleys;", "\u212d"), ("Ccaron;", "\u010c"), ("Ccedil", "\u00c7"),
  ("Ccedil;", "\u00c7"), ("Ccirc;", "\u0108"), ("Cconint;", "\u2230"), ("Cdot;", "\u010a"),
  ("Cedilla;", "\u00b8"), ("CenterDot;", "\u00b7"), ("Cfr;", "\u212d"), ("Chi;", "\u03a7"),
  ("CircleDot;", "\u2299"), ("CircleMinus;", "\u2296"), ("CirclePlus;", "\u2295"), ("CircleTimes;", "\u2297"),
  ("ClockwiseContourIntegral;", "\u2232"), ("CloseCurlyDoubleQuote;", "\u201d"), ("CloseCurlyQuote;", "\u2019"), ("Colon;", "\u2237"),
  ("Colone;", "\u2a74"), ("Congruent;", "\u2261"), ("Conint;", "\u222f"), ("ContourIntegral;", "\u222e"),
  ("Copf;", "\u2102"), ("Coproduct;", "\u2210"), ("CounterClockwiseContourIntegral;", "\u2233"), ("Cross;", "\u2a2f"),
  ("Cscr;", "𝒞"), ("Cup;", "\u22d3"), ("CupCap;", "\u224d"), ("DD;", "\u2145"),
  ("DDotrahd;", "\u2911"), ("DJcy;", "\u0402"), ("DScy;", "\u0405"), ("DZcy;", "\u040f"),
  ("Dagger;", "\u2021"), ("Darr;", "\u21a1"), ("Dashv;", "\u2ae4"), ("Dcaron;", "\u010e"),
  ("Dcy;", "\u0414"), ("Del;", "\u2207"), ("Delta;", "\u0394"), ("Dfr;", "𝔇"),
  ("DiacriticalAcute;", "\u00b4"), ("DiacriticalDot;", "\u02d9"), ("DiacriticalDoubleAcute;", "\u02dd"), ("DiacriticalGrave;", "\x60"),
  ("DiacriticalTilde;", "\u02dc"), ("Diamond;", "\u22c4"), ("DifferentialD;", "\u2146"), ("Dopf;", "𝔻"),
  ("Dot;", "\u00a8"), ("DotDot;", "\u20dc"), ("DotEqual;", "\u2250"), ("DoubleContourIntegral;", "\u222f"),
  ("DoubleDot;", "\u00a8"), ("DoubleDownArrow;", "\u21d3"), ("DoubleLeftArrow;", "\u21d0"), ("DoubleLeftRightArrow;", "\u21d4"),
  ("DoubleLeftTee;", "\u2ae4"), ("DoubleLongLeftArrow;", "\u27f8"), ("DoubleLongLeftRightArrow;", "\u27fa"), ("DoubleLongRightArrow;", "\u27f9"),
  ("DoubleRightArrow;", "\u21d2"), ("DoubleRightTee;", "\u22a8"), ("DoubleUpArrow;", "\u21d1"), ("DoubleUpDownArrow;", "\u21d5"),
  ("DoubleVerticalBar;", "\u2225"), ("DownArrow;", "\u2193"), ("DownArrowBar;", "\u2913"), ("DownArrowUpArrow;", "\u21f5"),
  ("DownBreve;", "\u0311"), ("DownLeftRightVector;", "\u2950"), ("DownLeftTeeVector;", "\u295e"), ("DownLeftVector;", "\u21bd"),
  ("DownLeftVectorBar;", "\u2956"), ("DownRightTeeVector;", "\u295f"), ("DownRightVector;", "\u21c1"), ("DownRightVectorBar;", "\u2957"),
  ("DownTee;", "\u22a4"), ("DownTeeArrow;", "\u21a7"), ("Downarrow;", "\u21d3"), ("Dscr;", "𝒟"),
  ("Dstrok;", "\u0110"), ("ENG;", "\u014a"), ("ETH", "\u00d0"), ("ETH;", "\u00d0"),
  ("Eacute", "\u00c9"), ("Eacute;", "\u00c9"), ("Ecaron;", "\u011a"), ("Ecirc", "\u00ca"),
  ("Ecirc;", "\u00ca"), ("Ecy;", "\u042d"), ("Edot;", "\u0116"), ("Efr;", "𝔈"),
  ("Egrave", "\u00c8"), ("Egrave;", "\u00c8"), ("Element;", "\u2208"), ("Emacr;", "\u0112"),
  ("EmptySmallSquare;", "\u25fb"), ("EmptyVerySmallSquare;", "\u25ab"), ("Eogon;", "\u0118"), ("Eopf;", "𝔼"),
  ("Epsilon;", "\u0395"), ("Equal;", "\u2a75"), ("EqualTilde;", "\u2242"), ("Equilibrium;", "\u21cc"),
  ("Escr;", "\u2130"), ("Esim;", "\u2a73"), ("Eta;", "\u0397"), ("Euml", "\u00cb"),
  ("Euml;", "\u00cb"), ("Exists;", "\u2203"), ("ExponentialE;", "\u2147"), ("Fcy;", "\u0424"),
  ("Ffr;", "𝔉"), ("FilledSmallSquare;", "\u25fc"), ("FilledVerySmallSquare;", "\u25aa"), ("Fopf;", "𝔽"),
  ("ForAll;", "\u2200"), ("Fouriertrf;", "\u2131"), ("Fscr;", "\u2131"), ("GJcy;", "\u0403"),
  ("GT", ">"), ("GT;", ">"), ("Gamma;", "\u0393"), ("Gammad;", "\u03dc"),
  ("Gbreve;", "\u011e"), ("Gcedil;", "\u0122"), ("Gcirc;", "\u011c"), ("Gcy;", "\u0413"),
  ("Gdot;", "\u0120"), ("Gfr;", "𝔊"), ("Gg;", "\u22d9"), ("Gopf;", "𝔾"),
  ("GreaterEqual;", "\u2265"), ("GreaterEqualLess;", "\u22db"), ("GreaterFullEqual;", "\u2267"), ("GreaterGreater;", "\u2aa2"),
  ("GreaterLess;", "\u2277"), ("GreaterSlantEqual;", "\u2a7e"), ("GreaterTilde;", "\u2273"), ("Gscr;", "𝒢"),
  ("Gt;", "\u226b"), ("HARDcy;", "\u042a"), ("Hacek;", "\u02c7"), ("Hat;", "^"),
  ("Hcirc;", "\u0124"), ("Hfr;", "\u210c"), ("HilbertSpace;", "\u210b"), ("Hopf;", "\u210d"),
  ("HorizontalLine;", "\u2500"), ("Hscr;", "\u210b"), ("Hstrok;", "\u0126"), ("HumpDownHump;", "\u224e"),
  ("HumpEqual;", "\u224f"), ("IEcy;", "\u0415"), ("IJlig;", "\u0132"), ("IOcy;", "\u0401"),
  ("Iacute", "\u00cd"), ("Iacute;", "\u00cd"), ("Icirc", "\u00ce"), ("Icirc;", "\u00ce"),
  ("Icy;", "\u0418"), ("Idot;", "\u0130"), ("Ifr;", "\u2111"), ("Igrave", "\u00cc"),
  ("Igrave;", "\u00cc"), ("Im;", "\u2111"), ("Imacr;", "\u012a"), ("ImaginaryI;", "\u2148"),
  ("Implies;", "\u21d2"), ("Int;", "\u222c"), ("Integral;", "\u222b"), ("Intersection;", "\u22c2"),
  ("InvisibleComma;", "\u2063"), ("InvisibleTimes;", "\u2062"), ("Iogon;", "\u012e"), ("Iopf;", "𝕀"),
  ("Iota;", "\u0399"), ("Iscr;", "\u2110"), ("Itilde;", "\u0128"), ("Iukcy;", "\u0406"),
  ("Iuml", "\u00cf"), ("Iuml;", "\u00cf"), ("Jcirc;", "\u0134"), ("Jcy;", "\u0419"),
  ("Jfr;", "𝔍"), ("Jopf;", "𝕁"), ("Jscr;", "𝒥"), ("Jsercy;", "\u0408"),
  ("Jukcy;", "\u0404"), ("KHcy;", "\u0425"), ("KJcy;", "\u040c"), ("Kappa;", "\u039a"),
  ("Kcedil;", "\u0136"), ("Kcy;", "\u041a"), ("Kfr;", "𝔎"), ("Kopf;", "𝕂"),
  ("Kscr;", "𝒦"), ("LJcy;", "\u0409"), ("LT", "<"), ("LT;", "<"),
  ("Lacute;", "\u0139"), ("Lambda;", "\u039b"), ("Lang;", "\u27ea"), ("Laplacetrf;", "\u2112"),
  ("Larr;", "\u219e"), ("Lcaron;", "\u013d"), ("Lcedil;", "\u013b"), ("Lcy;", "\u041b"),
  ("LeftAngleBracket;", "\u27e8"), ("LeftArrow;", "\u2190"), ("LeftArrowBar;", "\u21e4"), ("LeftArrowRightArrow;", "\u21c6"),
  ("LeftCeiling;", "\u2308"), ("LeftDoubleBracket;", "\u27e6"), ("LeftDownTeeVector;", "\u2961"), ("LeftDownVector;", "\u21c3"),
  ("LeftDownVectorBar;", "\u2959"), ("LeftFloor;", "\u230a"), ("LeftRightArrow;", "\u2194"), ("LeftRightVector;", "\u294e"),
  ("LeftTee;", "\u22a3"), ("LeftTeeArrow;", "\u21a4"), ("LeftTeeVector;", "\u295a"), ("LeftTriangle;", "\u22b2"),
  ("LeftTriangleBar;", "\u29cf"), ("LeftTriangleEqual;", "\u22b4"), ("LeftUpDownVector;", "\u2951"), ("LeftUpTeeVector;", "\u2960"),
  ("LeftUpVector;", "\u21bf"), ("LeftUpVectorBar;", "\u2958"), ("LeftVector;", "\u21bc"), ("LeftVectorBar;", "\u2952"),
  ("Leftarrow;", "\u21d0"), ("Leftrightarrow;", "\u21d4"), ("LessEqualGreater;", "\u22da"), ("LessFullEqual;", "\u2266"),
  ("LessGreater;", "\u2276"), ("LessLess;", "\u2aa1"), ("LessSlantEqual;", "\u2a7d"), ("LessTilde;", "\u2272"),
  ("Lfr;", "𝔏"), ("Ll;", "\u22d8"), ("Lleftarrow;", "\u21da"), ("Lmidot;", "\u013f"),
  ("LongLeftArrow;", "\u27f5"), ("LongLeftRightArrow;", "\u27f7"), ("LongRightArrow;", "\u27f6"), ("Longleftarrow;", "\u27f8"),
  ("Longleftrightarrow;", "\u27fa"), ("Longrightarrow;", "\u27f9"), ("Lopf;", "𝕃"), ("LowerLeftArrow;", "\u2199"),
  ("LowerRightArrow;", "\u2198"), ("Lscr;", "\u2112"), ("Lsh;", "\u21b0"), ("Lstrok;", "\u0141"),
  ("Lt;", "\u226a"), ("Map;", "\u2905"), ("Mcy;", "\u041c"), ("MediumSpace;", "\u205f"),
  ("Mellintrf;", "\u2133"), ("Mfr;", "𝔐"), ("MinusPlus;", "\u2213"), ("Mopf;", "𝕄"),
  ("Mscr;", "\u2133"), ("Mu;", "\u039c"), ("NJcy;", "\u040a"), ("Nacute;", "\u0143"),
  ("Ncaron;", "\u0147"), ("Ncedil;", "\u0145"), ("Ncy;", "\u041d"), ("NegativeMediumSpace;", "\u200b"),
  ("NegativeThickSpace;", "\u200b"), ("NegativeThinSpace;", "\u200b"), ("NegativeVeryThinSpace;", "\u200b"), ("NestedGreaterGreater;", "\u226b"),
  ("NestedLessLess;", "\u226a"), ("NewLine;", "\x0a"), ("Nfr;", "𝔑"), ("NoBreak;", "\u2060"),
  ("NonBreakingSpace;", "\u00a0"), ("Nopf;", "\u2115"), ("Not;", "\u2aec"), ("NotCongruent;", "\u2262"),
  ("NotCupCap;", "\u226d"), ("NotDoubleVerticalBar;", "\u2226"), ("NotElement;", "\u2209"), ("NotEqual;", "\u2260"),
  ("NotEqualTilde;", "\u2242\u0338"), ("NotExists;", "\u2204"), ("NotGreater;", "\u226f"), ("NotGreaterEqual;", "\u2271"),
  ("NotGreaterFullEqual;", "\u2267\u0338"), ("NotGreaterGreater;", "\u226b\u0338"), ("NotGreaterLess;", "\u2279"), ("NotGreaterSlantEqual;", "\u2a7e\u0338"),
  ("NotGreaterTilde;", "\u2275"), ("NotHumpDownHump;", "\u224e\u0338"), ("NotHumpEqual;", "\u224f\u0338"), ("NotLeftTriangle;", "\u22ea"),
  ("NotLeftTriangleBar;", "\u29cf\u0338"), ("NotLeftTriangleEqual;", "\u22ec"), ("NotLess;", "\u226e"), ("NotLessEqual;", "\u2270"),
  ("NotLessGreater;", "\u2278"), ("NotLessLess;", "\u226a\u0338"), ("NotLessSlantEqual;", "\u2a7d\u0338"), ("NotLessTilde;", "\u2274"),
  ("NotNestedGreaterGreater;", "\u2aa2\u0338"), ("NotNestedLessLess;", "\u2aa1\u0338"), ("NotPrecedes;", "\u2280"), ("NotPrecedesEqual;", "\u2aaf\u0338"),
  ("NotPrecedesSlantEqual;", "\u22e0"), ("NotReverseElement;", "\u220c"), ("NotRightTriangle;", "\u22eb"), ("NotRightTriangleBar;", "\u29d0\u0338"),
  ("NotRightTriangleEqual;", "\u22ed"), ("NotSquareSubset;", "\u228f\u0338"), ("NotSquareSubsetEqual;", "\u22e2"), ("NotSquareSuperset;", "\u2290\u0338"),
  ("NotSquareSupersetEqual;", "\u22e3"), ("NotSubset;", "\u2282\u20d2"), ("NotSubsetEqual;", "\u2288"), ("NotSucceeds;", "\u2281"),
  ("NotSucceedsEqual;", "\u2ab0\u0338"), ("NotSucceedsSlantEqual;", "\u22e1"), ("NotSucceedsTilde;", "\u227f\u0338"), ("NotSuperset;", "\u2283\u20d2"),
  ("NotSupersetEqual;", "\u2289"), ("NotTilde;", "\u2241"), ("NotTildeEqual;", "\u2244"), ("NotTildeFullEqual;", "\u2247"),
  ("NotTildeTilde;", "\u2249"), ("NotVerticalBar;", "\u2224"), ("Nscr;", "𝒩"), ("Ntilde", "\u00d1"),
  ("Ntilde;", "\u00d1"), ("Nu;", "\u039d"), ("OElig;", "\u0152"), ("Oacute", "\u00d3"),
  ("Oacute;", "\u00d3"), ("Ocirc", "\u00d4"), ("Ocirc;", "\u00d4"), ("Ocy;", "\u041e"),
  ("Odblac;", "\u0150"), ("Ofr;", "𝔒"), ("Ograve", "\u00d2"), ("Ograve;", "\u00d2"),
  ("Omacr;", "\u014c"), ("Omega;", "\u03a9"), ("Omicron;", "\u039f"), ("Oopf;", "𝕆"),
  ("OpenCurlyDoubleQuote;", "\u201c"), ("OpenCurlyQuote;", "\u2018"), ("Or;", "\u2a54"), ("Oscr;", "𝒪"),
  ("Oslash", "\u00d8"), ("Oslash;", "\u00d8"), ("Otilde", "\u00d5"), ("Otilde;", "\u00d5"),
  ("Otimes;", "\u2a37"), ("Ouml", "\u00d6"), ("Ouml;", "\u00d6"), ("OverBar;", "\u203e"),
  ("OverBrace;", "\u23de"), ("OverBracket;", "\u23b4"), ("OverParenthesis;", "\u23dc"), ("PartialD;", "\u2202"),
  ("Pcy;", "\u041f"), ("Pfr;", "𝔓"), ("Phi;", "\u03a6"), ("Pi;", "\u03a0"),
  ("PlusMinus;", "\u00b1"), ("Poincareplane;", "\u210c"), ("Popf;", "\u2119"), ("Pr;", "\u2abb"),
  ("Precedes;", "\u227a"), ("PrecedesEqual;", "\u2aaf"), ("PrecedesSlantEqual;", "\u227c"), ("PrecedesTilde;", "\u227e"),
  ("Prime;", "\u2033"), ("Product;", "\u220f"), ("Proportion;", "\u2237"), ("Proportional;", "\u221d"),
  ("Pscr;", "𝒫"), ("Psi;", "\u03a8"), ("QUOT", "\x22"), ("QUOT;", "\x22"),
  ("Qfr;", "𝔔"), ("Qopf;", "\u211a"), ("Qscr;", "𝒬"), ("RBarr;", "\u2910"),
  ("REG", "\u00ae"), ("REG;", "\u00ae"), ("Racute;", "\u0154"), ("Rang;", "\u27eb"),
  ("Rarr;", "\u21a0"), ("Rarrtl;", "\u2916"), ("Rcaron;", "\u0158"), ("Rcedil;", "\u0156"),
  ("Rcy;", "\u0420"), ("Re;", "\u211c"), ("ReverseElement;", "\u220b"), ("ReverseEquilibrium;", "\u21cb"),
  ("ReverseUpEquilibrium;", "\u296f"), ("Rfr;", "\u211c"), ("Rho;", "\u03a1"), ("RightAngleBracket;", "\u27e9"),
  ("RightArrow;", "\u2192"), ("RightArrowBar;", "\u21e5"), ("RightArrowLeftArrow;", "\u21c4"), ("RightCeiling;", "\u2309"),
  ("RightDoubleBracket;", "\u27e7"), ("RightDownTeeVector;", "\u295d"), ("RightDownVector;", "\u21c2"), ("RightDownVectorBar;", "\u2955"),
  ("RightFloor;", "\u230b"), ("RightTee;", "\u22a2"), ("RightTeeArrow;", "\u21a6"), ("RightTeeVector;", "\u295b"),
  ("RightTriangle;", "\u22b3"), ("RightTriangleBar;", "\u29d0"), ("RightTriangleEqual;", "\u22b5"), ("RightUpDownVector;", "\u294f"),
  ("RightUpTeeVector;", "\u295c"), ("RightUpVector;", "\u21be"), ("RightUpVectorBar;", "\u2954"), ("RightVector;", "\u21c0"),
  ("RightVectorBar;", "\u2953"), ("Rightarrow;", "\u21d2"), ("Ropf;", "\u211d"), ("RoundImplies;", "\u2970"),
  ("Rrightarrow;", "\u21db"), ("Rscr;", "\u211b"), ("Rsh;", "\u21b1"), ("RuleDelayed;", "\u29f4"),
  ("SHCHcy;", "\u0429"), ("SHcy;", "\u0428"), ("SOFTcy;", "\u042c"), ("Sacute;", "\u015a"),
  ("Sc;", "\u2abc"), ("Scaron;", "\u0160"), ("Scedil;", "\u015e"), ("Scirc;", "\u015c"),
  ("Scy;", "\u0421"), ("Sfr;", "𝔖"), ("ShortDownArrow;", "\u2193"), ("ShortLeftArrow;", "\u2190"),
  ("ShortRightArrow;", "\u2192"), ("ShortUpArrow;", "\u2191"), ("Sigma;", "\u03a3"), ("SmallCircle;", "\u2218"),
  ("Sopf;", "𝕊"), ("Sqrt;", "\u221a"), ("Square;", "\u25a1"), ("SquareIntersection;", "\u2293"),
  ("SquareSubset;", "\u228f"), ("SquareSubsetEqual;", "\u2291"), ("SquareSuperset;", "\u2290"), ("SquareSupersetEqual;", "\u2292"),
  ("SquareUnion;", "\u2294"), ("Sscr;", "𝒮"), ("Star;", "\u22c6"), ("Sub;", "\u22d0"),
  ("Subset;", "\u22d0"), ("SubsetEqual;", "\u2286"), ("Succeeds;", "\u227b"), ("SucceedsEqual;", "\u2ab0"),
  ("SucceedsSlantEqual;", "\u227d"), ("SucceedsTilde;", "\u227f"), ("SuchThat;", "\u220b"), ("Sum;", "\u2211"),
  ("Sup;", "\u22d1"), ("Superset;", "\u2283"), ("SupersetEqual;", "\u2287"), ("Supset;", "\u22d1"),
  ("THORN", "\u00de"), ("THORN;", "\u00de"), ("TRADE;", "\u2122"), ("TSHcy;", "\u040b"),
  ("TScy;", "\u0426"), ("Tab;", "\x09"), ("Tau;", "\u03a4"), ("Tcaron;", "\u0164"),
  ("Tcedil;", "\u0162"), ("Tcy;", "\u0422"), ("Tfr;", "𝔗"), ("Therefore;", "\u2234"),
  ("Theta;", "\u0398"), ("ThickSpace;", "\u205f\u200a"), ("ThinSpace;", "\u2009"), ("Tilde;", "\u223c"),
  ("TildeEqual;", "\u2243"), ("TildeFullEqual;", "\u2245"), ("TildeTilde;", "\u2248"), ("Topf;", "𝕋"),
  ("TripleDot;", "\u20db"), ("Tscr;", "𝒯"), ("Tstrok;", "\u0166"), ("Uacute", "\u00da"),
  ("Uacute;", "\u00da"), ("Uarr;", "\u219f"), ("Uarrocir;", "\u2949"), ("Ubrcy;", "\u040e"),
  ("Ubreve;", "\u016c"), ("Ucirc", "\u00db"), ("Ucirc;", "\u00db"), ("Ucy;", "\u0423"),
  ("Udblac;", "\u0170"), ("Ufr;", "𝔘"), ("Ugrave", "\u00d9"), ("Ugrave;", "\u00d9"),
  ("Umacr;", "\u016a"), ("UnderBar;", "_"), ("UnderBrace;", "\u23df"), ("UnderBracket;", "\u23b5"),
  ("UnderParenthesis;", "\u23dd"), ("Union;", "\u22c3"), ("UnionPlus;", "\u228e"), ("Uogon;", "\u0172"),
  ("Uopf;", "𝕌"), ("UpArrow;", "\u2191"), ("UpArrowBar;", "\u2912"), ("UpArrowDownArrow;", "\u21c5"),
  ("UpDownArrow;", "\u2195"), ("UpEquilibrium;", "\u296e"), ("UpTee;", "\u22a5"), ("UpTeeArrow;", "\u21a5"),
  ("Uparrow;", "\u21d1"), ("Updownarrow;", "\u21d5"), ("UpperLeftArrow;", "\u2196"), ("UpperRightArrow;", "\u2197"),
  ("Upsi;", "\u03d2"), ("Upsilon;", "\u03a5"), ("Uring;", "\u016e"), ("Uscr;", "𝒰"),
  ("Utilde;", "\u0168"), ("Uuml", "\u00dc"), ("Uuml;", "\u00dc"), ("VDash;", "\u22ab"),
  ("Vbar;", "\u2aeb"), ("Vcy;", "\u0412"), ("Vdash;", "\u22a9"), ("Vdashl;", "\u2ae6"),
  ("Vee;", "\u22c1"), ("Verbar;", "\u2016"), ("Vert;", "\u2016"), ("VerticalBar;", "\u2223"),
  ("VerticalLine;", "|"), ("VerticalSeparator;", "\u2758"), ("VerticalTilde;", "\u2240"), ("VeryThinSpace;", "\u200a"),
  ("Vfr;", "𝔙"), ("Vopf;", "𝕍"), ("Vscr;", "𝒱"), ("Vvdash;", "\u22aa"),
  ("Wcirc;", "\u0174"), ("Wedge;", "\u22c0"), ("Wfr;", "𝔚"), ("Wopf;", "𝕎"),
  ("Wscr;", "𝒲"), ("Xfr;", "𝔛"), ("Xi;", "\u039e"), ("Xopf;", "𝕏"),
  ("Xscr;", "𝒳"), ("YAcy;", "\u042f"), ("YIcy;", "\u0407"), ("YUcy;", "\u042e"),
  ("Yacute", "\u00dd"), ("Yacute;", "\u00dd"), ("Ycirc;", "\u0176"), ("Ycy;", "\u042b"),
  ("Yfr;", "𝔜"), ("Yopf;", "𝕐"), ("Yscr;", "𝒴"), ("Yuml;", "\u0178"),
  ("ZHcy;", "\u0416"), ("Zacute;", "\u0179"), ("Zcaron;", "\u017d"), ("Zcy;", "\u0417"),
  ("Zdot;", "\u017b"), ("ZeroWidthSpace;", "\u200b"), ("Zeta;", "\u0396"), ("Zfr;", "\u2128"),
  ("Zopf;", "\u2124"), ("Zscr;", "𝒵"), ("aacute", "\u00e1"), ("aacute;", "\u00e1"),
  ("abreve;", "\u0103"), ("ac;", "\u223e"), ("acE;", "\u223e\u0333"), ("acd;", "\u223f"),
  ("acirc", "\u00e2"), ("acirc;", "\u00e2"), ("acute", "\u00b4"), ("acute;", "\u00b4"),
  ("acy;", "\u0430"), ("aelig", "\u00e6"), ("aelig;", "\u00e6"), ("af;", "\u2061"),
  ("afr;", "𝔞"), ("agrave", "\u00e0"), ("agrave;", "\u00e0"), ("alefsym;", "\u2135"),
  ("aleph;", "\u2135"), ("alpha;", "\u03b1"), ("amacr;", "\u0101"), ("amalg;", "\u2a3f"),
  ("amp", "&"), ("amp;", "&"), ("and;", "\u2227"), ("andand;", "\u2a55"),
  ("andd;", "\u2a5c"), ("andslope;", "\u2a58"), ("andv;", "\u2a5a"), ("ang;", "\u2220"),
  ("ange;", "\u29a4"), ("angle;", "\u2220"), ("angmsd;", "\u2221"), ("angmsdaa;", "\u29a8"),
  ("angmsdab;", "\u29a9"), ("angmsdac;", "\u29aa"), ("angmsdad;", "\u29ab"), ("angmsdae;", "\u29ac"),
  ("angmsdaf;", "\u29ad"), ("angmsdag;", "\u29ae"), ("angmsdah;", "\u29af"), ("angrt;", "\u221f"),
  ("angrtvb;", "\u22be"), ("angrtvbd;", "\u299d"), ("angsph;", "\u2222"), ("angst;", "\u00c5"),
  ("angzarr;", "\u237c"), ("aogon;", "\u0105"), ("aopf;", "𝕒"), ("ap;", "\u2248"),
  ("apE;", "\u2a70"), ("apacir;", "\u2a6f"), ("ape;", "\u224a"), ("apid;", "\u224b"),
  ("apos;", "\x27"), ("approx;", "\u2248"), ("approxeq;", "\u224a"), ("aring", "\u00e5"),
  ("aring;", "\u00e5"), ("ascr;", "𝒶"), ("ast;", "*"), ("asymp;", "\u2248"),
  ("asympeq;", "\u224d"), ("atilde", "\u00e3"), ("atilde;", "\u00e3"), ("auml", "\u00e4"),
  ("auml;", "\u00e4"), ("awconint;", "\u2233"), ("awint;", "\u2a11"), ("bNot;", "\u2aed"),
  ("backcong;", "\u224c"), ("backepsilon;", "\u03f6"), ("backprime;", "\u2035"), ("backsim;", "\u223d"),
  ("backsimeq;", "\u22cd"), ("barvee;", "\u22bd"), ("barwed;", "\u2305"), ("barwedge;", "\u2305"),
  ("bbrk;", "\u23b5"), ("bbrktbrk;", "\u23b6"), ("bcong;", "\u224c"), ("bcy;", "\u0431"),
  ("bdquo;", "\u201e"), ("becaus;", "\u2235"), ("because;", "\u2235"), ("bemptyv;", "\u29b0"),
  ("bepsi;", "\u03f6"), ("bernou;", "\u212c"), ("beta;", "\u03b2"), ("beth;", "\u2136"),
  ("between;", "\u226c"), ("bfr;", "𝔟"), ("bigcap;", "\u22c2"), ("bigcirc;", "\u25ef"),
  ("bigcup;", "\u22c3"), ("bigodot;", "\u2a00"), ("bigoplus;", "\u2a01"), ("bigotimes;", "\u2a02"),
  ("bigsqcup;", "\u2a06"), ("bigstar;", "\u2605"), ("bigtriangledown;", "\u25bd"), ("bigtriangleup;", "\u25b3"),
  ("biguplus;", "\u2a04"), ("bigvee;", "\u22c1"), ("bigwedge;", "\u22c0"), ("bkarow;", "\u290d"),
  ("blacklozenge;", "\u29eb"), ("blacksquare;", "\u25aa"), ("blacktriangle;", "\u25b4"), ("blacktriangledown;", "\u25be"),
  ("blacktriangleleft;", "\u25c2"), ("blacktriangleright;", "\u25b8"), ("blank;", "\u2423"), ("blk12;", "\u2592"),
  ("blk14;", "\u2591"), ("blk34;", "\u2593"), ("block;", "\u2588"), ("bne;", "=\u20e5"),
  ("bnequiv;", "\u2261\u20e5"), ("bnot;", "\u2310"), ("bopf;", "𝕓"), ("bot;", "\u22a5"),
  ("bottom;", "\u22a5"), ("bowtie;", "\u22c8"), ("boxDL;", "\u2557"), ("boxDR;", "\u2554"),
  ("boxDl;", "\u2556"), ("boxDr;", "\u2553"), ("boxH;", "\u2550"), ("boxHD;", "\u2566"),
  ("boxHU;", "\u2569"), ("boxHd;", "\u2564"), ("boxHu;", "\u2567"), ("boxUL;", "\u255d"),
  ("boxUR;", "\u255a"), ("boxUl;", "\u255c"), ("boxUr;", "\u2559"), ("boxV;", "\u2551"),
  ("boxVH;", "\u256c"), ("boxVL;", "\u2563"), ("boxVR;", "\u2560"), ("boxVh;", "\u256b"),
  ("boxVl;", "\u2562"), ("boxVr;", "\u255f"), ("boxbox;", "\u29c9"), ("boxdL;", "\u2555"),
  ("boxdR;", "\u2552"), ("boxdl;", "\u2510"), ("boxdr;", "\u250c"), ("boxh;", "\u2500"),
  ("boxhD;", "\u2565"), ("boxhU;", "\u2568"), ("boxhd;", "\u252c"), ("boxhu;", "\u2534"),
  ("boxminus;", "\u229f"), ("boxplus;", "\u229e"), ("boxtimes;", "\u22a0"), ("boxuL;", "\u255b"),
  ("boxuR;", "\u2558"), ("boxul;", "\u2518"), ("boxur;", "\u2514"), ("boxv;", "\u2502"),
  ("boxvH;", "\u256a"), ("boxvL;", "\u2561"), ("boxvR;", "\u255e"), ("boxvh;", "\u253c"),
  ("boxvl;", "\u2524"), ("boxvr;", "\u251c"), ("bprime;", "\u2035"), ("breve;", "\u02d8"),
  ("brvbar", "\u00a6"), ("brvbar;", "\u00a6"), ("bscr;", "𝒷"), ("bsemi;", "\u204f"),
  ("bsim;", "\u223d"), ("bsime;", "\u22cd"), ("bsol;", "\x5c"), ("bsolb;", "\u29c5"),
  ("bsolhsub;", "\u27c8"), ("bull;", "\u2022"), ("bullet;", "\u2022"), ("bump;", "\u224e"),
  ("bumpE;", "\u2aae"), ("bumpe;", "\u224f"), ("bumpeq;", "\u224f"), ("cacute;", "\u0107"),
  ("cap;", "\u2229"), ("capand;", "\u2a44"), ("capbrcup;", "\u2a49"), ("capcap;", "\u2a4b"),
  ("capcup;", "\u2a47"), ("capdot;", "\u2a40"), ("caps;", "\u2229\ufe00"), ("caret;", "\u2041"),
  ("caron;", "\u02c7"), ("ccaps;", "\u2a4d"), ("ccaron;", "\u010d"), ("ccedil", "\u00e7"),
  ("ccedil;", "\u00e7"), ("ccirc;", "\u0109"), ("ccups;", "\u2a4c"), ("ccupssm;", "\u2a50"),
  ("cdot;", "\u010b"), ("cedil", "\u00b8"), ("cedil;", "\u00b8"), ("cemptyv;", "\u29b2"),
  ("cent", "\u00a2"), ("cent;", "\u00a2"), ("centerdot;", "\u00b7"), ("cfr;", "𝔠"),
  ("chcy;", "\u0447"), ("check;", "\u2713"), ("checkmark;", "\u2713"), ("chi;", "\u03c7"),
  ("cir;", "\u25cb"), ("cirE;", "\u29c3"), ("circ;", "\u02c6"), ("circeq;", "\u2257"),
  ("circlearrowleft;", "\u21ba"), ("circlearrowright;", "\u21bb"), ("circledR;", "\u00ae"), ("circledS;", "\u24c8"),
  ("circledast;", "\u229b"), ("circledcirc;", "\u229a"), ("circleddash;", "\u229d"), ("cire;", "\u2257"),
  ("cirfnint;", "\u2a10"), ("cirmid;", "\u2aef"), ("cirscir;", "\u29c2"), ("clubs;", "\u2663"),
  ("clubsuit;", "\u2663"), ("colon;", ":"), ("colone;", "\u2254"), ("coloneq;", "\u2254"),
  ("comma;", ","), ("commat;", "@"), ("comp;", "\u2201"), ("compfn;", "\u2218"),
  ("complement;", "\u2201"), ("complexes;", "\u2102"), ("cong;", "\u2245"), ("congdot;", "\u2a6d"),
  ("conint;", "\u222e"), ("copf;", "𝕔"), ("coprod;", "\u2210"), ("copy", "\u00a9"),
  ("copy;", "\u00a9"), ("copysr;", "\u2117"), ("crarr;", "\u21b5"), ("cross;", "\u2717"),
  ("cscr;", "𝒸"), ("csub;", "\u2acf"), ("csube;", "\u2ad1"), ("csup;", "\u2ad0"),
  ("csupe;", "\u2ad2"), ("ctdot;", "\u22ef"), ("cudarrl;", "\u2938"), ("cudarrr;", "\u2935"),
  ("cuepr;", "\u22de"), ("cuesc;", "\u22df"), ("cularr;", "\u21b6"), ("cularrp;", "\u293d"),
  ("cup;", "\u222a"), ("cupbrcap;", "\u2a48"), ("cupcap;", "\u2a46"), ("cupcup;", "\u2a4a"),
  ("cupdot;", "\u228d"), ("cupor;", "\u2a45"), ("cups;", "\u222a\ufe00"), ("curarr;", "\u21b7"),
  ("curarrm;", "\u293c"), ("curlyeqprec;", "\u22de"), ("curlyeqsucc;", "\u22df"), ("curlyvee;", "\u22ce"),
  ("curlywedge;", "\u22cf"), ("curren", "\u00a4"), ("curren;", "\u00a4"), ("curvearrowleft;", "\u21b6"),
  ("curvearrowright;", "\u21b7"), ("cuvee;", "\u22ce"), ("cuwed;", "\u22cf"), ("cwconint;", "\u2232"),
  ("cwint;", "\u2231"), ("cylcty;", "\u232d"), ("dArr;", "\u21d3"), ("dHar;", "\u2965"),
  ("dagger;", "\u2020"), ("daleth;", "\u2138"), ("darr;", "\u2193"), ("dash;", "\u2010"),
  ("dashv;", "\u22a3"), ("dbkarow;", "\u290f"), ("dblac;", "\u02dd"), ("dcaron;", "\u010f"),
  ("dcy;", "\u0434"), ("dd;", "\u2146"), ("ddagger;", "\u2021"), ("ddarr;", "\u21ca"),
  ("ddotseq;", "\u2a77"), ("deg", "\u00b0"), ("deg;", "\u00b0"), ("delta;", "\u03b4"),
  ("demptyv;", "\u29b1"), ("dfisht;", "\u297f"), ("dfr;", "𝔡"), ("dharl;", "\u21c3"),
  ("dharr;", "\u21c2"), ("diam;", "\u22c4"), ("diamond;", "\u22c4"), ("diamondsuit;", "\u2666"),
  ("diams;", "\u2666"), ("die;", "\u00a8"), ("digamma;", "\u03dd"), ("disin;", "\u22f2"),
  ("div;", "\u00f7"), ("divide", "\u00f7"), ("divide;", "\u00f7"), ("divideontimes;", "\u22c7"),
  ("divonx;", "\u22c7"), ("djcy;", "\u0452"), ("dlcorn;", "\u231e"), ("dlcrop;", "\u230d"),
  ("dollar;", "$"), ("dopf;", "𝕕"), ("dot;", "\u02d9"), ("doteq;", "\u2250"),
  ("doteqdot;", "\u2251"), ("dotminus;", "\u2238"), ("dotplus;", "\u2214"), ("dotsquare;", "\u22a1"),
  ("doublebarwedge;", "\u2306"), ("downarrow;", "\u2193"), ("downdownarrows;", "\u21ca"), ("downharpoonleft;", "\u21c3"),
  ("downharpoonright;", "\u21c2"), ("drbkarow;", "\u2910"), ("drcorn;", "\u231f"), ("drcrop;", "\u230c"),
  ("dscr;", "𝒹"), ("dscy;", "\u0455"), ("dsol;", "\u29f6"), ("dstrok;", "\u0111"),
  ("dtdot;", "\u22f1"), ("dtri;", "\u25bf"), ("dtrif;", "\u25be"), ("duarr;", "\u21f5"),
  ("duhar;", "\u296f"), ("dwangle;", "\u29a6"), ("dzcy;", "\u045f"), ("dzigrarr;", "\u27ff"),
  ("eDDot;", "\u2a77"), ("eDot;", "\u2251"), ("eacute", "\u00e9"), ("eacute;", "\u00e9"),
  ("easter;", "\u2a6e"), ("ecaron;", "\u011b"), ("ecir;", "\u2256"), ("ecirc", "\u00ea"),
  ("ecirc;", "\u00ea"), ("ecolon;", "\u2255"), ("ecy;", "\u044d"), ("edot;", "\u0117"),
  ("ee;", "\u2147"), ("efDot;", "\u2252"), ("efr;", "𝔢"), ("eg;", "\u2a9a"),
  ("egrave", "\u00e8"), ("egrave;", "\u00e8"), ("egs;", "\u2a96"), ("egsdot;", "\u2a98"),
  ("el;", "\u2a99"), ("elinters;", "\u23e7"), ("ell;", "\u2113"), ("els;", "\u2a95"),
  ("elsdot;", "\u2a97"), ("emacr;", "\u0113"), ("empty;", "\u2205"), ("emptyset;", "\u2205"),
  ("emptyv;", "\u2205"), ("emsp13;", "\u2004"), ("emsp14;", "\u2005"), ("emsp;", "\u2003"),
  ("eng;", "\u014b"), ("ensp;", "\u2002"), ("eogon;", "\u0119"), ("eopf;", "𝕖"),
  ("epar;", "\u22d5"), ("eparsl;", "\u29e3"), ("eplus;", "\u2a71"), ("epsi;", "\u03b5"),
  ("epsilon;", "\u03b5"), ("epsiv;", "\u03f5"), ("eqcirc;", "\u2256"), ("eqcolon;", "\u2255"),
  ("eqsim;", "\u2242"), ("eqslantgtr;", "\u2a96"), ("eqslantless;", "\u2a95"), ("equals;", "="),
  ("equest;", "\u225f"), ("equiv;", "\u2261"), ("equivDD;", "\u2a78"), ("eqvparsl;", "\u29e5"),
  ("erDot;", "\u2253"), ("erarr;", "\u2971"), ("escr;", "\u212f"), ("esdot;", "\u2250"),
  ("esim;", "\u2242"), ("eta;", "\u03b7"), ("eth", "\u00f0"), ("eth;", "\u00f0"),
  ("euml", "\u00eb"), ("euml;", "\u00eb"), ("euro;", "\u20ac"), ("excl;", "!"),
  ("exist;", "\u2203"), ("expectation;", "\u2130"), ("exponentiale;", "\u2147"), ("fallingdotseq;", "\u2252"),
  ("fcy;", "\u0444"), ("female;", "\u2640"), ("ffilig;", "\ufb03"), ("fflig;", "\ufb00"),
  ("ffllig;", "\ufb04"), ("ffr;", "𝔣"), ("filig;", "\ufb01"), ("fjlig;", "fj"),
  ("flat;", "\u266d"), ("fllig;", "\ufb02"), ("fltns;", "\u25b1"), ("fnof;", "\u0192"),
  ("fopf;", "𝕗"), ("forall;", "\u2200"), ("fork;", "\u22d4"), ("forkv;", "\u2ad9"),
  ("fpartint;", "\u2a0d"), ("frac12", "\u00bd"), ("frac12;", "\u00bd"), ("frac13;", "\u2153"),
  ("frac14", "\u00bc"), ("frac14;", "\u00bc"), ("frac15;", "\u2155"), ("frac16;", "\u2159"),
  ("frac18;", "\u215b"), ("frac23;", "\u2154"), ("frac25;", "\u2156"), ("frac34", "\u00be"),
  ("frac34;", "\u00be"), ("frac35;", "\u2157"), ("frac38;", "\u215c"), ("frac45;", "\u2158"),
  ("frac56;", "\u215a"), ("frac58;", "\u215d"), ("frac78;", "\u215e"), ("frasl;", "\u2044"),
  ("frown;", "\u2322"), ("fscr;", "𝒻"), ("gE;", "\u2267"), ("gEl;", "\u2a8c"),
  ("gacute;", "\u01f5"), ("gamma;", "\u03b3"), ("gammad;", "\u03dd"), ("gap;", "\u2a86"),
  ("gbreve;", "\u011f"), ("gcirc;", "\u011d"), ("gcy;", "\u0433"), ("gdot;", "\u0121"),
  ("ge;", "\u2265"), ("gel;", "\u22db"), ("geq;", "\u2265"), ("geqq;", "\u2267"),
  ("geqslant;", "\u2a7e"), ("ges;", "\u2a7e"), ("gescc;", "\u2aa9"), ("gesdot;", "\u2a80"),
  ("gesdoto;", "\u2a82"), ("gesdotol;", "\u2a84"), ("gesl;", "\u22db\ufe00"), ("gesles;", "\u2a94"),
  ("gfr;", "𝔤"), ("gg;", "\u226b"), ("ggg;", "\u22d9"), ("gimel;", "\u2137"),
  ("gjcy;", "\u0453"), ("gl;", "\u2277"), ("glE;", "\u2a92"), ("gla;", "\u2aa5"),
  ("glj;", "\u2aa4"), ("gnE;", "\u2269"), ("gnap;", "\u2a8a"), ("gnapprox;", "\u2a8a"),
  ("gne;", "\u2a88"), ("gneq;", "\u2a88"), ("gneqq;", "\u2269"), ("gnsim;", "\u22e7"),
  ("gopf;", "𝕘"), ("grave;", "\x60"), ("gscr;", "\u210a"), ("gsim;", "\u2273"),
  ("gsime;", "\u2a8e"), ("gsiml;", "\u2a90"), ("gt", ">"), ("gt;", ">"),
  ("gtcc;", "\u2aa7"), ("gtcir;", "\u2a7a"), ("gtdot;", "\u22d7"), ("gtlPar;", "\u2995"),
  ("gtquest;", "\u2a7c"), ("gtrapprox;", "\u2a86"), ("gtrarr;", "\u2978"), ("gtrdot;", "\u22d7"),
  ("gtreqless;", "\u22db"), ("gtreqqless;", "\u2a8c"), ("gtrless;", "\u2277"), ("gtrsim;", "\u2273"),
  ("gvertneqq;", "\u2269\ufe00"), ("gvnE;", "\u2269\ufe00"), ("hArr;", "\u21d4"), ("hairsp;", "\u200a"),
  ("half;", "\u00bd"), ("hamilt;", "\u210b"), ("hardcy;", "\u044a"), ("harr;", "\u2194"),
  ("harrcir;", "\u2948"), ("harrw;", "\u21ad"), ("hbar;", "\u210f"), ("hcirc;", "\u0125"),
  ("hearts;", "\u2665"), ("heartsuit;", "\u2665"), ("hellip;", "\u2026"), ("hercon;", "\u22b9"),
  ("hfr;", "𝔥"), ("hksearow;", "\u2925"), ("hkswarow;", "\u2926"), ("hoarr;", "\u21ff"),
  ("homtht;", "\u223b"), ("hookleftarrow;", "\u21a9"), ("hookrightarrow;", "\u21aa"), ("hopf;", "𝕙"),
  ("horbar;", "\u2015"), ("hscr;", "𝒽"), ("hslash;", "\u210f"), ("hstrok;", "\u0127"),
  ("hybull;", "\u2043"), ("hyphen;", "\u2010"), ("iacute", "\u00ed"), ("iacute;", "\u00ed"),
  ("ic;", "\u2063"), ("icirc", "\u00ee"), ("icirc;", "\u00ee"), ("icy;", "\u0438"),
  ("iecy;", "\u0435"), ("iexcl", "\u00a1"), ("iexcl;", "\u00a1"), ("iff;", "\u21d4"),
  ("ifr;", "𝔦"), ("igrave", "\u00ec"), ("igrave;", "\u00ec"), ("ii;", "\u2148"),
  ("iiiint;", "\u2a0c"), ("iiint;", "\u222d"), ("iinfin;", "\u29dc"), ("iiota;", "\u2129"),
  ("ijlig;", "\u0133"), ("imacr;", "\u012b"), ("image;", "\u2111"), ("imagline;", "\u2110"),
  ("imagpart;", "\u2111"), ("imath;", "\u0131"), ("imof;", "\u22b7"), ("imped;", "\u01b5"),
  ("in;", "\u2208"), ("incare;", "\u2105"), ("infin;", "\u221e"), ("infintie;", "\u29dd"),
  ("inodot;", "\u0131"), ("int;", "\u222b"), ("intcal;", "\u22ba"), ("integers;", "\u2124"),
  ("intercal;", "\u22ba"), ("intlarhk;", "\u2a17"), ("intprod;", "\u2a3c"), ("iocy;", "\u0451"),
  ("iogon;", "\u012f"), ("iopf;", "𝕚"), ("iota;", "\u03b9"), ("iprod;", "\u2a3c"),
  ("iquest", "\u00bf"), ("iquest;", "\u00bf"), ("iscr;", "𝒾"), ("isin;", "\u2208"),
  ("isinE;", "\u22f9"), ("isindot;", "\u22f5"), ("isins;", "\u22f4"), ("isinsv;", "\u22f3"),
  ("isinv;", "\u2208"), ("it;", "\u2062"), ("itilde;", "\u0129"), ("iukcy;", "\u0456"),
  ("iuml", "\u00ef"), ("iuml;", "\u00ef"), ("jcirc;", "\u0135"), ("jcy;", "\u0439"),
  ("jfr;", "𝔧"), ("jmath;", "\u0237"), ("jopf;", "𝕛"), ("jscr;", "𝒿"),
  ("jsercy;", "\u0458"), ("jukcy;", "\u0454"), ("kappa;", "\u03ba"), ("kappav;", "\u03f0"),
  ("kcedil;", "\u0137"), ("kcy;", "\u043a"), ("kfr;", "𝔨"), ("kgreen;", "\u0138"),
  ("khcy;", "\u0445"), ("kjcy;", "\u045c"), ("kopf;", "𝕜"), ("kscr;", "𝓀"),
  ("lAarr;", "\u21da"), ("lArr;", "\u21d0"), ("lAtail;", "\u291b"), ("lBarr;", "\u290e"),
  ("lE;", "\u2266"), ("lEg;", "\u2a8b"), ("lHar;", "\u2962"), ("lacute;", "\u013a"),
  ("laemptyv;", "\u29b4"), ("lagran;", "\u2112"), ("lambda;", "\u03bb"), ("lang;", "\u27e8"),
  ("langd;", "\u2991"), ("langle;", "\u27e8"), ("lap;", "\u2a85"), ("laquo", "\u00ab"),
  ("laquo;", "\u00ab"), ("larr;", "\u2190"), ("larrb;", "\u21e4"), ("larrbfs;", "\u291f"),
  ("larrfs;", "\u291d"), ("larrhk;", "\u21a9"), ("larrlp;", "\u21ab"), ("larrpl;", "\u2939"),
  ("larrsim;", "\u2973"), ("larrtl;", "\u21a2"), ("lat;", "\u2aab"), ("latail;", "\u2919"),
  ("late;", "\u2aad"), ("lates;", "\u2aad\ufe00"), ("lbarr;", "\u290c"), ("lbbrk;", "\u2772"),
  ("lbrace;", "\x7b"), ("lbrack;", "["), ("lbrke;", "\u298b"), ("lbrksld;", "\u298f"),
  ("lbrkslu;", "\u298d"), ("lcaron;", "\u013e"), ("lcedil;", "\u013c"), ("lceil;", "\u2308"),
  ("lcub;", "\x7b"), ("lcy;", "\u043b"), ("ldca;", "\u2936"), ("ldquo;", "\u201c"),
  ("ldquor;", "\u201e"), ("ldrdhar;", "\u2967"), ("ldrushar;", "\u294b"), ("ldsh;", "\u21b2"),
  ("le;", "\u2264"), ("leftarrow;", "\u2190"), ("leftarrowtail;", "\u21a2"), ("leftharpoondown;", "\u21bd"),
  ("leftharpoonup;", "\u21bc"), ("leftleftarrows;", "\u21c7"), ("leftrightarrow;", "\u2194"), ("leftrightarrows;", "\u21c6"),
  ("leftrightharpoons;", "\u21cb"), ("leftrightsquigarrow;", "\u21ad"), ("leftthreetimes;", "\u22cb"), ("leg;", "\u22da"),
  ("leq;", "\u2264"), ("leqq;", "\u2266"), ("leqslant;", "\u2a7d"), ("les;", "\u2a7d"),
  ("lescc;", "\u2aa8"), ("lesdot;", "\u2a7f"), ("lesdoto;", "\u2a81"), ("lesdotor;", "\u2a83"),
  ("lesg;", "\u22da\ufe00"), ("lesges;", "\u2a93"), ("lessapprox;", "\u2a85"), ("lessdot;", "\u22d6"),
  ("lesseqgtr;", "\u22da"), ("lesseqqgtr;", "\u2a8b"), ("lessgtr;", "\u2276"), ("lesssim;", "\u2272"),
  ("lfisht;", "\u297c"), ("lfloor;", "\u230a"), ("lfr;", "𝔩"), ("lg;", "\u2276"),
  ("lgE;", "\u2a91"), ("lhard;", "\u21bd"), ("lharu;", "\u21bc"), ("lharul;", "\u296a"),
  ("lhblk;", "\u2584"), ("ljcy;", "\u0459"), ("ll;", "\u226a"), ("llarr;", "\u21c7"),
  ("llcorner;", "\u231e"), ("llhard;", "\u296b"), ("lltri;", "\u25fa"), ("lmidot;", "\u0140"),
  ("lmoust;", "\u23b0"), ("lmoustache;", "\u23b0"), ("lnE;", "\u2268"), ("lnap;", "\u2a89"),
  ("lnapprox;", "\u2a89"), ("lne;", "\u2a87"), ("lneq;", "\u2a87"), ("lneqq;", "\u2268"),
  ("lnsim;", "\u22e6"), ("loang;", "\u27ec"), ("loarr;", "\u21fd"), ("lobrk;", "\u27e6"),
  ("longleftarrow;", "\u27f5"), ("longleftrightarrow;", "\u27f7"), ("longmapsto;", "\u27fc"), ("longrightarrow;", "\u27f6"),
  ("looparrowleft;", "\u21ab"), ("looparrowright;", "\u21ac"), ("lopar;", "\u2985"), ("lopf;", "𝕝"),
  ("loplus;", "\u2a2d"), ("lotimes;", "\u2a34"), ("lowast;", "\u2217"), ("lowbar;", "_"),
  ("loz;", "\u25ca"), ("lozenge;", "\u25ca"), ("lozf;", "\u29eb"), ("lpar;", "("),
  ("lparlt;", "\u2993"), ("lrarr;", "\u21c6"), ("lrcorner;", "\u231f"), ("lrhar;", "\u21cb"),
  ("lrhard;", "\u296d"), ("lrm;", "\u200e"), ("lrtri;", "\u22bf"), ("lsaquo;", "\u2039"),
  ("lscr;", "𝓁"), ("lsh;", "\u21b0"), ("lsim;", "\u2272"), ("lsime;", "\u2a8d"),
  ("lsimg;", "\u2a8f"), ("lsqb;", "["), ("lsquo;", "\u2018"), ("lsquor;", "\u201a"),
  ("lstrok;", "\u0142"), ("lt", "<"), ("lt;", "<"), ("ltcc;", "\u2aa6"),
  ("ltcir;", "\u2a79"), ("ltdot;", "\u22d6"), ("lthree;", "\u22cb"), ("ltimes;", "\u22c9"),
  ("ltlarr;", "\u2976"), ("ltquest;", "\u2a7b"), ("ltrPar;", "\u2996"), ("ltri;", "\u25c3"),
  ("ltrie;", "\u22b4"), ("ltrif;", "\u25c2"), ("lurdshar;", "\u294a"), ("luruhar;", "\u2966"),
  ("lvertneqq;", "\u2268\ufe00"), ("lvnE;", "\u2268\ufe00"), ("mDDot;", "\u223a"), ("macr", "\u00af"),
  ("macr;", "\u00af"), ("male;", "\u2642"), ("malt;", "\u2720"), ("maltese;", "\u2720"),
  ("map;", "\u21a6"), ("mapsto;", "\u21a6"), ("mapstodown;", "\u21a7"), ("mapstoleft;", "\u21a4"),
  ("mapstoup;", "\u21a5"), ("marker;", "\u25ae"), ("mcomma;", "\u2a29"), ("mcy;", "\u043c"),
  ("mdash;", "\u2014"), ("measuredangle;", "\u2221"), ("mfr;", "𝔪"), ("mho;", "\u2127"),
  ("micro", "\u00b5"), ("micro;", "\u00b5"), ("mid;", "\u2223"), ("midast;", "*"),
  ("midcir;", "\u2af0"), ("middot", "\u00b7"), ("middot;", "\u00b7"), ("minus;", "\u2212"),
  ("minusb;", "\u229f"), ("minusd;", "\u2238"), ("minusdu;", "\u2a2a"), ("mlcp;", "\u2adb"),
  ("mldr;", "\u2026"), ("mnplus;", "\u2213"), ("models;", "\u22a7"), ("mopf;", "𝕞"),
  ("mp;", "\u2213"), ("mscr;", "𝓂"), ("mstpos;", "\u223e"), ("mu;", "\u03bc"),
  ("multimap;", "\u22b8"), ("mumap;", "\u22b8"), ("nGg;", "\u22d9\u0338"), ("nGt;", "\u226b\u20d2"),
  ("nGtv;", "\u226b\u0338"), ("nLeftarrow;", "\u21cd"), ("nLeftrightarrow;", "\u21ce"), ("nLl;", "\u22d8\u0338"),
  ("nLt;", "\u226a\u20d2"), ("nLtv;", "\u226a\u0338"), ("nRightarrow;", "\u21cf"), ("nVDash;", "\u22af"),
  ("nVdash;", "\u22ae"), ("nabla;", "\u2207"), ("nacute;", "\u0144"), ("nang;", "\u2220\u20d2"),
  ("nap;", "\u2249"), ("napE;", "\u2a70\u0338"), ("napid;", "\u224b\u0338"), ("napos;", "\u0149"),
  ("napprox;", "\u2249"), ("natur;", "\u266e"), ("natural;", "\u266e"), ("naturals;", "\u2115"),
  ("nbsp", "\u00a0"), ("nbsp;", "\u00a0"), ("nbump;", "\u224e\u0338"), ("nbumpe;", "\u224f\u0338"),
  ("ncap;", "\u2a43"), ("ncaron;", "\u0148"), ("ncedil;", "\u0146"), ("ncong;", "\u2247"),
  ("ncongdot;", "\u2a6d\u0338"), ("ncup;", "\u2a42"), ("ncy;", "\u043d"), ("ndash;", "\u2013"),
  ("ne;", "\u2260"), ("neArr;", "\u21d7"), ("nearhk;", "\u2924"), ("nearr;", "\u2197"),
  ("nearrow;", "\u2197"), ("nedot;", "\u2250\u0338"), ("nequiv;", "\u2262"), ("nesear;", "\u2928"),
  ("nesim;", "\u2242\u0338"), ("nexist;", "\u2204"), ("nexists;", "\u2204"), ("nfr;", "𝔫"),
  ("ngE;", "\u2267\u0338"), ("nge;", "\u2271"), ("ngeq;", "\u2271"), ("ngeqq;", "\u2267\u0338"),
  ("ngeqslant;", "\u2a7e\u0338"), ("nges;", "\u2a7e\u0338"), ("ngsim;", "\u2275"), ("ngt;", "\u226f"),
  ("ngtr;", "\u226f"), ("nhArr;", "\u21ce"), ("nharr;", "\u21ae"), ("nhpar;", "\u2af2"),
  ("ni;", "\u220b"), ("nis;", "\u22fc"), ("nisd;", "\u22fa"), ("niv;", "\u220b"),
  ("njcy;", "\u045a"), ("nlArr;", "\u21cd"), ("nlE;", "\u2266\u0338"), ("nlarr;", "\u219a"),
  ("nldr;", "\u2025"), ("nle;", "\u2270"), ("nleftarrow;", "\u219a"), ("nleftrightarrow;", "\u21ae"),
  ("nleq;", "\u2270"), ("nleqq;", "\u2266\u0338"), ("nleqslant;", "\u2a7d\u0338"), ("nles;", "\u2a7d\u0338"),
  ("nless;", "\u226e"), ("nlsim;", "\u2274"), ("nlt;", "\u226e"), ("nltri;", "\u22ea"),
  ("nltrie;", "\u22ec"), ("nmid;", "\u2224"), ("nopf;", "𝕟"), ("not", "\u00ac"),
  ("not;", "\u00ac"), ("notin;", "\u2209"), ("notinE;", "\u22f9\u0338"), ("notindot;", "\u22f5\u0338"),
  ("notinva;", "\u2209"), ("notinvb;", "\u22f7"), ("notinvc;", "\u22f6"), ("notni;", "\u220c"),
  ("notniva;", "\u220c"), ("notnivb;", "\u22fe"), ("notnivc;", "\u22fd"), ("npar;", "\u2226"),
  ("nparallel;", "\u2226"), ("nparsl;", "\u2afd\u20e5"), ("npart;", "\u2202\u0338"), ("npolint;", "\u2a14"),
  ("npr;", "\u2280"), ("nprcue;", "\u22e0"), ("npre;", "\u2aaf\u0338"), ("nprec;", "\u2280"),
  ("npreceq;", "\u2aaf\u0338"), ("nrArr;", "\u21cf"), ("nrarr;", "\u219b"), ("nrarrc;", "\u2933\u0338"),
  ("nrarrw;", "\u219d\u0338"), ("nrightarrow;", "\u219b"), ("nrtri;", "\u22eb"), ("nrtrie;", "\u22ed"),
  ("nsc;", "\u2281"), ("nsccue;", "\u22e1"), ("nsce;", "\u2ab0\u0338"), ("nscr;", "𝓃"),
  ("nshortmid;", "\u2224"), ("nshortparallel;", "\u2226"), ("nsim;", "\u2241"), ("nsime;", "\u2244"),
  ("nsimeq;", "\u2244"), ("nsmid;", "\u2224"), ("nspar;", "\u2226"), ("nsqsube;", "\u22e2"),
  ("nsqsupe;", "\u22e3"), ("nsub;", "\u2284"), ("nsubE;", "\u2ac5\u0338"), ("nsube;", "\u2288"),
  ("nsubset;", "\u2282\u20d2"), ("nsubseteq;", "\u2288"), ("nsubseteqq;", "\u2ac5\u0338"), ("nsucc;", "\u2281"),
  ("nsucceq;", "\u2ab0\u0338"), ("nsup;", "\u2285"), ("nsupE;", "\u2ac6\u0338"), ("nsupe;", "\u2289"),
  ("nsupset;", "\u2283\u20d2"), ("nsupseteq;", "\u2289"), ("nsupseteqq;", "\u2ac6\u0338"), ("ntgl;", "\u2279"),
  ("ntilde", "\u00f1"), ("ntilde;", "\u00f1"), ("ntlg;", "\u2278"), ("ntriangleleft;", "\u22ea"),
  ("ntrianglelefteq;", "\u22ec"), ("ntriangleright;", "\u22eb"), ("ntrianglerighteq;", "\u22ed"), ("nu;", "\u03bd"),
  ("num;", "#"), ("numero;", "\u2116"), ("numsp;", "\u2007"), ("nvDash;", "\u22ad"),
  ("nvHarr;", "\u2904"), ("nvap;", "\u224d\u20d2"), ("nvdash;", "\u22ac"), ("nvge;", "\u2265\u20d2"),
  ("nvgt;", ">\u20d2"), ("nvinfin;", "\u29de"), ("nvlArr;", "\u2902"), ("nvle;", "\u2264\u20d2"),
  ("nvlt;", "<\u20d2"), ("nvltrie;", "\u22b4\u20d2"), ("nvrArr;", "\u2903"), ("nvrtrie;", "\u22b5\u20d2"),
  ("nvsim;", "\u223c\u20d2"), ("nwArr;", "\u21d6"), ("nwarhk;", "\u2923"), ("nwarr;", "\u2196"),
  ("nwarrow;", "\u2196"), ("nwnear;", "\u2927"), ("oS;", "\u24c8"), ("oacute", "\u00f3"),
  ("oacute;", "\u00f3"), ("oast;", "\u229b"), ("ocir;", "\u229a"), ("ocirc", "\u00f4"),
  ("ocirc;", "\u00f4"), ("ocy;", "\u043e"), ("odash;", "\u229d"), ("odblac;", "\u0151"),
  ("odiv;", "\u2a38"), ("odot;", "\u2299"), ("odsold;", "\u29bc"), ("oelig;", "\u0153"),
  ("ofcir;", "\u29bf"), ("ofr;", "𝔬"), ("ogon;", "\u02db"), ("ograve", "\u00f2"),
  ("ograve;", "\u00f2"), ("ogt;", "\u29c1"), ("ohbar;", "\u29b5"), ("ohm;", "\u03a9"),
  ("oint;", "\u222e"), ("olarr;", "\u21ba"), ("olcir;", "\u29be"), ("olcross;", "\u29bb"),
  ("oline;", "\u203e"), ("olt;", "\u29c0"), ("omacr;", "\u014d"), ("omega;", "\u03c9"),
  ("omicron;", "\u03bf"), ("omid;", "\u29b6"), ("ominus;", "\u2296"), ("oopf;", "𝕠"),
  ("opar;", "\u29b7"), ("operp;", "\u29b9"), ("oplus;", "\u2295"), ("or;", "\u2228"),
  ("orarr;", "\u21bb"), ("ord;", "\u2a5d"), ("order;", "\u2134"), ("orderof;", "\u2134"),
  ("ordf", "\u00aa"), ("ordf;", "\u00aa"), ("ordm", "\u00ba"), ("ordm;", "\u00ba"),
  ("origof;", "\u22b6"), ("oror;", "\u2a56"), ("orslope;", "\u2a57"), ("orv;", "\u2a5b"),
  ("oscr;", "\u2134"), ("oslash", "\u00f8"), ("oslash;", "\u00f8"), ("osol;", "\u2298"),
  ("otilde", "\u00f5"), ("otilde;", "\u00f5"), ("otimes;", "\u2297"), ("otimesas;", "\u2a36"),
  ("ouml", "\u00f6"), ("ouml;", "\u00f6"), ("ovbar;", "\u233d"), ("par;", "\u2225"),
  ("para", "\u00b6"), ("para;", "\u00b6"), ("parallel;", "\u2225"), ("parsim;", "\u2af3"),
  ("parsl;", "\u2afd"), ("part;", "\u2202"), ("pcy;", "\u043f"), ("percnt;", "%"),
  ("period;", "."), ("permil;", "\u2030"), ("perp;", "\u22a5"), ("pertenk;", "\u2031"),
  ("pfr;", "𝔭"), ("phi;", "\u03c6"), ("phiv;", "\u03d5"), ("phmmat;", "\u2133"),
  ("phone;", "\u260e"), ("pi;", "\u03c0"), ("pitchfork;", "\u22d4"), ("piv;", "\u03d6"),
  ("planck;", "\u210f"), ("planckh;", "\u210e"), ("plankv;", "\u210f"), ("plus;", "+"),
  ("plusacir;", "\u2a23"), ("plusb;", "\u229e"), ("pluscir;", "\u2a22"), ("plusdo;", "\u2214"),
  ("plusdu;", "\u2a25"), ("pluse;", "\u2a72"), ("plusmn", "\u00b1"), ("plusmn;", "\u00b1"),
  ("plussim;", "\u2a26"), ("plustwo;", "\u2a27"), ("pm;", "\u00b1"), ("pointint;", "\u2a15"),
  ("popf;", "𝕡"), ("pound", "\u00a3"), ("pound;", "\u00a3"), ("pr;", "\u227a"),
  ("prE;", "\u2ab3"), ("prap;", "\u2ab7"), ("prcue;", "\u227c"), ("pre;", "\u2aaf"),
  ("prec;", "\u227a"), ("precapprox;", "\u2ab7"), ("preccurlyeq;", "\u227c"), ("preceq;", "\u2aaf"),
  ("precnapprox;", "\u2ab9"), ("precneqq;", "\u2ab5"), ("precnsim;", "\u22e8"), ("precsim;", "\u227e"),
  ("prime;", "\u2032"), ("primes;", "\u2119"), ("prnE;", "\u2ab5"), ("prnap;", "\u2ab9"),
  ("prnsim;", "\u22e8"), ("prod;", "\u220f"), ("profalar;", "\u232e"), ("profline;", "\u2312"),
  ("profsurf;", "\u2313"), ("prop;", "\u221d"), ("propto;", "\u221d"), ("prsim;", "\u227e"),
  ("prurel;", "\u22b0"), ("pscr;", "𝓅"), ("psi;", "\u03c8"), ("puncsp;", "\u2008"),
  ("qfr;", "𝔮"), ("qint;", "\u2a0c"), ("qopf;", "𝕢"), ("qprime;", "\u2057"),
  ("qscr;", "𝓆"), ("quaternions;", "\u210d"), ("quatint;", "\u2a16"), ("quest;", "?"),
  ("questeq;", "\u225f"), ("quot", "\x22"), ("quot;", "\x22"), ("rAarr;", "\u21db"),
  ("rArr;", "\u21d2"), ("rAtail;", "\u291c"), ("rBarr;", "\u290f"), ("rHar;", "\u2964"),
  ("race;", "\u223d\u0331"), ("racute;", "\u0155"), ("radic;", "\u221a"), ("raemptyv;", "\u29b3"),
  ("rang;", "\u27e9"), ("rangd;", "\u2992"), ("range;", "\u29a5"), ("rangle;", "\u27e9"),
  ("raquo", "\u00bb"), ("raquo;", "\u00bb"), ("rarr;", "\u2192"), ("rarrap;", "\u2975"),
  ("rarrb;", "\u21e5"), ("rarrbfs;", "\u2920"), ("rarrc;", "\u2933"), ("rarrfs;", "\u291e"),
  ("rarrhk;", "\u21aa"), ("rarrlp;", "\u21ac"), ("rarrpl;", "\u2945"), ("rarrsim;", "\u2974"),
  ("rarrtl;", "\u21a3"), ("rarrw;", "\u219d"), ("ratail;", "\u291a"), ("ratio;", "\u2236"),
  ("rationals;", "\u211a"), ("rbarr;", "\u290d"), ("rbbrk;", "\u2773"), ("rbrace;", "\x7d"),
  ("rbrack;", "]"), ("rbrke;", "\u298c"), ("rbrksld;", "\u298e"), ("rbrkslu;", "\u2990"),
  ("rcaron;", "\u0159"), ("rcedil;", "\u0157"), ("rceil;", "\u2309"), ("rcub;", "\x7d"),
  ("rcy;", "\u0440"), ("rdca;", "\u2937"), ("rdldhar;", "\u2969"), ("rdquo;", "\u201d"),
  ("rdquor;", "\u201d"), ("rdsh;", "\u21b3"), ("real;", "\u211c"), ("realine;", "\u211b"),
  ("realpart;", "\u211c"), ("reals;", "\u211d"), ("rect;", "\u25ad"), ("reg", "\u00ae"),
  ("reg;", "\u00ae"), ("rfisht;", "\u297d"), ("rfloor;", "\u230b"), ("rfr;", "𝔯"),
  ("rhard;", "\u21c1"), ("rharu;", "\u21c0"), ("rharul;", "\u296c"), ("rho;", "\u03c1"),
  ("rhov;", "\u03f1"), ("rightarrow;", "\u2192"), ("rightarrowtail;", "\u21a3"), ("rightharpoondown;", "\u21c1"),
  ("rightharpoonup;", "\u21c0"), ("rightleftarrows;", "\u21c4"), ("rightleftharpoons;", "\u21cc"), ("rightrightarrows;", "\u21c9"),
  ("rightsquigarrow;", "\u219d"), ("rightthreetimes;", "\u22cc"), ("ring;", "\u02da"), ("risingdotseq;", "\u2253"),
  ("rlarr;", "\u21c4"), ("rlhar;", "\u21cc"), ("rlm;", "\u200f"), ("rmoust;", "\u23b1"),
  ("rmoustache;", "\u23b1"), ("rnmid;", "\u2aee"), ("roang;", "\u27ed"), ("roarr;", "\u21fe"),
  ("robrk;", "\u27e7"), ("ropar;", "\u2986"), ("ropf;", "𝕣"), ("roplus;", "\u2a2e"),
  ("rotimes;", "\u2a35"), ("rpar;", ")"), ("rpargt;", "\u2994"), ("rppolint;", "\u2a12"),
  ("rrarr;", "\u21c9"), ("rsaquo;", "\u203a"), ("rscr;", "𝓇"), ("rsh;", "\u21b1"),
  ("rsqb;", "]"), ("rsquo;", "\u2019"), ("rsquor;", "\u2019"), ("rthree;", "\u22cc"),
  ("rtimes;", "\u22ca"), ("rtri;", "\u25b9"), ("rtrie;", "\u22b5"), ("rtrif;", "\u25b8"),
  ("rtriltri;", "\u29ce"), ("ruluhar;", "\u2968"), ("rx;", "\u211e"), ("sacute;", "\u015b"),
  ("sbquo;", "\u201a"), ("sc;", "\u227b"), ("scE;", "\u2ab4"), ("scap;", "\u2ab8"),
  ("scaron;", "\u0161"), ("sccue;", "\u227d"), ("sce;", "\u2ab0"), ("scedil;", "\u015f"),
  ("scirc;", "\u015d"), ("scnE;", "\u2ab6"), ("scnap;", "\u2aba"), ("scnsim;", "\u22e9"),
  ("scpolint;", "\u2a13"), ("scsim;", "\u227f"), ("scy;", "\u0441"), ("sdot;", "\u22c5"),
  ("sdotb;", "\u22a1"), ("sdote;", "\u2a66"), ("seArr;", "\u21d8"), ("searhk;", "\u2925"),
  ("searr;", "\u2198"), ("searrow;", "\u2198"), ("sect", "\u00a7"), ("sect;", "\u00a7"),
  ("semi;", ";"), ("seswar;", "\u2929"), ("setminus;", "\u2216"), ("setmn;", "\u2216"),
  ("sext;", "\u2736"), ("sfr;", "𝔰"), ("sfrown;", "\u2322"), ("sharp;", "\u266f"),
  ("shchcy;", "\u0449"), ("shcy;", "\u0448"), ("shortmid;", "\u2223"), ("shortparallel;", "\u2225"),
  ("shy", "\u00ad"), ("shy;", "\u00ad"), ("sigma;", "\u03c3"), ("sigmaf;", "\u03c2"),
  ("sigmav;", "\u03c2"), ("sim;", "\u223c"), ("simdot;", "\u2a6a"), ("sime;", "\u2243"),
  ("simeq;", "\u2243"), ("simg;", "\u2a9e"), ("simgE;", "\u2aa0"), ("siml;", "\u2a9d"),
  ("simlE;", "\u2a9f"), ("simne;", "\u2246"), ("simplus;", "\u2a24"), ("simrarr;", "\u2972"),
  ("slarr;", "\u2190"), ("smallsetminus;", "\u2216"), ("smashp;", "\u2a33"), ("smeparsl;", "\u29e4"),
  ("smid;", "\u2223"), ("smile;", "\u2323"), ("smt;", "\u2aaa"), ("smte;", "\u2aac"),
  ("smtes;", "\u2aac\ufe00"), ("softcy;", "\u044c"), ("sol;", "/"), ("solb;", "\u29c4"),
  ("solbar;", "\u233f"), ("sopf;", "𝕤"), ("spades;", "\u2660"), ("spadesuit;", "\u2660"),
  ("spar;", "\u2225"), ("sqcap;", "\u2293"), ("sqcaps;", "\u2293\ufe00"), ("sqcup;", "\u2294"),
  ("sqcups;", "\u2294\ufe00"), ("sqsub;", "\u228f"), ("sqsube;", "\u2291"), ("sqsubset;", "\u228f"),
  ("sqsubseteq;", "\u2291"), ("sqsup;", "\u2290"), ("sqsupe;", "\u2292"), ("sqsupset;", "\u2290"),
  ("sqsupseteq;", "\u2292"), ("squ;", "\u25a1"), ("square;", "\u25a1"), ("squarf;", "\u25aa"),
  ("squf;", "\u25aa"), ("srarr;", "\u2192"), ("sscr;", "𝓈"), ("ssetmn;", "\u2216"),
  ("ssmile;", "\u2323"), ("sstarf;", "\u22c6"), ("star;", "\u2606"), ("starf;", "\u2605"),
  ("straightepsilon;", "\u03f5"), ("straightphi;", "\u03d5"), ("strns;", "\u00af"), ("sub;", "\u2282"),
  ("subE;", "\u2ac5"), ("subdot;", "\u2abd"), ("sube;", "\u2286"), ("subedot;", "\u2ac3"),
  ("submult;", "\u2ac1"), ("subnE;", "\u2acb"), ("subne;", "\u228a"), ("subplus;", "\u2abf"),
  ("subrarr;", "\u2979"), ("subset;", "\u2282"), ("subseteq;", "\u2286"), ("subseteqq;", "\u2ac5"),
  ("subsetneq;", "\u228a"), ("subsetneqq;", "\u2acb"), ("subsim;", "\u2ac7"), ("subsub;", "\u2ad5"),
  ("subsup;", "\u2ad3"), ("succ;", "\u227b"), ("succapprox;", "\u2ab8"), ("succcurlyeq;", "\u227d"),
  ("succeq;", "\u2ab0"), ("succnapprox;", "\u2aba"), ("succneqq;", "\u2ab6"), ("succnsim;", "\u22e9"),
  ("succsim;", "\u227f"), ("sum;", "\u2211"), ("sung;", "\u266a"), ("sup1", "\u00b9"),
  ("sup1;", "\u00b9"), ("sup2", "\u00b2"), ("sup2;", "\u00b2"), ("sup3", "\u00b3"),
  ("sup3;", "\u00b3"), ("sup;", "\u2283"), ("supE;", "\u2ac6"), ("supdot;", "\u2abe"),
  ("supdsub;", "\u2ad8"), ("supe;", "\u2287"), ("supedot;", "\u2ac4"), ("suphsol;", "\u27c9"),
  ("suphsub;", "\u2ad7"), ("suplarr;", "\u297b"), ("supmult;", "\u2ac2"), ("supnE;", "\u2acc"),
  ("supne;", "\u228b"), ("supplus;", "\u2ac0"), ("supset;", "\u2283"), ("supseteq;", "\u2287"),
  ("supseteqq;", "\u2ac6"), ("supsetneq;", "\u228b"), ("supsetneqq;", "\u2acc"), ("supsim;", "\u2ac8"),
  ("supsub;", "\u2ad4"), ("supsup;", "\u2ad6"), ("swArr;", "\u21d9"), ("swarhk;", "\u2926"),
  ("swarr;", "\u2199"), ("swarrow;", "\u2199"), ("swnwar;", "\u292a"), ("szlig", "\u00df"),
  ("szlig;", "\u00df"), ("target;", "\u2316"), ("tau;", "\u03c4"), ("tbrk;", "\u23b4"),
  ("tcaron;", "\u0165"), ("tcedil;", "\u0163"), ("tcy;", "\u0442"), ("tdot;", "\u20db"),
  ("telrec;", "\u2315"), ("tfr;", "𝔱"), ("there4;", "\u2234"), ("therefore;", "\u2234"),
  ("theta;", "\u03b8"), ("thetasym;", "\u03d1"), ("thetav;", "\u03d1"), ("thickapprox;", "\u2248"),
  ("thicksim;", "\u223c"), ("thinsp;", "\u2009"), ("thkap;", "\u2248"), ("thksim;", "\u223c"),
  ("thorn", "\u00fe"), ("thorn;", "\u00fe"), ("tilde;", "\u02dc"), ("times", "\u00d7"),
  ("times;", "\u00d7"), ("timesb;", "\u22a0"), ("timesbar;", "\u2a31"), ("timesd;", "\u2a30"),
  ("tint;", "\u222d"), ("toea;", "\u2928"), ("top;", "\u22a4"), ("topbot;", "\u2336"),
  ("topcir;", "\u2af1"), ("topf;", "𝕥"), ("topfork;", "\u2ada"), ("tosa;", "\u2929"),
  ("tprime;", "\u2034"), ("trade;", "\u2122"), ("triangle;", "\u25b5"), ("triangledown;", "\u25bf"),
  ("triangleleft;", "\u25c3"), ("trianglelefteq;", "\u22b4"), ("triangleq;", "\u225c"), ("triangleright;", "\u25b9"),
  ("trianglerighteq;", "\u22b5"), ("tridot;", "\u25ec"), ("trie;", "\u225c"), ("triminus;", "\u2a3a"),
  ("triplus;", "\u2a39"), ("trisb;", "\u29cd"), ("tritime;", "\u2a3b"), ("trpezium;", "\u23e2"),
  ("tscr;", "𝓉"), ("tscy;", "\u0446"), ("tshcy;", "\u045b"), ("tstrok;", "\u0167"),
  ("twixt;", "\u226c"), ("twoheadleftarrow;", "\u219e"), ("twoheadrightarrow;", "\u21a0"), ("uArr;", "\u21d1"),
  ("uHar;", "\u2963"), ("uacute", "\u00fa"), ("uacute;", "\u00fa"), ("uarr;", "\u2191"),
  ("ubrcy;", "\u045e"), ("ubreve;", "\u016d"), ("ucirc", "\u00fb"), ("ucirc;", "\u00fb"),
  ("ucy;", "\u0443"), ("udarr;", "\u21c5"), ("udblac;", "\u0171"), ("udhar;", "\u296e"),
  ("ufisht;", "\u297e"), ("ufr;", "𝔲"), ("ugrave", "\u00f9"), ("ugrave;", "\u00f9"),
  ("uharl;", "\u21bf"), ("uharr;", "\u21be"), ("uhblk;", "\u2580"), ("ulcorn;", "\u231c"),
  ("ulcorner;", "\u231c"), ("ulcrop;", "\u230f"), ("ultri;", "\u25f8"), ("umacr;", "\u016b"),
  ("uml", "\u00a8"), ("uml;", "\u00a8"), ("uogon;", "\u0173"), ("uopf;", "𝕦"),
  ("uparrow;", "\u2191"), ("updownarrow;", "\u2195"), ("upharpoonleft;", "\u21bf"), ("upharpoonright;", "\u21be"),
  ("uplus;", "\u228e"), ("upsi;", "\u03c5"), ("upsih;", "\u03d2"), ("upsilon;", "\u03c5"),
  ("upuparrows;", "\u21c8"), ("urcorn;", "\u231d"), ("urcorner;", "\u231d"), ("urcrop;", "\u230e"),
  ("uring;", "\u016f"), ("urtri;", "\u25f9"), ("uscr;", "𝓊"), ("utdot;", "\u22f0"),
  ("utilde;", "\u0169"), ("utri;", "\u25b5"), ("utrif;", "\u25b4"), ("uuarr;", "\u21c8"),
  ("uuml", "\u00fc"), ("uuml;", "\u00fc"), ("uwangle;", "\u29a7"), ("vArr;", "\u21d5"),
  ("vBar;", "\u2ae8"), ("vBarv;", "\u2ae9"), ("vDash;", "\u22a8"), ("vangrt;", "\u299c"),
  ("varepsilon;", "\u03f5"), ("varkappa;", "\u03f0"), ("varnothing;", "\u2205"), ("varphi;", "\u03d5"),
  ("varpi;", "\u03d6"), ("varpropto;", "\u221d"), ("varr;", "\u2195"), ("varrho;", "\u03f1"),
  ("varsigma;", "\u03c2"), ("varsubsetneq;", "\u228a\ufe00"), ("varsubsetneqq;", "\u2acb\ufe00"), ("varsupsetneq;", "\u228b\ufe00"),
  ("varsupsetneqq;", "\u2acc\ufe00"), ("vartheta;", "\u03d1"), ("vartriangleleft;", "\u22b2"), ("vartriangleright;", "\u22b3"),
  ("vcy;", "\u0432"), ("vdash;", "\u22a2"), ("vee;", "\u2228"), ("veebar;", "\u22bb"),
  ("veeeq;", "\u225a"), ("vellip;", "\u22ee"), ("verbar;", "|"), ("vert;", "|"),
  ("vfr;", "𝔳"), ("vltri;", "\u22b2"), ("vnsub;", "\u2282\u20d2"), ("vnsup;", "\u2283\u20d2"),
  ("vopf;", "𝕧"), ("vprop;", "\u221d"), ("vrtri;", "\u22b3"), ("vscr;", "𝓋"),
  ("vsubnE;", "\u2acb\ufe00"), ("vsubne;", "\u228a\ufe00"), ("vsupnE;", "\u2acc\ufe00"), ("vsupne;", "\u228b\ufe00"),
  ("vzigzag;", "\u299a"), ("wcirc;", "\u0175"), ("wedbar;", "\u2a5f"), ("wedge;", "\u2227"),
  ("wedgeq;", "\u2259"), ("weierp;", "\u2118"), ("wfr;", "𝔴"), ("wopf;", "𝕨"),
  ("wp;", "\u2118"), ("wr;", "\u2240"), ("wreath;", "\u2240"), ("wscr;", "𝓌"),
  ("xcap;", "\u22c2"), ("xcirc;", "\u25ef"), ("xcup;", "\u22c3"), ("xdtri;", "\u25bd"),
  ("xfr;", "𝔵"), ("xhArr;", "\u27fa"), ("xharr;", "\u27f7"), ("xi;", "\u03be"),
  ("xlArr;", "\u27f8"), ("xlarr;", "\u27f5"), ("xmap;", "\u27fc"), ("xnis;", "\u22fb"),
  ("xodot;", "\u2a00"), ("xopf;", "𝕩"), ("xoplus;", "\u2a01"), ("xotime;", "\u2a02"),
  ("xrArr;", "\u27f9"), ("xrarr;", "\u27f6"), ("xscr;", "𝓍"), ("xsqcup;", "\u2a06"),
  ("xuplus;", "\u2a04"), ("xutri;", "\u25b3"), ("xvee;", "\u22c1"), ("xwedge;", "\u22c0"),
  ("yacute", "\u00fd"), ("yacute;", "\u00fd"), ("yacy;", "\u044f"), ("ycirc;", "\u0177"),
  ("ycy;", "\u044b"), ("yen", "\u00a5"), ("yen;", "\u00a5"), ("yfr;", "𝔶"),
  ("yicy;", "\u0457"), ("yopf;", "𝕪"), ("yscr;", "𝓎"), ("yucy;", "\u044e"),
  ("yuml", "\u00ff"), ("yuml;", "\u00ff"), ("zacute;", "\u017a"), ("zcaron;", "\u017e"),
  ("zcy;", "\u0437"), ("zdot;", "\u017c"), ("zeetrf;", "\u2128"), ("zeta;", "\u03b6"),
  ("zfr;", "𝔷"), ("zhcy;", "\u0436"), ("zigrarr;", "\u21dd"), ("zopf;", "𝕫"),
  ("zscr;", "𝓏"), ("zwj;", "\u200d"), ("zwnj;", "\u200c")]

/-- The `_invalid_charrefs` remapping table of the Python `html` module. -/
def invalidCharrefs : List (Nat × Char) :=
  [(0x00, '�'), (0x0d, '\r'), (0x80, '€'), (0x81, '\x81'),
   (0x82, '‚'), (0x83, 'ƒ'), (0x84, '„'), (0x85, '…'),
   (0x86, '†'), (0x87, '‡'), (0x88, 'ˆ'), (0x89, '‰'),
   (0x8a, 'Š'), (0x8b, '‹'), (0x8c, 'Œ'), (0x8d, '\x8d'),
   (0x8e, 'Ž'), (0x8f, '\x8f'), (0x90, '\x90'), (0x91, '‘'),
   (0x92, '’'), (0x93, '“'), (0x94, '”'), (0x95, '•'),
   (0x96, '–'), (0x97, '—'), (0x98, '˜'), (0x99, '™'),
   (0x9a, 'š'), (0x9b, '›'), (0x9c, 'œ'), (0x9d, '\x9d'),
   (0x9e, 'ž'), (0x9f, 'Ÿ')]

/-- The `_invalid_codepoints` set of the Python `html` module. -/
def invalidCodepoints : List Nat :=
  [0x1, 0x2, 0x3, 0x4, 0x5, 0x6, 0x7, 0x8,
   0xe, 0xf, 0x10, 0x11, 0x12, 0x13, 0x14, 0x15, 0x16, 0x17, 0x18, 0x19,
   0x1a, 0x1b, 0x1c, 0x1d, 0x1e, 0x1f,
   0x7f, 0x80, 0x81, 0x82, 0x83, 0x84, 0x85, 0x86, 0x87, 0x88, 0x89, 0x8a,
   0x8b, 0x8c, 0x8d, 0x8e, 0x8f, 0x90, 0x91, 0x92, 0x93, 0x94, 0x95, 0x96,
   0x97, 0x98, 0x99, 0x9a, 0x9b, 0x9c, 0x9d, 0x9e, 0x9f,
   0xfdd0, 0xfdd1, 0xfdd2, 0xfdd3, 0xfdd4, 0xfdd5, 0xfdd6, 0xfdd7, 0xfdd8,
   0xfdd9, 0xfdda, 0xfddb, 0xfddc, 0xfddd, 0xfdde, 0xfddf, 0xfde0, 0xfde1,
   0xfde2, 0xfde3, 0xfde4, 0xfde5, 0xfde6, 0xfde7, 0xfde8, 0xfde9, 0xfdea,
   0xfdeb, 0xfdec, 0xfded, 0xfdee, 0xfdef,
   0xb, 0xfffe, 0xffff, 0x1fffe, 0x1ffff, 0x2fffe, 0x2ffff, 0x3fffe, 0x3ffff,
   0x4fffe, 0x4ffff, 0x5fffe, 0x5ffff, 0x6fffe, 0x6ffff, 0x7fffe, 0x7ffff,
   0x8fffe, 0x8ffff, 0x9fffe, 0x9ffff, 0xafffe, 0xaffff, 0xbfffe, 0xbffff,
   0xcfffe, 0xcffff, 0xdfffe, 0xdffff, 0xefffe, 0xeffff, 0xffffe, 0xfffff,
   0x10fffe, 0x10ffff]

/-- Value of a decimal digit string. -/
def decVal (ds : List Char) : Nat :=
  ds.foldl (fun a c => 10 * a + (c.toNat - 48)) 0

/-- Value of one hexadecimal digit. -/
def hexDigitVal (c : Char) : Nat :=
  if c.isDigit then c.toNat - 48
  else if 'a' ≤ c ∧ c ≤ 'f' then c.toNat - 87
  else c.toNat - 55

/-- Hexadecimal digit test for the regex class `[0-9a-fA-F]`. -/
def isHexC (c : Char) : Bool :=
  c.isDigit || ('a' ≤ c ∧ c ≤ 'f') || ('A' ≤ c ∧ c ≤ 'F')

/-- Value of a hexadecimal digit string. -/
def hexVal (ds : List Char) : Nat :=
  ds.foldl (fun a c => 16 * a + hexDigitVal c) 0

/-- Characters allowed in a named character reference: the regex class
`[^\t\n\f <&#;]` of `html._charref`. -/
def isNameC (c : Char) : Bool :=
  !(c = '\t' || c = '\n' || c = '\x0c' || c = ' ' || c = '<' || c = '&' ||
    c = '#' || c = ';')

/-- Replacement text for a numeric character reference with value `n`,
mirroring the numeric branch of `html._replace_charref`. -/
def numericRepl (n : Nat) : List Char :=
  match invalidCharrefs.lookup n with
  | some c => [c]
  | none =>
    if (0xD800 ≤ n ∧ n ≤ 0xDFFF) ∨ n > 0x10FFFF then ['�']
    else if invalidCodepoints.contains n then []
    else [Char.ofNat n]

/-- Longest-prefix fallback of the named branch of `html._replace_charref`:
try prefixes of length `x, x-1, ..., 2` against the HTML5 table. -/
def namedFallback (s : List Char) : Nat → List Char
  | 0 => '&' :: s
  | 1 => '&' :: s
  | x + 2 =>
    match html5Table.lookup (String.mk (s.take (x + 2))) with
    | some v => v.toList ++ s.drop (x + 2)
    | none => namedFallback s (x + 1)

/-- Replacement text for a named character reference `s` (with its optional
trailing semicolon), mirroring the named branch of `html._replace_charref`. -/
def namedRepl (s : List Char) : List Char :=
  match html5Table.lookup (String.mk s) with
  | some v => v.toList
  | none => namedFallback s (s.length - 1)

/-- Try to match the `html._charref` regex immediately after a `&`.  Returns
the replacement text and the number of characters consumed after the `&`.
The three regex alternatives are tried in order: decimal `#[0-9]+;?`, then
hexadecimal `#[xX][0-9a-fA-F]+;?`, then a named reference
`[^\t\n\f <&#;]{1,32};?`. -/
def charrefMatch (rest : List Char) : Option (List Char × Nat) :=
  match rest with
  | '#' :: r2 =>
    let ds := r2.takeWhile Char.isDigit
    if ds.isEmpty then
      match r2 with
      | x :: r3 =>
        if x = 'x' ∨ x = 'X' then
          let hs := r3.takeWhile isHexC
          if hs.isEmpty then none
          else
            let semi := (r3.drop hs.length).head? == some ';'
            some (numericRepl (hexVal hs),
                  2 + hs.length + (if semi then 1 else 0))
        else none
      | [] => none
    else
      let semi := (r2.drop ds.length).head? == some ';'
      some (numericRepl (decVal ds), 1 + ds.length + (if semi then 1 else 0))
  | _ =>
    let nm := (rest.takeWhile isNameC).take 32
    if nm.isEmpty then none
    else
      if (rest.drop nm.length).head? == some ';' then
        some (namedRepl (nm ++ [';']), nm.length + 1)
      else
        some (namedRepl nm, nm.length)

/-- Fuelled scanner behind `unescapeGo`; the fuel only needs to dominate
the input length, and every step consumes at least one character. -/
def unescapeFuel : Nat → List Char → List Char
  | 0, l => l
  | _ + 1, [] => []
  | fuel + 1, '&' :: rest =>
    match charrefMatch rest with
    | some (repl, n) => repl ++ unescapeFuel fuel (rest.drop n)
    | none => '&' :: unescapeFuel fuel rest
  | fuel + 1, c :: rest => c :: unescapeFuel fuel rest

/-- Python `html.unescape`: replace every match of `_charref` by its
replacement text, scanning left to right. -/
def unescapeGo (l : List Char) : List Char := unescapeFuel l.length l

/-! ### Whitespace normalization (`text_cleaner.py` steps 3-5) -/

/-- Python `text.replace("\r\n", "\n")`: left-to-right non-overlapping
replacement. -/
def crlfSub : List Char → List Char
  | '\r' :: '\n' :: rest => '\n' :: crlfSub rest
  | c :: rest => c :: crlfSub rest
  | [] => []

/-- Python `text.replace("\r", "\n")`. -/
def crSub (l : List Char) : List Char :=
  l.map (fun c => if c = '\r' then '\n' else c)

/-- Steps 3 of the cleaners: normalize line endings. -/
def lineNorm (l : List Char) : List Char := crSub (crlfSub l)

/-- Scanner behind `spCollapse`; `inRun` records whether the previous
character belonged to a space/tab run (whose single replacement space has
already been emitted). -/
def spAux (inRun : Bool) : List Char → List Char
  | [] => []
  | c :: rest =>
    if isSpTab c then
      if inRun then spAux true rest else ' ' :: spAux true rest
    else c :: spAux false rest

/-- Replace every maximal run of spaces and tabs by one space: the regex
substitution `MULTI_SPACE_PATTERN = [ \t]+` with replacement `" "`. -/
def spCollapse (l : List Char) : List Char := spAux false l

/-- Scanner behind `nlCollapse`; `run` counts the newlines of the current
run already emitted, capped at 2: a run of `k` newlines contributes
`min k 2` newlines to the output, which is exactly the effect of replacing
every run of three or more by two. -/
def nlAux (run : Nat) : List Char → List Char
  | [] => []
  | c :: rest =>
    if c = '\n' then
      if run < 2 then '\n' :: nlAux (run + 1) rest else nlAux run rest
    else c :: nlAux 0 rest

/-- Replace every run of three or more newlines by exactly two: the regex
substitution `MULTI_NEWLINE_PATTERN = \n{3,}` with replacement `"\n\n"`. -/
def nlCollapse (l : List Char) : List Char := nlAux 0 l

/-! ### Boilerplate patterns and the two cleaners (`text_cleaner.py`) -/

/-- ASCII model of the regex class `\w` (word character). -/
def isWordC (c : Char) : Bool := c.isAlphanum || c == '_'

/-- Word-character test on an optional character; a string edge counts as a
non-word character. -/
def isWordO : Option Char → Bool
  | none => false
  | some c => isWordC c

/-- A `\b` word boundary holds between two (optional) adjacent characters
exactly when one side is a word character and the other is not. -/
def bnd (a b : Option Char) : Bool := isWordO a != isWordO b

/-- Search for the regex `\b p \b` (with `p` a literal) in `l`; `prev` is
the character just before the current position. -/
def wbSearchAux (p : List Char) : Option Char → List Char → Bool
  | _, [] => false
  | prev, c :: rest =>
    (p.isPrefixOf (c :: rest) && bnd prev p.head? &&
      bnd p.getLast? ((c :: rest).drop p.length).head?) ||
    wbSearchAux p (some c) rest

/-- Search for the regex `\b p \b` in `l`. -/
def wbSearch (p l : List Char) : Bool := wbSearchAux p none l

/-- Search for the literal `p` with only the trailing `\b` (used for the
right half of `\bby applying.*you agree\b`). -/
def searchTrailingWb (p : List Char) : List Char → Bool
  | [] => false
  | c :: rest =>
    (p.isPrefixOf (c :: rest) &&
      bnd p.getLast? ((c :: rest).drop p.length).head?) ||
    searchTrailingWb p rest

/-- Search for the regex `\b p .* q \b`: a `p` with a leading boundary
followed (anywhere later) by a `q` with a trailing boundary. -/
def wbSearchPairAux (p q : List Char) : Option Char → List Char → Bool
  | _, [] => false
  | prev, c :: rest =>
    (p.isPrefixOf (c :: rest) && bnd prev p.head? &&
      searchTrailingWb q ((c :: rest).drop p.length)) ||
    wbSearchPairAux p q (some c) rest

/-- Does a (stripped) line match one of the six `BOILERPLATE_PATTERNS`?
The patterns are case-insensitive, modelled by lowercasing the line; the
`(...|...)` and `(...)?` groups are expanded into their alternatives. -/
def boilerplateHit (stripped : List Char) : Bool :=
  let lw := lowerStr stripped
  wbSearch "equal opportunity employer".toList lw ||
  wbSearch "eoe".toList lw || wbSearch "eeo".toList lw ||
  wbSearchPairAux "by applying".toList "you agree".toList none lw ||
  wbSearch "accommodation available".toList lw ||
  wbSearch "accommodations available".toList lw ||
  wbSearch "we are an equal opportunity".toList lw ||
  wbSearch "click here to apply".toList lw ||
  wbSearch "click to apply".toList lw ||
  wbSearch "apply now".toList lw

/-- Python `text.split("\n")`. -/
def splitNl : List Char → List (List Char)
  | [] => [[]]
  | c :: rest =>
    if c = '\n' then [] :: splitNl rest
    else
      match splitNl rest with
      | h :: t => (c :: h) :: t
      | [] => [[c]]

/-- Python `"\n".join(lines)`. -/
def joinNl (ls : List (List Char)) : List Char := List.intercalate ['\n'] ls

/-- Step 6 of `clean_job_text`: keep non-boilerplate lines; a line that
strips to nothing is replaced by an empty line. -/
def filterBoilerplate (lines : List (List Char)) : List (List Char) :=
  lines.filterMap (fun line =>
    let stripped := pyStrip line
    if stripped.isEmpty then some []
    else if boilerplateHit stripped then none
    else some line)

/-- Result record of the cleaners, mirroring `CleanTextResult`. -/
structure CleanTextResult where
  text : String
  was_html : Bool
  removed_chars : Int
  original_length : Nat
  deriving Repr, DecidableEq

/-- Steps 1-5 shared by both cleaners: strip tags, decode entities,
normalize line endings, collapse space/tab runs, collapse newline runs. -/
def cleanCommon (l : List Char) : List Char :=
  nlCollapse (spCollapse (lineNorm (unescapeGo (tagSub l))))

/-- Python `clean_job_text`: the full job-description cleaning pipeline,
including boilerplate-line removal and the final strip. -/
def clean_job_text (text : String) : CleanTextResult :=
  if text = "" then ⟨"", false, 0, 0⟩
  else
    let t0 := text.toList
    let c5 := cleanCommon t0
    let c6 := joinNl (filterBoilerplate (splitNl c5))
    let c7 := pyStrip c6
    ⟨String.mk c7, hasTag t0, (t0.length : Int) - c7.length, t0.length⟩

/-- Python `clean_resume_text`: identical pipeline without the
boilerplate-removal step. -/
def clean_resume_text (text : String) : CleanTextResult :=
  if text = "" then ⟨"", false, 0, 0⟩
  else
    let t0 := text.toList
    let c7 := pyStrip (cleanCommon t0)
    ⟨String.mk c7, hasTag t0, (t0.length : Int) - c7.length, t0.length⟩

/-- Python `is_text_too_short`: empty text is too short; otherwise count
the characters left after removing spaces and newlines (only those two
characters are removed by the Python code). -/
def is_text_too_short (text : String) (min_chars : Nat) : Bool :=
  if text = "" then true
  else (text.toList.filter (fun c => !(c == ' ' || c == '\n'))).length < min_chars

/-- The default skill lexicon of `extract_skills_simple`. -/
def defaultSkillsList : List String :=
  ["python", "javascript", "typescript", "java", "c++", "c#", "go", "rust",
   "sql", "nosql", "mongodb", "postgresql", "mysql", "redis",
   "aws", "azure", "gcp", "docker", "kubernetes", "terraform",
   "react", "angular", "vue", "node.js", "django", "flask", "fastapi",
   "machine learning", "deep learning", "nlp", "computer vision",
   "tensorflow", "pytorch", "scikit-learn", "pandas", "numpy",
   "git", "ci/cd", "agile", "scrum", "jira",
   "rest", "graphql", "microservices", "api"]

/-- Lexicographic comparison of code-point sequences: Python `str` order. -/
def lexLe : List Char → List Char → Bool
  | [], _ => true
  | _ :: _, [] => false
  | a :: as, b :: bs => if a < b then true else if b < a then false else lexLe as bs

/-- Insertion of a string into a sorted list (code-point order, the order
of Python `sorted` on `str`). -/
def insertStr (x : String) : List String → List String
  | [] => [x]
  | y :: ys => if lexLe x.toList y.toList then x :: y :: ys else y :: insertStr x ys

/-- Sorting of strings in ascending code-point order, modelling Python
`sorted`. -/
def sortStrings : List String → List String
  | [] => []
  | x :: xs => insertStr x (sortStrings xs)

/-- Python `extract_skills_simple` with the default lexicon: a skill is
found when the word-boundary-delimited literal occurs in the lowercased
text; the result is the sorted list of distinct found skills. -/
def extract_skills_simple (text : String) : List String :=
  let tl := lowerStr text.toList
  let found := (defaultSkillsList.filter
    (fun sk => wbSearch (lowerStr sk.toList) tl)).map
      (fun sk => String.mk (lowerStr sk.toList))
  sortStrings found.dedup

/-! ### The hybrid scorer (`scorer.py`) -/

/-- The five scoring components. -/
inductive Comp
  | embedding_sim
  | skill_overlap
  | recency
  | location
  | salary
  deriving DecidableEq, Repr

instance : Fintype Comp :=
  ⟨⟨[Comp.embedding_sim, Comp.skill_overlap, Comp.recency, Comp.location,
     Comp.salary], by decide⟩, by intro x; cases x <;> decide⟩

/-- Weights for the hybrid scoring components (`ScoringWeights`). -/
structure ScoringWeights where
  embedding_sim : ℚ
  skill_overlap : ℚ
  recency : ℚ
  location : ℚ
  salary : ℚ
  deriving DecidableEq, Repr

/-- The class-level default weights 0.55 / 0.25 / 0.10 / 0.07 / 0.03. -/
def defaultWeights : ScoringWeights :=
  ⟨0.55, 0.25, 0.10, 0.07, 0.03⟩

/-- Look up a component's weight (`ScoringWeights.to_dict`). -/
def weightOf (w : ScoringWeights) : Comp → ℚ
  | .embedding_sim => w.embedding_sim
  | .skill_overlap => w.skill_overlap
  | .recency => w.recency
  | .location => w.location
  | .salary => w.salary

/-- The components kept after excluding `exclude`. -/
def availOf (exclude : Finset Comp) : Finset Comp := Finset.univ \ exclude

/-- Value assigned to an available component by
`ScoringWeights.renormalize`: the weight divided by the total of the
available weights, or `1 / len(available)` when that total is zero. -/
def renormVal (w : ScoringWeights) (exclude : Finset Comp) (c : Comp) : ℚ :=
  let total := ∑ d ∈ availOf exclude, weightOf w d
  if total = 0 then 1 / (availOf exclude).card else weightOf w c / total

/-- Python `ScoringWeights.renormalize`: the returned dict maps every
non-excluded component to its renormalized weight and omits excluded
components (modelled by `none`). -/
def renormalize (w : ScoringWeights) (exclude : Finset Comp) :
    Comp → Option ℚ :=
  fun c => if c ∈ exclude then none else some (renormVal w exclude c)

/-- The fields of `Job` that the scorer reads.  The remaining schema fields
(`id`, `source`, `title`, `company`, `url`, ... ) do not enter any scoring
computation; `posted_at` enters only through `compute_recency`, whose
wall-clock-dependent exponential is modelled by the `recencyRaw` oracle
passed to `score_job`. -/
structure Job where
  location : String
  description : String
  salary_min : Option ℚ
  salary_max : Option ℚ
  deriving DecidableEq, Repr

/-- Python `ResumeProfile` (the embedding vector plays no role in scoring). -/
structure ResumeProfile where
  raw_text : String
  clean_text : String
  skills : Finset String
  preferred_location : Option String
  min_salary : Option ℚ

/-- Python `HybridScorer.distance_to_similarity`. -/
def distance_to_similarity (distance : ℚ) : ℚ :=
  max 0 (min 1 (1 - distance))

/-- Python `HybridScorer.compute_recency` = `max(0, min(1, recency))` where
`recency = exp(-ln 2 * days_ago / 30)` depends on the wall clock; the
pre-clamp value is supplied as the argument. -/
def compute_recency (raw : ℚ) : ℚ := max 0 (min 1 raw)

/-- Python `HybridScorer.compute_skill_overlap`.  The Python code works
with `set`s and returns `list(matched)`, `list(missing)` in unspecified
set-iteration order; since `extract_skills_simple` already returns the
distinct job skills, the matched and missing collections are modelled as
the corresponding sublists, and the score `len(matched) / len(job_skills)`
is their length ratio. -/
def compute_skill_overlap (resume_skills : Finset String) (job_text : String) :
    ℚ × List String × List String :=
  let job_skills := extract_skills_simple job_text
  if job_skills.isEmpty then (1/2, [], [])
  else
    let matched := job_skills.filter (fun s => s ∈ resume_skills)
    let missing := job_skills.filter (fun s => s ∉ resume_skills)
    ((matched.length : ℚ) / (job_skills.length : ℚ), matched, missing)

/-- Python `HybridScorer.compute_location_match`. -/
def compute_location_match (job_location : String)
    (preferred_location : Option String) : ℚ :=
  match preferred_location with
  | none => 1/2
  | some pref =>
    if pref = "" then 1/2
    else
      let jl := lowerStr job_location.toList
      let pl := lowerStr pref.toList
      if containsSeq "remote".toList pl && containsSeq "remote".toList jl then 1
      else if containsSeq pl jl || containsSeq jl pl then 1
      else
        let prefWords := splitPyWs pl
        let jobWords := splitPyWs (jl.map (fun c => if c = ',' then ' ' else c))
        if prefWords.any (fun wd => jobWords.contains wd) then 7/10
        else 3/10

/-- Python `HybridScorer.compute_salary_match`; `none` models the
`ZeroDivisionError` raised when the user minimum is present but zero and
the job carries salary data. -/
def compute_salary_match (job_salary_min job_salary_max user_min_salary :
    Option ℚ) : Option ℚ :=
  match user_min_salary with
  | none => some (1/2)
  | some u =>
    let mid? : Option ℚ :=
      match job_salary_min, job_salary_max with
      | some a, some b => some ((a + b) / 2)
      | none, some b => some b
      | some a, none => some a
      | none, none => none
    match mid? with
    | none => some (1/2)
    | some mid =>
      if u = 0 then none
      else
        let ratio := mid / u
        some (if ratio ≥ 1 then 1
          else if ratio ≥ 0.8 then 0.6 + (ratio - 0.8) * ((0.4 : ℚ) / 0.2)
          else max 0 (ratio * 0.75))

/-- Python `ScoredJob` (the display-only `explanation` string is omitted
from the model; no claim concerns it). -/
structure ScoredJob where
  job : Job
  total_score : ℚ
  breakdown : Comp → ℚ
  weights : Comp → Option ℚ
  contributions : Comp → Option ℚ
  matched_skills : List String
  missing_skills : List String
  chroma_distance : ℚ

/-- The components excluded by `score_job`: `location` when the résumé has
no preferred location, `salary` when the résumé has no minimum salary and
the job's `salary_min` is `None` (the Python code does not consult
`salary_max` here). -/
def excludeSet (job : Job) (resume_profile : ResumeProfile) : Finset Comp :=
  (if resume_profile.preferred_location = none then {Comp.location} else ∅) ∪
  (if resume_profile.min_salary = none ∧ job.salary_min = none
    then {Comp.salary} else ∅)

/-- Python `HybridScorer.score_job`.  `w` is the scorer's weights
(`DEFAULT_WEIGHTS` by default); `recencyRaw` is the wall-clock-dependent
pre-clamp recency value (see `compute_recency`); `none` models the
propagated `ZeroDivisionError` of `compute_salary_match`. -/
def score_job (w : ScoringWeights) (recencyRaw : Job → ℚ) (job : Job)
    (chroma_distance : ℚ) (resume_profile : ResumeProfile) :
    Option ScoredJob :=
  let (skill_score, matched, missing) :=
    compute_skill_overlap resume_profile.skills job.description
  match compute_salary_match job.salary_min job.salary_max
      resume_profile.min_salary with
  | none => none
  | some salary_score =>
    let breakdown : Comp → ℚ := fun c =>
      match c with
      | .embedding_sim => distance_to_similarity chroma_distance
      | .skill_overlap => skill_score
      | .recency => compute_recency (recencyRaw job)
      | .location => compute_location_match job.location
          resume_profile.preferred_location
      | .salary => salary_score
    let exclude := excludeSet job resume_profile
    let weights := renormalize w exclude
    some
      { job := job
        total_score := ∑ c ∈ availOf exclude, breakdown c * renormVal w exclude c
        breakdown := breakdown
        weights := weights
        contributions := fun c => (weights c).map (fun wv => breakdown c * wv)
        matched_skills := sortStrings matched
        missing_skills := (sortStrings missing).take 10
        chroma_distance := chroma_distance }

/-- Stable insertion of a scored job into a descending-sorted list: the new
element goes before the first strictly-smaller-or-equal score coming from
later input. -/
def insertDesc (x : ScoredJob) : List ScoredJob → List ScoredJob
  | [] => [x]
  | y :: ys =>
    if x.total_score ≥ y.total_score then x :: y :: ys
    else y :: insertDesc x ys

/-- Stable descending sort by `total_score`, modelling Python
`list.sort(key=..., reverse=True)` (Timsort is stable, and `reverse=True`
preserves the relative order of ties). -/
def sortDesc : List ScoredJob → List ScoredJob
  | [] => []
  | x :: xs => insertDesc x (sortDesc xs)

/-- Python `HybridScorer.score_jobs`: `none` models the `ValueError` on a
length mismatch (and a propagated scoring error); otherwise every job is
scored and the list is stably sorted by descending total score. -/
def score_jobs (w : ScoringWeights) (recencyRaw : Job → ℚ) (jobs : List Job)
    (distances : List ℚ) (resume_profile : ResumeProfile) :
    Option (List ScoredJob) :=
  if jobs.length ≠ distances.length then none
  else
    match (jobs.zip distances).mapM
        (fun jd => score_job w recencyRaw jd.1 jd.2 resume_profile) with
    | none => none
    | some scored => some (sortDesc scored)

/-! ### Highlighting (`evidence.py`, `highlight_text`) -/

/-- Expansion of one character under Python `html.escape(s, quote=True)`.
The five sequential `str.replace` calls (`&` first) are equivalent to this
character-wise map. -/
def escCh (c : Char) : List Char :=
  if c = '&' then "&amp;".toList
  else if c = '<' then "&lt;".toList
  else if c = '>' then "&gt;".toList
  else if c = '\"' then "&quot;".toList
  else if c = '\x27' then "&#x27;".toList
  else [c]

/-- Python `html.escape` with default quoting. -/
def escapeHtml (l : List Char) : List Char := l.flatMap escCh

/-- The opening markup emitted by `highlight_text` for a CSS class. -/
def openSpan (cls : List Char) : List Char :=
  "<span class=\"".toList ++ escapeHtml cls ++
  ("\" style=\"background-color: #fff3cd; padding: 1px 3px; " ++
   "border-radius: 3px; font-weight: 500;\">").toList

/-- The closing markup emitted by `highlight_text`. -/
def closeSpan : List Char := "</span>".toList

/-- Case-insensitive prefix test (Python `re.IGNORECASE` on a literal
pattern, ASCII case model). -/
def ciStarts : List Char → List Char → Bool
  | [], _ => true
  | _ :: _, [] => false
  | a :: p, b :: l => (pyToLower b == pyToLower a) && ciStarts p l

/-- Fuelled scanner behind `substCI`; the fuel only needs to dominate the
input length, and every step consumes at least one character when `p` is
non-empty. -/
def substFuel (p op cl : List Char) : Nat → List Char → List Char
  | 0, l => l
  | _ + 1, [] => []
  | fuel + 1, c :: rest =>
    if p ≠ [] ∧ ciStarts p (c :: rest) then
      op ++ (c :: rest).take p.length ++ cl ++
        substFuel p op cl fuel ((c :: rest).drop p.length)
    else c :: substFuel p op cl fuel rest

/-- One `pattern.sub` pass for a non-empty literal pattern `p`: wrap each
non-overlapping case-insensitive occurrence in `op ... cl`, keeping the
matched text itself (the `\g<0>` group). -/
def substCI (p op cl l : List Char) : List Char := substFuel p op cl l.length l

/-- One `pattern.sub` pass for the empty pattern (an empty term): the
replacement is inserted at every position, as `re.sub` does. -/
def substEmpty (op cl : List Char) : List Char → List Char
  | [] => op ++ cl
  | c :: rest => op ++ cl ++ c :: substEmpty op cl rest

/-- Python `highlight_text`: escape the text, then for each term escape it
and wrap its case-insensitive occurrences in span markup. -/
def highlight_text (text : String) (terms : List String)
    (highlight_class : String) : String :=
  let safe0 := escapeHtml text.toList
  if terms.isEmpty then String.mk safe0
  else
    String.mk (terms.foldl (fun s term =>
      let p := escapeHtml term.toList
      let op := openSpan highlight_class.toList
      if p.isEmpty then substEmpty op closeSpan s
      else substCI p op closeSpan s) safe0)

/-! ### Claim C9: `is_text_too_short` and whitespace kinds -/

/-- Count of non-whitespace characters (every Python whitespace kind),
the quantity claim C9 says `is_text_too_short` compares to the
threshold. -/
def nonWsCount (text : String) : Nat :=
  (text.toList.filter (fun c => !pyIsSpace c)).length

/-- Claim C9 (code bug): a text of 100 tabs has no non-whitespace
characters at all, yet `is_text_too_short` with threshold 100 reports it
as long enough, because the Python code removes only spaces and newlines
before counting, contradicting its own comment
`# Count non-whitespace characters`. -/
theorem is_text_too_short_counts_tabs :
    is_text_too_short (String.mk (List.replicate 100 '\t')) 100 = false ∧
    nonWsCount (String.mk (List.replicate 100 '\t')) = 0 := by
  constructor <;> decide

/-! ### Claim C4: `compute_skill_overlap` -/

theorem insertStr_perm (x : String) (l : List String) :
    (insertStr x l).Perm (x :: l) := by
  induction l with
  | nil => simp [insertStr]
  | cons y ys ih =>
    simp only [insertStr]
    split
    · exact List.Perm.refl _
    · exact ((ih.cons y).trans (List.Perm.swap x y ys))

theorem sortStrings_perm (l : List String) : (sortStrings l).Perm l := by
  induction l with
  | nil => simp [sortStrings]
  | cons x xs ih =>
    exact (insertStr_perm x (sortStrings xs)).trans (ih.cons x)

theorem extract_skills_simple_nodup (text : String) :
    (extract_skills_simple text).Nodup := by
  unfold extract_skills_simple
  exact ((sortStrings_perm _).nodup_iff).mpr (List.nodup_dedup _)

/-- Claim C4: with `J` the set of skills extracted from the job text, an
empty `J` yields the neutral result `(0.5, [], [])`; otherwise the score is
`|R ∩ J| / |J|`, the matched skills are `R ∩ J` and the missing skills are
`J \ R` (as sets). -/
theorem compute_skill_overlap_spec (R : Finset String) (text : String) :
    ((extract_skills_simple text).toFinset = ∅ →
      compute_skill_overlap R text = (1/2, [], [])) ∧
    (∀ J, J = (extract_skills_simple text).toFinset → J ≠ ∅ →
      (compute_skill_overlap R text).1 = ((R ∩ J).card : ℚ) / (J.card : ℚ) ∧
      (compute_skill_overlap R text).2.1.toFinset = R ∩ J ∧
      (compute_skill_overlap R text).2.2.toFinset = J \ R) := by
  have hnd := extract_skills_simple_nodup text
  constructor
  · intro h
    have : extract_skills_simple text = [] := by
      simpa using h
    simp [compute_skill_overlap, this]
  · intro J hJ hne
    subst hJ
    have hne' : extract_skills_simple text ≠ [] := by
      intro h; exact hne (by simp [h])
    have hne'' : (extract_skills_simple text).isEmpty = false := by
      simpa [List.isEmpty_iff] using hne'
    have hmatch : ((extract_skills_simple text).filter
        (fun s => s ∈ R)).toFinset =
        R ∩ (extract_skills_simple text).toFinset := by
      ext a
      simp [List.mem_filter, and_comm]
    have hmiss : ((extract_skills_simple text).filter
        (fun s => s ∉ R)).toFinset =
        (extract_skills_simple text).toFinset \ R := by
      ext a
      simp [List.mem_filter, and_comm]
    have hlen : ∀ p : String → Bool,
        ((extract_skills_simple text).filter p).length =
        ((extract_skills_simple text).filter p).toFinset.card := by
      intro p
      exact (List.toFinset_card_of_nodup (hnd.filter p)).symm
    have hlenJ : (extract_skills_simple text).length =
        (extract_skills_simple text).toFinset.card :=
      (List.toFinset_card_of_nodup hnd).symm
    have hc1 : ((extract_skills_simple text).filter
        (fun s => s ∈ R)).length =
        (R ∩ (extract_skills_simple text).toFinset).card := by
      rw [hlen _]
      exact congrArg Finset.card hmatch
    refine ⟨?_, ?_, ?_⟩
    · simp only [compute_skill_overlap, hne'', if_false, Bool.false_eq_true]
      rw [hc1, hlenJ]
    · simp only [compute_skill_overlap, hne'', if_false, Bool.false_eq_true]
      exact hmatch
    · simp only [compute_skill_overlap, hne'', if_false, Bool.false_eq_true]
      exact hmiss

/-- Witness for C4, at a job text whose extracted skills are
`{python, sql}` against résumé skills `{python}`. -/
theorem compute_skill_overlap_spec_witness :
    (extract_skills_simple "Requires python and sql skills.").toFinset ≠ ∅ ∧
    (compute_skill_overlap {"python"} "Requires python and sql skills.").1
      = 1/2 ∧
    (compute_skill_overlap {"python"}
      "Requires python and sql skills.").2.1.toFinset = {"python"} ∧
    (compute_skill_overlap {"python"}
      "Requires python and sql skills.").2.2.toFinset = {"sql"} := by
  have hx : extract_skills_simple "Requires python and sql skills."
      = ["python", "sql"] := by decide
  have h := (compute_skill_overlap_spec {"python"}
    "Requires python and sql skills.").2
    (extract_skills_simple "Requires python and sql skills.").toFinset rfl
    (by rw [hx]; decide)
  refine ⟨by rw [hx]; decide, ?_, ?_, ?_⟩
  · rw [h.1, hx]
    rw [show ({"python"} ∩ (["python", "sql"] : List String).toFinset).card
        = 1 from by decide,
      show ((["python", "sql"] : List String).toFinset).card = 2 from by decide]
    norm_num
  · rw [h.2.1, hx]; decide
  · rw [h.2.2, hx]; decide

/-! ### Claim C6: `compute_salary_match` -/

/-- The job midpoint described by the spec and computed by
`compute_salary_match`: the average when both bounds are present,
otherwise whichever bound is present. -/
def jobMid : Option ℚ → Option ℚ → Option ℚ
  | some a, some b => some ((a + b) / 2)
  | none, some b => some b
  | some a, none => some a
  | none, none => none

/-- Claim C6: no user minimum gives 0.5; a user minimum with no job salary
data gives 0.5; otherwise, with `ratio = mid / userMin`, the score is the
claimed piecewise function (the hypothesis `u ≠ 0` excludes the
`ZeroDivisionError` raised by the Python division). -/
theorem compute_salary_match_spec (jmin jmax : Option ℚ) :
    compute_salary_match jmin jmax none = some (1/2) ∧
    (∀ u : ℚ, u ≠ 0 →
      (jobMid jmin jmax = none →
        compute_salary_match jmin jmax (some u) = some (1/2)) ∧
      (∀ mid, jobMid jmin jmax = some mid →
        compute_salary_match jmin jmax (some u) =
          some (if mid / u ≥ 1 then 1
            else if mid / u ≥ 0.8 then 0.6 + (mid / u - 0.8) * 2
            else max 0 (mid / u * 0.75)))) := by
  refine ⟨rfl, fun u hu => ⟨fun h => ?_, fun mid h => ?_⟩⟩
  · cases hmin : jmin <;> cases hmax : jmax <;>
      simp [hmin, hmax, jobMid] at h ⊢ <;>
      simp [compute_salary_match]
  · cases hmin : jmin <;> cases hmax : jmax <;>
      simp [hmin, hmax, jobMid] at h <;>
      simp [compute_salary_match, hu, ← h] <;>
      norm_num

/-- Witness for C6, at a job paying 90000-110000 against a 100000 user
minimum (ratio exactly 1). -/
theorem compute_salary_match_spec_witness :
    (100000 : ℚ) ≠ 0 ∧
    jobMid (some 90000) (some 110000) = some 100000 ∧
    compute_salary_match (some 90000) (some 110000) (some 100000) = some 1 := by
  have hmid : jobMid (some 90000) (some 110000) = some ((100000 : ℚ)) := by
    show some (((90000 : ℚ) + 110000) / 2) = _
    norm_num
  refine ⟨by norm_num, hmid, ?_⟩
  have h := ((compute_salary_match_spec (some 90000) (some 110000)).2
    100000 (by norm_num)).2 100000 hmid
  rw [h]
  norm_num

/-! ### Claim C5: `compute_location_match` -/

/-- Tokenization the claim describes for BOTH sides (modelled from the
claim's words, for comparison with the code): lowercase, turn commas into
spaces, split on whitespace.  The code applies the comma replacement only
to the job side. -/
def claimTokens (s : String) : List (List Char) :=
  splitPyWs ((lowerStr s.toList).map (fun c => if c = ',' then ' ' else c))

/-- Counterexample to C5 as stated: for job location `"NY MA"` and
preference `"Boston,MA"`, the whitespace/comma-tokenized word sets of the
two sides share the word `ma` and no earlier rule applies, so the claim
predicts 0.7 — but the code tokenizes the preference by whitespace only
(`"boston,ma"` stays one word) and returns 0.3. -/
theorem compute_location_match_cex :
    compute_location_match "NY MA" (some "Boston,MA") = 3/10 ∧
    ((claimTokens "Boston,MA").any
      (fun wd => (claimTokens "NY MA").contains wd)) = true ∧
    ¬ occursIn (lowerStr "Boston,MA".toList) (lowerStr "NY MA".toList) ∧
    ¬ occursIn (lowerStr "NY MA".toList) (lowerStr "Boston,MA".toList) ∧
    ¬ (occursIn "remote".toList (lowerStr "Boston,MA".toList) ∧
       occursIn "remote".toList (lowerStr "NY MA".toList)) ∧
    (3 / 10 : ℚ) ≠ 7 / 10 := by
  refine ⟨rfl, by decide, by decide, by decide, by decide, by norm_num⟩

/-- Claim C5 as amended: same scoring table, with the preference tokenized
by whitespace only (no comma replacement), exactly as the code does. -/
theorem compute_location_match_spec (jobLoc : String) (pref? : Option String) :
    ((pref? = none ∨ pref? = some "") →
      compute_location_match jobLoc pref? = 1/2) ∧
    (∀ pref, pref? = some pref → pref ≠ "" →
      compute_location_match jobLoc pref? =
        (if occursIn "remote".toList (lowerStr pref.toList) ∧
            occursIn "remote".toList (lowerStr jobLoc.toList) then 1
         else if occursIn (lowerStr pref.toList) (lowerStr jobLoc.toList) ∨
            occursIn (lowerStr jobLoc.toList) (lowerStr pref.toList) then 1
         else if ∃ wd ∈ splitPyWs (lowerStr pref.toList),
             wd ∈ splitPyWs ((lowerStr jobLoc.toList).map
               (fun c => if c = ',' then ' ' else c)) then 7/10
         else 3/10)) := by
  constructor
  · rintro (rfl | rfl) <;> rfl
  · rintro pref rfl hne
    simp only [compute_location_match, if_neg hne]
    refine if_congr ?_ rfl (if_congr ?_ rfl (if_congr ?_ rfl rfl))
    · simp [Bool.and_eq_true, occursIn_iff_containsSeq, String.toList]
    · simp [Bool.or_eq_true, occursIn_iff_containsSeq, String.toList]
    · simp [List.any_eq_true, List.elem_iff, String.toList]

/-- Witness for C5 as amended, at a remote/remote pair. -/
theorem compute_location_match_spec_witness :
    compute_location_match "Remote (US)" (some "Remote") = 1 ∧
    compute_location_match "London, UK" (some "Paris FR") = 3/10 := by
  have h1 := (compute_location_match_spec "Remote (US)" (some "Remote")).2
    "Remote" rfl (by decide)
  have h2 := (compute_location_match_spec "London, UK" (some "Paris FR")).2
    "Paris FR" rfl (by decide)
  constructor
  · rw [h1, if_pos (by decide)]
  · rw [h2, if_neg (by decide), if_neg (by decide), if_neg (by decide)]

/-! ### Claims C3 and C8: cleaner counterexamples -/

/-- Counterexample to C3 as stated: neither cleaner is idempotent.  The job
cleaner turns `"a\n\nApply now\n\nb"` into `"a\n\n\nb"` (removing the
boilerplate line creates a fresh triple newline), which a second pass
collapses to `"a\n\nb"`.  The résumé cleaner decodes `"&#38;#38;"` to
`"&#38;"`, which a second pass decodes again to `"&"`. -/
theorem clean_idempotence_cex :
    (clean_job_text "a\n\nApply now\n\nb").text = "a\n\n\nb" ∧
    (clean_job_text (clean_job_text "a\n\nApply now\n\nb").text).text =
      "a\n\nb" ∧
    (clean_resume_text "&#38;#38;").text = "&#38;" ∧
    (clean_resume_text (clean_resume_text "&#38;#38;").text).text = "&" := by
  refine ⟨by decide, by decide, by decide, by decide⟩

/-- Counterexample to C8 as stated: a phrase inside an HTML tag is removed
with the tag, and a leading ampersand can form a character reference that
consumes part of the phrase (`&#xa` decodes to a newline, eating the `a`
of `apply`). -/
theorem clean_resume_preserves_cex :
    occursIn "equal opportunity".toList "<b equal opportunity>".toList ∧
    ¬ occursIn "equal opportunity".toList
      (clean_resume_text "<b equal opportunity>").text.toList ∧
    occursIn "apply".toList "&#xapply".toList ∧
    ¬ occursIn "apply".toList (clean_resume_text "&#xapply").text.toList := by
  refine ⟨by decide, by decide, by decide, by decide⟩

/-! ### Claims C1 and C10: exclusion and renormalized weights -/

theorem compute_salary_match_isSome (a b ms : Option ℚ)
    (hms : ∀ u, ms = some u → u ≠ 0) :
    ∃ s, compute_salary_match a b ms = some s := by
  cases ms with
  | none => exact ⟨1/2, rfl⟩
  | some u =>
    have hu : u ≠ 0 := hms u rfl
    cases a with
    | none =>
      cases b with
      | none => exact ⟨1/2, rfl⟩
      | some vb =>
        exact ⟨_, by simp only [compute_salary_match]; rw [if_neg hu]⟩
    | some va =>
      cases b with
      | none =>
        exact ⟨_, by simp only [compute_salary_match]; rw [if_neg hu]⟩
      | some vb =>
        exact ⟨_, by simp only [compute_salary_match]; rw [if_neg hu]⟩

theorem mem_excludeSet (job : Job) (p : ResumeProfile) (c : Comp) :
    c ∈ excludeSet job p ↔
      (c = Comp.location ∧ p.preferred_location = none) ∨
      (c = Comp.salary ∧ (p.min_salary = none ∧ job.salary_min = none)) := by
  by_cases h1 : p.preferred_location = none <;>
    by_cases h2 : p.min_salary = none ∧ job.salary_min = none <;>
      simp [excludeSet, h1, h2] <;> tauto

theorem excludeSet_subset (job : Job) (p : ResumeProfile) :
    excludeSet job p ⊆ {Comp.location, Comp.salary} := by
  intro c hc
  rcases (mem_excludeSet job p c).1 hc with ⟨rfl, _⟩ | ⟨rfl, _⟩ <;> decide

theorem defaultWeights_nonneg (c : Comp) : 0 ≤ weightOf defaultWeights c := by
  cases c <;> norm_num [weightOf, defaultWeights]

theorem defaultTotal_pos (E : Finset Comp)
    (hE : E ⊆ {Comp.location, Comp.salary}) :
    0 < ∑ c ∈ availOf E, weightOf defaultWeights c := by
  have hsub : ({Comp.embedding_sim, Comp.skill_overlap, Comp.recency} :
      Finset Comp) ⊆ availOf E := by
    intro c hc
    simp only [availOf, Finset.mem_sdiff, Finset.mem_univ, true_and]
    intro hcE
    have := hE hcE
    fin_cases hc <;> simp_all
  have hsmall : ∑ c ∈ ({Comp.embedding_sim, Comp.skill_overlap,
      Comp.recency} : Finset Comp), weightOf defaultWeights c = 0.9 := by
    rw [Finset.sum_insert (by decide), Finset.sum_insert (by decide),
      Finset.sum_singleton]
    norm_num [weightOf, defaultWeights]
  have hle : ∑ c ∈ ({Comp.embedding_sim, Comp.skill_overlap,
      Comp.recency} : Finset Comp), weightOf defaultWeights c ≤
      ∑ c ∈ availOf E, weightOf defaultWeights c :=
    Finset.sum_le_sum_of_subset_of_nonneg hsub
      (fun c _ _ => defaultWeights_nonneg c)
  rw [hsmall] at hle
  calc (0 : ℚ) < 0.9 := by norm_num
  _ ≤ _ := hle

theorem renormalize_default_of_not_mem (E : Finset Comp)
    (hE : E ⊆ {Comp.location, Comp.salary}) (c : Comp) (hc : c ∉ E) :
    renormalize defaultWeights E c =
      some (weightOf defaultWeights c /
        ∑ d ∈ availOf E, weightOf defaultWeights d) := by
  unfold renormalize renormVal
  rw [if_neg hc, if_neg (defaultTotal_pos E hE).ne']

/-- Counterexample to C1 as stated: for a job with `salary_min = None` but
`salary_max = 100000` and a profile without a minimum-salary preference,
the job does have salary data, so the claim says the salary component is
kept — but the code tests only `salary_min` and excludes it. -/
theorem score_job_salary_exclusion_cex :
    (Job.mk "" "" none (some 100000)).salary_max ≠ none ∧
    (ResumeProfile.mk "" "" ∅ (some "x") none).min_salary = none ∧
    (score_job defaultWeights (fun _ => 1) (Job.mk "" "" none (some 100000)) 0
      (ResumeProfile.mk "" "" ∅ (some "x") none)).map
        (fun sj => sj.weights Comp.salary) = some none := by
  refine ⟨by decide, rfl, rfl⟩

/-- Claim C1 as amended: in `score_job` with the default weights, the
location component is excluded iff the profile has no preferred location,
the salary component is excluded iff the profile has no minimum salary and
the job's `salary_min` is absent (`salary_max` is not consulted), and the
recorded weights are exactly the non-excluded default weights divided by
their sum. -/
theorem score_job_weights_spec (recencyRaw : Job → ℚ) (job : Job) (d : ℚ)
    (profile : ResumeProfile)
    (hms : ∀ u, profile.min_salary = some u → u ≠ 0) :
    ∃ sj, score_job defaultWeights recencyRaw job d profile = some sj ∧
      (sj.weights Comp.location = none ↔
        profile.preferred_location = none) ∧
      (sj.weights Comp.salary = none ↔
        (profile.min_salary = none ∧ job.salary_min = none)) ∧
      (∀ c, c ∉ excludeSet job profile →
        sj.weights c = some (weightOf defaultWeights c /
          ∑ e ∈ availOf (excludeSet job profile),
            weightOf defaultWeights e)) ∧
      (∀ c ∈ excludeSet job profile, sj.weights c = none) := by
  obtain ⟨s, hs⟩ := compute_salary_match_isSome job.salary_min job.salary_max
    profile.min_salary hms
  have hE := excludeSet_subset job profile
  refine ⟨_, by simp only [score_job, hs]; rfl, ?_, ?_, ?_, ?_⟩
  · show renormalize defaultWeights (excludeSet job profile) Comp.location
      = none ↔ _
    by_cases h : Comp.location ∈ excludeSet job profile
    · have h' := (mem_excludeSet job profile Comp.location).1 h
      simp only [renormalize, if_pos h]
      simpa using h'
    · rw [renormalize_default_of_not_mem _ hE _ h]
      have h' := (mem_excludeSet job profile Comp.location).not.1 h
      simpa using h'
  · show renormalize defaultWeights (excludeSet job profile) Comp.salary
      = none ↔ _
    by_cases h : Comp.salary ∈ excludeSet job profile
    · have h' := (mem_excludeSet job profile Comp.salary).1 h
      simp only [renormalize, if_pos h]
      simpa using h'
    · rw [renormalize_default_of_not_mem _ hE _ h]
      have h' := (mem_excludeSet job profile Comp.salary).not.1 h
      simpa using h'
  · intro c hc
    show renormalize defaultWeights (excludeSet job profile) c = _
    exact renormalize_default_of_not_mem _ hE _ hc
  · intro c hc
    show renormalize defaultWeights (excludeSet job profile) c = none
    simp [renormalize, hc]

/-- Witness for C1 as amended, at a fully-specified profile and a job with
no salary data. -/
theorem score_job_weights_spec_witness :
    ∃ sj, score_job defaultWeights (fun _ => 1) (Job.mk "" "" none none) 0
        (ResumeProfile.mk "" "" ∅ (some "NY") (some 100000)) = some sj ∧
      (sj.weights Comp.location = none ↔
        (ResumeProfile.mk "" "" ∅ (some "NY")
          (some 100000)).preferred_location = none) ∧
      (sj.weights Comp.salary = none ↔
        ((ResumeProfile.mk "" "" ∅ (some "NY")
          (some 100000)).min_salary = none ∧
         (Job.mk "" "" none none).salary_min = none)) ∧
      (∀ c, c ∉ excludeSet (Job.mk "" "" none none)
          (ResumeProfile.mk "" "" ∅ (some "NY") (some 100000)) →
        sj.weights c = some (weightOf defaultWeights c /
          ∑ e ∈ availOf (excludeSet (Job.mk "" "" none none)
            (ResumeProfile.mk "" "" ∅ (some "NY") (some 100000))),
            weightOf defaultWeights e)) ∧
      (∀ c ∈ excludeSet (Job.mk "" "" none none)
          (ResumeProfile.mk "" "" ∅ (some "NY") (some 100000)),
        sj.weights c = none) :=
  score_job_weights_spec (fun _ => 1) (Job.mk "" "" none none) 0
    (ResumeProfile.mk "" "" ∅ (some "NY") (some 100000))
    (fun u h => by injection h with h'; rw [← h']; norm_num)

/-- Claim C10: a present-but-empty preferred location keeps the location
component in the weights (exclusion tests `is None` only) while the
location score is the neutral 0.5 (the truthiness test in
`compute_location_match`). -/
theorem score_job_empty_pref_spec (recencyRaw : Job → ℚ) (job : Job) (d : ℚ)
    (rt ct : String) (sk : Finset String) (ms : Option ℚ)
    (hms : ∀ u, ms = some u → u ≠ 0) :
    ∃ sj, score_job defaultWeights recencyRaw job d
        (ResumeProfile.mk rt ct sk (some "") ms) = some sj ∧
      sj.weights Comp.location ≠ none ∧
      sj.breakdown Comp.location = 1/2 := by
  obtain ⟨s, hs⟩ := compute_salary_match_isSome job.salary_min job.salary_max
    ms (by exact hms)
  have hE := excludeSet_subset job (ResumeProfile.mk rt ct sk (some "") ms)
  have hloc : Comp.location ∉
      excludeSet job (ResumeProfile.mk rt ct sk (some "") ms) := by
    rw [mem_excludeSet]
    simp
  refine ⟨_, by simp only [score_job, hs]; rfl, ?_, ?_⟩
  · show renormalize defaultWeights
      (excludeSet job (ResumeProfile.mk rt ct sk (some "") ms)) Comp.location
      ≠ none
    rw [renormalize_default_of_not_mem _ hE _ hloc]
    simp
  · rfl

/-- Witness for C10. -/
theorem score_job_empty_pref_spec_witness :
    ∃ sj, score_job defaultWeights (fun _ => 1)
        (Job.mk "Boston" "" (some 50000) (some 70000)) (1/4)
        (ResumeProfile.mk "" "" ∅ (some "") (some 60000)) = some sj ∧
      sj.weights Comp.location ≠ none ∧
      sj.breakdown Comp.location = 1/2 :=
  score_job_empty_pref_spec (fun _ => 1)
    (Job.mk "Boston" "" (some 50000) (some 70000)) (1/4) "" "" ∅
    (some 60000) (fun u h => by injection h with h'; rw [← h']; norm_num)

/-! ### Claim C2: `score_jobs` ordering, stability and bounds -/

theorem clamp01_bounds (x : ℚ) : 0 ≤ max 0 (min 1 x) ∧ max 0 (min 1 x) ≤ 1 :=
  ⟨le_max_left 0 _, max_le (by norm_num) (min_le_left 1 x)⟩

theorem distance_to_similarity_bounds (d : ℚ) :
    0 ≤ distance_to_similarity d ∧ distance_to_similarity d ≤ 1 :=
  clamp01_bounds (1 - d)

theorem compute_recency_bounds (r : ℚ) :
    0 ≤ compute_recency r ∧ compute_recency r ≤ 1 :=
  clamp01_bounds r

theorem compute_skill_overlap_bounds (R : Finset String) (t : String) :
    0 ≤ (compute_skill_overlap R t).1 ∧ (compute_skill_overlap R t).1 ≤ 1 := by
  unfold compute_skill_overlap
  by_cases h : (extract_skills_simple t).isEmpty
  · simp only [h, if_true]
    norm_num
  · simp only [h, if_false, Bool.false_eq_true]
    have hlen : 0 < (extract_skills_simple t).length := by
      cases hx : extract_skills_simple t with
      | nil => rw [hx] at h; simp at h
      | cons a l => simp [hx]
    have hle : ((extract_skills_simple t).filter
        (fun s => s ∈ R)).length ≤ (extract_skills_simple t).length :=
      List.length_filter_le _ _
    constructor
    · exact div_nonneg (by positivity) (by positivity)
    · rw [div_le_one (by exact_mod_cast hlen)]
      exact_mod_cast hle

theorem compute_location_match_bounds (jl : String) (p : Option String) :
    0 ≤ compute_location_match jl p ∧ compute_location_match jl p ≤ 1 := by
  rcases p with _ | pref
  · norm_num [compute_location_match]
  · simp only [compute_location_match]
    split_ifs <;> norm_num

theorem compute_salary_match_bounds (a b ms : Option ℚ) (s : ℚ)
    (h : compute_salary_match a b ms = some s) : 0 ≤ s ∧ s ≤ 1 := by
  have h42 : ((0.4 : ℚ) / 0.2) = 2 := by norm_num
  rcases ms with _ | u
  · simp only [compute_salary_match, Option.some.injEq] at h
    subst h; norm_num
  · rcases a with _ | va <;> rcases b with _ | vb
    · simp only [compute_salary_match, Option.some.injEq] at h
      subst h; norm_num
    all_goals
      simp only [compute_salary_match] at h
    all_goals
      rcases eq_or_ne u 0 with hu | hu
    case some.none.some.inl => simp [hu] at h
    case some.some.none.inl => simp [hu] at h
    case some.some.some.inl => simp [hu] at h
    all_goals
      rw [if_neg hu, Option.some.injEq] at h
    all_goals
      subst h
    all_goals
      rw [h42]
    all_goals
      split_ifs with h1 h2
    all_goals
      try (constructor <;> (norm_num; done))
    all_goals
      try (push_neg at h1; constructor <;> (linarith; done))
    all_goals
      push_neg at h1 h2
    all_goals
      exact ⟨le_max_left _ _, max_le (by norm_num) (by linarith)⟩

theorem renormVal_nonneg (w : ScoringWeights) (E : Finset Comp) (c : Comp)
    (hw : ∀ c, 0 ≤ weightOf w c) : 0 ≤ renormVal w E c := by
  unfold renormVal
  dsimp only
  split_ifs
  · positivity
  · have h0 : 0 ≤ ∑ d ∈ availOf E, weightOf w d :=
      Finset.sum_nonneg (fun d _ => hw d)
    exact div_nonneg (hw c) h0

theorem sum_renormVal (w : ScoringWeights) (E : Finset Comp)
    (hne : (availOf E).Nonempty) :
    ∑ c ∈ availOf E, renormVal w E c = 1 := by
  unfold renormVal
  by_cases ht : ∑ d ∈ availOf E, weightOf w d = 0
  · simp only [ht, if_true]
    rw [Finset.sum_const, nsmul_eq_mul]
    rw [mul_one_div, div_self]
    exact_mod_cast Finset.card_ne_zero_of_mem hne.choose_spec
  · simp only [ht, if_false]
    rw [← Finset.sum_div, div_self ht]

theorem avail_excludeSet_nonempty (job : Job) (p : ResumeProfile) :
    (availOf (excludeSet job p)).Nonempty := by
  refine ⟨Comp.embedding_sim, ?_⟩
  simp only [availOf, Finset.mem_sdiff, Finset.mem_univ, true_and]
  intro hmem
  have := excludeSet_subset job p hmem
  simp at this

theorem score_job_total_bounds (w : ScoringWeights) (recencyRaw : Job → ℚ)
    (job : Job) (d : ℚ) (profile : ResumeProfile)
    (hw : ∀ c, 0 ≤ weightOf w c) (sj : ScoredJob)
    (h : score_job w recencyRaw job d profile = some sj) :
    0 ≤ sj.total_score ∧ sj.total_score ≤ 1 := by
  unfold score_job at h
  cases hs : compute_salary_match job.salary_min job.salary_max
      profile.min_salary with
  | none => rw [hs] at h; cases h
  | some s =>
    rw [hs] at h
    injection h with h
    subst h
    have hbreak : ∀ c : Comp,
        0 ≤ (match c with
          | Comp.embedding_sim => distance_to_similarity d
          | Comp.skill_overlap => (compute_skill_overlap profile.skills
              job.description).1
          | Comp.recency => compute_recency (recencyRaw job)
          | Comp.location => compute_location_match job.location
              profile.preferred_location
          | Comp.salary => s) ∧
        (match c with
          | Comp.embedding_sim => distance_to_similarity d
          | Comp.skill_overlap => (compute_skill_overlap profile.skills
              job.description).1
          | Comp.recency => compute_recency (recencyRaw job)
          | Comp.location => compute_location_match job.location
              profile.preferred_location
          | Comp.salary => s) ≤ 1 := by
      intro c
      cases c
      · exact distance_to_similarity_bounds d
      · exact compute_skill_overlap_bounds _ _
      · exact compute_recency_bounds _
      · exact compute_location_match_bounds _ _
      · exact compute_salary_match_bounds _ _ _ _ hs
    constructor
    · exact Finset.sum_nonneg (fun c _ =>
        mul_nonneg (hbreak c).1 (renormVal_nonneg w _ c hw))
    · calc ∑ c ∈ availOf (excludeSet job profile), _ * renormVal w _ c
          ≤ ∑ c ∈ availOf (excludeSet job profile), renormVal w _ c :=
            Finset.sum_le_sum (fun c _ =>
              mul_le_of_le_one_left (renormVal_nonneg w _ c hw) (hbreak c).2)
      _ = 1 := sum_renormVal w _ (avail_excludeSet_nonempty job profile)

theorem mem_insertDesc {z x : ScoredJob} {l : List ScoredJob} :
    z ∈ insertDesc x l ↔ z = x ∨ z ∈ l := by
  induction l with
  | nil => simp [insertDesc]
  | cons y ys ih =>
    simp only [insertDesc]
    split
    · simp
    · simp only [List.mem_cons, ih]
      tauto

theorem insertDesc_perm (x : ScoredJob) (l : List ScoredJob) :
    (insertDesc x l).Perm (x :: l) := by
  induction l with
  | nil => simp [insertDesc]
  | cons y ys ih =>
    simp only [insertDesc]
    split
    · exact List.Perm.refl _
    · exact (ih.cons y).trans (List.Perm.swap x y ys)

theorem sortDesc_perm (l : List ScoredJob) : (sortDesc l).Perm l := by
  induction l with
  | nil => simp [sortDesc]
  | cons x xs ih =>
    exact (insertDesc_perm x (sortDesc xs)).trans (ih.cons x)

theorem pairwise_insertDesc (x : ScoredJob) (l : List ScoredJob)
    (h : List.Pairwise (fun a b => b.total_score ≤ a.total_score) l) :
    List.Pairwise (fun a b => b.total_score ≤ a.total_score)
      (insertDesc x l) := by
  induction l with
  | nil => simp [insertDesc]
  | cons y ys ih =>
    simp only [insertDesc]
    split
    · rename_i hxy
      refine List.Pairwise.cons ?_ h
      intro z hz
      rcases List.mem_cons.mp hz with rfl | hz
      · exact hxy
      · exact le_trans (List.rel_of_pairwise_cons h hz) hxy
    · rename_i hxy
      push_neg at hxy
      refine List.Pairwise.cons ?_ (ih h.of_cons)
      intro z hz
      rcases mem_insertDesc.1 hz with rfl | hz
      · exact le_of_lt hxy
      · exact List.rel_of_pairwise_cons h hz

theorem pairwise_sortDesc (l : List ScoredJob) :
    List.Pairwise (fun a b => b.total_score ≤ a.total_score) (sortDesc l) := by
  induction l with
  | nil => simp [sortDesc]
  | cons x xs ih => exact pairwise_insertDesc x (sortDesc xs) ih

theorem filter_insertDesc (x : ScoredJob) (l : List ScoredJob) (q : ℚ) :
    (insertDesc x l).filter (fun z => z.total_score = q) =
      if x.total_score = q then
        x :: l.filter (fun z => z.total_score = q)
      else l.filter (fun z => z.total_score = q) := by
  induction l with
  | nil => by_cases hx : x.total_score = q <;> simp [insertDesc, hx]
  | cons y ys ih =>
    simp only [insertDesc]
    split
    · by_cases hx : x.total_score = q <;> simp [List.filter_cons, hx]
    · rename_i hxy
      push_neg at hxy
      by_cases hx : x.total_score = q
      · have hy : ¬ y.total_score = q := by
          intro hy
          rw [hx] at hxy
          rw [hy] at hxy
          exact lt_irrefl q hxy
        simp [List.filter_cons, hx, hy, ih]
      · simp [List.filter_cons, hx, ih]

theorem filter_sortDesc (l : List ScoredJob) (q : ℚ) :
    (sortDesc l).filter (fun z => z.total_score = q) =
      l.filter (fun z => z.total_score = q) := by
  induction l with
  | nil => simp [sortDesc]
  | cons x xs ih =>
    rw [sortDesc, filter_insertDesc, List.filter_cons]
    by_cases hx : x.total_score = q <;> simp [hx, ih]

theorem mapM_eq_some_of_forall {α β : Type} (f : α → Option β) :
    ∀ l : List α, (∀ a ∈ l, ∃ b, f a = some b) →
      ∃ bs, l.mapM f = some bs ∧ ∀ b ∈ bs, ∃ a ∈ l, f a = some b := by
  intro l
  induction l with
  | nil => intro _; exact ⟨[], rfl, by simp⟩
  | cons a as ih =>
    intro h
    obtain ⟨b, hb⟩ := h a (by simp)
    obtain ⟨bs, hbs, hmem⟩ := ih (fun x hx => h x (by simp [hx]))
    refine ⟨b :: bs, ?_, ?_⟩
    · rw [List.mapM_cons, hb, hbs]
      rfl
    · intro y hy
      rcases List.mem_cons.mp hy with rfl | hy
      · exact ⟨a, by simp, hb⟩
      · obtain ⟨x, hx, hfx⟩ := hmem y hy
        exact ⟨x, by simp [hx], hfx⟩

/-- Claim C2: with equal-length inputs, non-negative weights and a
well-formed salary preference, `score_jobs` succeeds and returns the
scored jobs stably sorted by descending total score — the output is a
permutation of the scored list, pairwise descending, and for every score
value the tied entries keep their input order (`filter` invariance); every
total score lies in `[0, 1]`.  With different lengths, it fails
(`ValueError`, modelled as `none`). -/
theorem score_jobs_spec (w : ScoringWeights) (recencyRaw : Job → ℚ)
    (jobs : List Job) (distances : List ℚ) (profile : ResumeProfile)
    (hw : ∀ c, 0 ≤ weightOf w c)
    (hms : ∀ u, profile.min_salary = some u → u ≠ 0) :
    (jobs.length ≠ distances.length →
      score_jobs w recencyRaw jobs distances profile = none) ∧
    (jobs.length = distances.length →
      ∃ scored, (jobs.zip distances).mapM
          (fun jd => score_job w recencyRaw jd.1 jd.2 profile) = some scored ∧
        score_jobs w recencyRaw jobs distances profile =
          some (sortDesc scored) ∧
        (sortDesc scored).Perm scored ∧
        List.Pairwise (fun a b => b.total_score ≤ a.total_score)
          (sortDesc scored) ∧
        (∀ q : ℚ, (sortDesc scored).filter (fun z => z.total_score = q) =
          scored.filter (fun z => z.total_score = q)) ∧
        (∀ sj ∈ sortDesc scored, 0 ≤ sj.total_score ∧ sj.total_score ≤ 1)) := by
  constructor
  · intro hne
    simp [score_jobs, hne]
  · intro heq
    have hall : ∀ jd ∈ jobs.zip distances,
        ∃ sj, score_job w recencyRaw jd.1 jd.2 profile = some sj := by
      intro jd _
      obtain ⟨s, hs⟩ := compute_salary_match_isSome jd.1.salary_min
        jd.1.salary_max profile.min_salary hms
      exact ⟨_, by simp only [score_job, hs]; rfl⟩
    obtain ⟨scored, hscored, hmem⟩ := mapM_eq_some_of_forall _ _ hall
    refine ⟨scored, hscored, ?_, sortDesc_perm scored, pairwise_sortDesc scored,
      fun q => filter_sortDesc scored q, ?_⟩
    · simp only [score_jobs]
      rw [if_neg (fun h => h heq), hscored]
    · intro sj hsj
      have hsj' : sj ∈ scored := ((sortDesc_perm scored).mem_iff).1 hsj
      obtain ⟨jd, _, hjd⟩ := hmem sj hsj'
      exact score_job_total_bounds w recencyRaw jd.1 jd.2 profile hw sj hjd

/-- Witness for C2: a length mismatch fails, and a concrete two-job query
succeeds with all the ordering and bound properties. -/
theorem score_jobs_spec_witness :
    (score_jobs defaultWeights (fun _ => 1) [Job.mk "A" "python" none none]
      [] (ResumeProfile.mk "" "" ∅ none none) = none) ∧
    (∃ scored,
      ([Job.mk "A" "python" none none,
        Job.mk "B" "" none none].zip [(1:ℚ)/4, 1/2]).mapM
          (fun jd => score_job defaultWeights (fun _ => 1) jd.1 jd.2
            (ResumeProfile.mk "" "" ∅ none none)) = some scored ∧
      score_jobs defaultWeights (fun _ => 1)
        [Job.mk "A" "python" none none, Job.mk "B" "" none none]
        [(1:ℚ)/4, 1/2] (ResumeProfile.mk "" "" ∅ none none) =
        some (sortDesc scored) ∧
      (sortDesc scored).Perm scored ∧
      List.Pairwise (fun a b => b.total_score ≤ a.total_score)
        (sortDesc scored) ∧
      (∀ q : ℚ, (sortDesc scored).filter (fun z => z.total_score = q) =
        scored.filter (fun z => z.total_score = q)) ∧
      (∀ sj ∈ sortDesc scored, 0 ≤ sj.total_score ∧ sj.total_score ≤ 1)) :=
  ⟨(score_jobs_spec defaultWeights (fun _ => 1) [Job.mk "A" "python" none none]
      [] (ResumeProfile.mk "" "" ∅ none none) defaultWeights_nonneg
      (fun _ h => nomatch h)).1 (by decide),
   (score_jobs_spec defaultWeights (fun _ => 1)
      [Job.mk "A" "python" none none, Job.mk "B" "" none none]
      [(1:ℚ)/4, 1/2] (ResumeProfile.mk "" "" ∅ none none)
      defaultWeights_nonneg (fun _ h => nomatch h)).2 rfl⟩

/-! ### Claim C7: `highlight_text` never emits a raw `<script>` -/

/-- Does the text start with the two characters `s`, `c`? -/
def startsSC : List Char → Bool
  | a :: b :: _ => a == 's' && b == 'c'
  | _ => false

/-- No window `<`, `s`, `c` occurs anywhere in the text.  Absence of this
window implies absence of a raw `<script>` substring. -/
def noSC : List Char → Bool
  | [] => true
  | c :: rest => (!(c == '<' && startsSC rest)) && noSC rest

theorem noSC_cons_of {c : Char} {rest : List Char} (h : c ≠ '<')
    (hr : noSC rest = true) : noSC (c :: rest) = true := by
  simp [noSC, h, hr]

theorem noSC_lt_cons {t : List Char} (hs : startsSC t = false)
    (ht : noSC t = true) : noSC ('<' :: t) = true := by
  simp [noSC, hs, ht]

theorem noSC_rest {c : Char} {rest : List Char}
    (h : noSC (c :: rest) = true) : noSC rest = true := by
  simp only [noSC, Bool.and_eq_true] at h
  exact h.2

theorem noSC_drop (n : Nat) : ∀ {l : List Char}, noSC l = true →
    noSC (l.drop n) = true := by
  induction n with
  | zero => intro l h; exact h
  | succ m ih =>
    intro l h
    cases l with
    | nil => exact h
    | cons c rest => exact ih (noSC_rest h)

theorem noLt_append {a b : List Char} (ha : ∀ c ∈ a, c ≠ '<')
    (hb : noSC b = true) : noSC (a ++ b) = true := by
  induction a with
  | nil => exact hb
  | cons c a' ih =>
    exact noSC_cons_of (ha c (by simp))
      (ih (fun d hd => ha d (by simp [hd])))

theorem noSC_of_noLt {l : List Char} (h : ∀ c ∈ l, c ≠ '<') :
    noSC l = true := by
  have := noLt_append h (show noSC [] = true from rfl)
  simpa using this

theorem escapeHtml_mem_ne_lt (l : List Char) :
    ∀ c ∈ escapeHtml l, c ≠ '<' := by
  intro c hc
  simp only [escapeHtml, List.mem_flatMap] at hc
  obtain ⟨a, _, hm⟩ := hc
  unfold escCh at hm
  split_ifs at hm with h1 h2 h3 h4 h5
  · exact (by decide : ∀ x ∈ "&amp;".toList, x ≠ '<') c hm
  · exact (by decide : ∀ x ∈ "&lt;".toList, x ≠ '<') c hm
  · exact (by decide : ∀ x ∈ "&gt;".toList, x ≠ '<') c hm
  · exact (by decide : ∀ x ∈ "&quot;".toList, x ≠ '<') c hm
  · exact (by decide : ∀ x ∈ "&#x27;".toList, x ≠ '<') c hm
  · simp only [List.mem_singleton] at hm
    subst hm
    exact h2

theorem toNat_ofNat_of_valid {m : Nat} (h : m.isValidChar) :
    (Char.ofNat m).toNat = m := by
  rw [Char.ofNat, dif_pos h]
  rfl

theorem pyToLower_eq_lt {c : Char} (h : pyToLower c = '<') : c = '<' := by
  unfold pyToLower at h
  split_ifs at h with hA
  · exfalso
    have h65 : 65 ≤ c.toNat := hA.1
    have h90 : c.toNat ≤ 90 := hA.2
    have hvalid : (c.toNat + 32).isValidChar := by
      left
      omega
    have hv := congrArg Char.toNat h
    rw [toNat_ofNat_of_valid hvalid] at hv
    have : ('<').toNat = 60 := rfl
    omega
  · exact h

theorem ciStarts_take_ne_lt {p : List Char} (hp : ∀ c ∈ p, c ≠ '<') :
    ∀ {l : List Char}, ciStarts p l = true →
      ∀ c ∈ l.take p.length, c ≠ '<' := by
  induction p with
  | nil => intro l _ c hc; simp at hc
  | cons a p' ih =>
    intro l hci c hc
    cases l with
    | nil => simp [ciStarts] at hci
    | cons b l' =>
      simp only [ciStarts, Bool.and_eq_true, beq_iff_eq] at hci
      simp only [List.length_cons, List.take_succ_cons, List.mem_cons] at hc
      rcases hc with rfl | hc
      · intro hb
        subst hb
        have : pyToLower a = '<' := by
          rw [← hci.1]; rfl
        exact hp a (by simp) (pyToLower_eq_lt this)
      · exact ih (fun d hd => hp d (by simp [hd])) hci.2 c hc

theorem openSpan_eq_cons (cls : List Char) :
    openSpan cls = '<' :: ("span class=\"".toList ++ escapeHtml cls ++
      ("\" style=\"background-color: #fff3cd; padding: 1px 3px; " ++
       "border-radius: 3px; font-weight: 500;\">").toList) := rfl

theorem noSC_openSpan_append (cls : List Char) {X : List Char}
    (hX : noSC X = true) : noSC (openSpan cls ++ X) = true := by
  rw [openSpan_eq_cons, List.cons_append, List.append_assoc,
    List.append_assoc]
  apply noSC_lt_cons
  · rfl
  · apply noLt_append (show ∀ c ∈ "span class=\"".toList, c ≠ '<' by decide)
    apply noLt_append (escapeHtml_mem_ne_lt cls)
    apply noLt_append (show ∀ c ∈ ("\" style=\"background-color: #fff3cd; " ++
      "padding: 1px 3px; border-radius: 3px; " ++
      "font-weight: 500;\">").toList, c ≠ '<' by decide)
    exact hX

theorem closeSpan_eq_cons : closeSpan = '<' :: "/span>".toList := rfl

theorem noSC_closeSpan_append {X : List Char} (hX : noSC X = true) :
    noSC (closeSpan ++ X) = true := by
  rw [closeSpan_eq_cons, List.cons_append]
  apply noSC_lt_cons
  · rfl
  · exact noLt_append (show ∀ c ∈ "/span>".toList, c ≠ '<' by decide) hX

theorem startsSC_cons_ne {a : Char} (h : a ≠ 's') (x : List Char) :
    startsSC (a :: x) = false := by
  cases x with
  | nil => rfl
  | cons b t => simp [startsSC, h]

theorem substFuel_head_cases (p cl t : List Char) :
    ∀ (fuel : Nat) (l : List Char) (x : Char),
      (substFuel p ('<' :: t) cl fuel l).head? = some x →
      x = '<' ∨ l.head? = some x := by
  intro fuel l x h
  cases fuel with
  | zero => exact Or.inr h
  | succ f =>
    cases l with
    | nil => simp [substFuel] at h
    | cons c rest =>
      by_cases hm : p ≠ [] ∧ ciStarts p (c :: rest)
      · rw [substFuel, if_pos hm] at h
        simp only [List.cons_append, List.head?_cons,
          Option.some.injEq] at h
        exact Or.inl h.symm
      · rw [substFuel, if_neg hm] at h
        simp only [List.head?_cons, Option.some.injEq] at h
        exact Or.inr (by simp [h])

theorem startsSC_substFuel (p cl t : List Char) :
    ∀ (fuel : Nat) (l : List Char),
      startsSC (substFuel p ('<' :: t) cl fuel l) = true →
      startsSC l = true := by
  intro fuel l h
  cases fuel with
  | zero => exact h
  | succ f =>
    cases l with
    | nil => simp [substFuel, startsSC] at h
    | cons c rest =>
      by_cases hm : p ≠ [] ∧ ciStarts p (c :: rest)
      · rw [substFuel, if_pos hm] at h
        simp only [List.cons_append] at h
        rw [startsSC_cons_ne (by decide : ('<' : Char) ≠ 's')] at h
        cases h
      · rw [substFuel, if_neg hm] at h
        cases hT' : substFuel p ('<' :: t) cl f rest with
        | nil => rw [hT'] at h; simp [startsSC] at h
        | cons d t' =>
          rw [hT'] at h
          simp only [startsSC, Bool.and_eq_true, beq_iff_eq] at h
          obtain ⟨rfl, rfl⟩ := h
          have hd : (substFuel p ('<' :: t) cl f rest).head? = some 'c' := by
            rw [hT']; rfl
          rcases substFuel_head_cases p cl t f rest 'c' hd with h' | h'
          · exact absurd h' (by decide)
          · cases rest with
            | nil => simp at h'
            | cons e rest' =>
              simp only [List.head?_cons, Option.some.injEq] at h'
              subst h'
              rfl

theorem noSC_substFuel (p : List Char) (hp : ∀ c ∈ p, c ≠ '<')
    (cls : List Char) :
    ∀ (fuel : Nat) (l : List Char), noSC l = true →
      noSC (substFuel p (openSpan cls) closeSpan fuel l) = true := by
  intro fuel
  induction fuel with
  | zero => intro l h; exact h
  | succ f ih =>
    intro l h
    cases l with
    | nil => rfl
    | cons c rest =>
      by_cases hm : p ≠ [] ∧ ciStarts p (c :: rest)
      · rw [substFuel, if_pos hm]
        rw [List.append_assoc, List.append_assoc]
        apply noSC_openSpan_append
        apply noLt_append (ciStarts_take_ne_lt hp hm.2)
        apply noSC_closeSpan_append
        exact ih _ (noSC_drop _ h)
      · rw [substFuel, if_neg hm]
        by_cases hc : c = '<'
        · subst hc
          apply noSC_lt_cons
          · cases hT : startsSC (substFuel p (openSpan cls) closeSpan f rest) with
            | false => rfl
            | true =>
              exfalso
              have hrest := startsSC_substFuel p closeSpan _ f rest
                (by rw [← openSpan_eq_cons]; exact hT)
              simp [noSC, hrest] at h
          · exact ih rest (noSC_rest h)
        · exact noSC_cons_of hc (ih rest (noSC_rest h))

theorem substEmpty_eq_append (op cl : List Char) (l : List Char) :
    substEmpty op cl l = op ++ (cl ++
      match l with
      | [] => []
      | c :: rest => c :: substEmpty op cl rest) := by
  cases l <;> simp [substEmpty]

theorem startsSC_substEmpty (cl t : List Char) (l : List Char) :
    startsSC (substEmpty ('<' :: t) cl l) = false := by
  rw [substEmpty_eq_append, List.cons_append]
  exact startsSC_cons_ne (by decide) _

theorem noSC_substEmpty (cls : List Char) :
    ∀ l : List Char, noSC l = true →
      noSC (substEmpty (openSpan cls) closeSpan l) = true := by
  intro l
  induction l with
  | nil =>
    intro _
    show noSC (openSpan cls ++ closeSpan) = true
    rw [← List.append_nil closeSpan]
    exact noSC_openSpan_append cls (noSC_closeSpan_append rfl)
  | cons c rest ih =>
    intro h
    rw [show substEmpty (openSpan cls) closeSpan (c :: rest) =
      openSpan cls ++ closeSpan ++
        c :: substEmpty (openSpan cls) closeSpan rest from rfl,
      List.append_assoc]
    apply noSC_openSpan_append
    apply noSC_closeSpan_append
    by_cases hc : c = '<'
    · subst hc
      apply noSC_lt_cons
      · rw [openSpan_eq_cons]
        exact startsSC_substEmpty closeSpan _ rest
      · exact ih (noSC_rest h)
    · exact noSC_cons_of hc (ih (noSC_rest h))

theorem noSC_not_occursIn_sc {l : List Char} (h : noSC l = true) :
    ¬ occursIn ['<', 's', 'c'] l := by
  rintro ⟨u, v, rfl⟩
  induction u with
  | nil =>
    simp only [List.nil_append, noSC, startsSC] at h
    simp at h
  | cons a u' ih =>
    exact ih (noSC_rest h)

/-- Claim C7: the string produced by `highlight_text` never contains a raw
`<script>` substring — the text, the terms, and the CSS class are all
HTML-escaped before substitution, and the inserted markup cannot recreate
one. -/
theorem highlight_text_no_script (text : String) (terms : List String)
    (cls : String) :
    ¬ occursIn "<script>".toList (highlight_text text terms cls).toList := by
  have hbase : noSC (escapeHtml text.toList) = true :=
    noSC_of_noLt (escapeHtml_mem_ne_lt _)
  have hfold : noSC (highlight_text text terms cls).toList = true := by
    unfold highlight_text
    by_cases hte : terms.isEmpty
    · simp only [hte, if_true]
      exact hbase
    · simp only [hte, if_false, Bool.false_eq_true]
      have : ∀ (ts : List String) (s : List Char), noSC s = true →
          noSC (ts.foldl (fun s term =>
            let p := escapeHtml term.toList
            let op := openSpan cls.toList
            if p.isEmpty then substEmpty op closeSpan s
            else substCI p op closeSpan s) s) = true := by
        intro ts
        induction ts with
        | nil => intro s hs; exact hs
        | cons tmh tl ih =>
          intro s hs
          apply ih
          dsimp only
          by_cases hpe : (escapeHtml tmh.toList).isEmpty
          · rw [if_pos hpe]
            exact noSC_substEmpty cls.toList s hs
          · rw [if_neg hpe]
            exact noSC_substFuel (escapeHtml tmh.toList)
              (escapeHtml_mem_ne_lt _) cls.toList s.length s hs
      exact this terms (escapeHtml text.toList) hbase
  intro hocc
  obtain ⟨u, v, huv⟩ := hocc
  refine noSC_not_occursIn_sc hfold ⟨u, "ript>".toList ++ v, ?_⟩
  rw [huv]
  simp

/-- Witness for C7 at a concrete malicious input. -/
theorem highlight_text_no_script_witness :
    ¬ occursIn "<script>".toList
      (highlight_text "<script>alert(1)</script>" ["script", ""]
        "highlight").toList :=
  highlight_text_no_script "<script>alert(1)</script>" ["script", ""]
    "highlight"

/-! ### Claims C3 and C8 (amended): pipeline lemmas for `<`-free and
`&`-free inputs -/

theorem tagAux_none_id {l : List Char} (h : ∀ c ∈ l, c ≠ '<') :
    tagAux none l = l := by
  induction l with
  | nil => rfl
  | cons c rest ih =>
    show tagAux none (c :: rest) = c :: rest
    rw [tagAux, if_neg (h c (by simp))]
    rw [ih (fun d hd => h d (by simp [hd]))]

theorem tagSub_id {l : List Char} (h : ∀ c ∈ l, c ≠ '<') : tagSub l = l :=
  tagAux_none_id h

theorem unescapeFuel_id (fuel : Nat) :
    ∀ {l : List Char}, (∀ c ∈ l, c ≠ '&') → unescapeFuel fuel l = l := by
  induction fuel with
  | zero => intro l _; rfl
  | succ f ih =>
    intro l h
    cases l with
    | nil => rfl
    | cons c rest =>
      have hc : c ≠ '&' := h c (by simp)
      have hr := ih (fun d hd => h d (List.mem_cons_of_mem c hd))
      simp [unescapeFuel, hc, hr]

theorem unescapeGo_id {l : List Char} (h : ∀ c ∈ l, c ≠ '&') :
    unescapeGo l = l :=
  unescapeFuel_id l.length h

theorem crlfSub_id : ∀ {l : List Char}, (∀ c ∈ l, c ≠ '\r') →
    crlfSub l = l := by
  intro l
  induction l with
  | nil => intro _; rfl
  | cons c rest ih =>
    intro h
    have hc : c ≠ '\r' := h c (by simp)
    have hr := ih (fun d hd => h d (List.mem_cons_of_mem c hd))
    cases rest with
    | nil => simp [crlfSub, hc]
    | cons d rest' =>
      have : ¬ (c = '\r' ∧ d = '\n') := fun hcd => hc hcd.1
      simp [crlfSub, hc, hr]

theorem crSub_id {l : List Char} (h : ∀ c ∈ l, c ≠ '\r') : crSub l = l := by
  unfold crSub
  conv_rhs => rw [← List.map_id l]
  exact List.map_congr_left (fun c hc => by simp [h c hc])

theorem crSub_no_cr (l : List Char) : ∀ c ∈ crSub l, c ≠ '\r' := by
  intro c hc
  simp only [crSub, List.mem_map] at hc
  obtain ⟨d, _, hd⟩ := hc
  subst hd
  by_cases h : d = '\r'
  · rw [if_pos h]; decide
  · rw [if_neg h]; exact h

theorem crlfSub_mem_pred (p : Char → Prop) (hnl : p '\n') :
    ∀ (l : List Char), (∀ c ∈ l, p c) → ∀ c ∈ crlfSub l, p c := by
  intro l
  induction l using crlfSub.induct with
  | case1 rest ih =>
    intro h c hc
    rw [crlfSub] at hc
    rcases List.mem_cons.mp hc with rfl | hc
    · exact hnl
    · exact ih (fun d hd => h d (by simp [hd])) c hc
  | case2 a rest hne ih =>
    intro h c hc
    rw [crlfSub.eq_2 a rest hne] at hc
    rcases List.mem_cons.mp hc with rfl | hc
    · exact h _ (List.mem_cons_self _ _)
    · exact ih (fun d hd => h d (by simp [hd])) c hc
  | case3 => intro _ c hc; cases hc

theorem spAux_mem_pred (p : Char → Prop) (hsp : p ' ') :
    ∀ (st : Bool) {l : List Char}, (∀ c ∈ l, p c) →
      ∀ c ∈ spAux st l, p c := by
  intro st l
  induction l generalizing st with
  | nil => intro _ c hc; cases hc
  | cons a rest ih =>
    intro h c hc
    unfold spAux at hc
    split at hc
    · split at hc
      · exact ih true (fun d hd => h d (List.mem_cons_of_mem _ hd)) c hc
      · rcases List.mem_cons.mp hc with rfl | hc
        · exact hsp
        · exact ih true (fun d hd => h d (List.mem_cons_of_mem _ hd)) c hc
    · rcases List.mem_cons.mp hc with rfl | hc
      · exact h _ (List.mem_cons_self _ _)
      · exact ih false (fun d hd => h d (List.mem_cons_of_mem _ hd)) c hc

theorem nlAux_mem_pred (p : Char → Prop) (hnl : p '\n') :
    ∀ (run : Nat) {l : List Char}, (∀ c ∈ l, p c) →
      ∀ c ∈ nlAux run l, p c := by
  intro run l
  induction l generalizing run with
  | nil => intro _ c hc; cases hc
  | cons a rest ih =>
    intro h c hc
    unfold nlAux at hc
    split at hc
    · split at hc
      · rcases List.mem_cons.mp hc with rfl | hc
        · exact hnl
        · exact ih _ (fun d hd => h d (List.mem_cons_of_mem _ hd)) c hc
      · exact ih _ (fun d hd => h d (List.mem_cons_of_mem _ hd)) c hc
    · rcases List.mem_cons.mp hc with rfl | hc
      · exact h _ (List.mem_cons_self _ _)
      · exact ih _ (fun d hd => h d (List.mem_cons_of_mem _ hd)) c hc

theorem dropWhile_head_false (p : Char → Bool) :
    ∀ {l : List Char} {x : Char}, (l.dropWhile p).head? = some x →
      p x = false := by
  intro l
  induction l with
  | nil => intro x h; cases h
  | cons c rest ih =>
    intro x h
    rw [List.dropWhile_cons] at h
    split at h
    · exact ih h
    · rename_i hc
      injection h with h
      subst h
      simpa using hc

theorem dropWhile_eq_self_of_head (p : Char → Bool) {l : List Char}
    (h : ∀ x, l.head? = some x → p x = false) : l.dropWhile p = l := by
  cases l with
  | nil => rfl
  | cons c rest =>
    rw [List.dropWhile_cons, if_neg]
    simp [h c rfl]

theorem pyStrip_decomp (l : List Char) : ∃ u v, l = u ++ pyStrip l ++ v := by
  obtain ⟨u, hu⟩ := List.dropWhile_suffix (l := l) (p := pyIsSpace)
  obtain ⟨w, hw⟩ := List.dropWhile_suffix
    (l := (l.dropWhile pyIsSpace).reverse) (p := pyIsSpace)
  refine ⟨u, w.reverse, ?_⟩
  have h2 : l.dropWhile pyIsSpace =
      pyStrip l ++ w.reverse := by
    have := congrArg List.reverse hw
    simp only [List.reverse_append, List.reverse_reverse] at this
    rw [← this]
    rfl
  rw [List.append_assoc, ← h2]
  exact hu.symm

theorem pyStrip_head {l : List Char} {x : Char}
    (h : (pyStrip l).head? = some x) : pyIsSpace x = false := by
  unfold pyStrip at h
  rw [List.head?_reverse] at h
  have hne : (l.dropWhile pyIsSpace).reverse.dropWhile pyIsSpace ≠ [] := by
    intro he
    rw [he] at h
    cases h
  obtain ⟨w, hw⟩ := List.dropWhile_suffix
    (l := (l.dropWhile pyIsSpace).reverse) (p := pyIsSpace)
  have hlast : ((l.dropWhile pyIsSpace).reverse.dropWhile
      pyIsSpace).getLast? = (l.dropWhile pyIsSpace).reverse.getLast? := by
    conv_rhs => rw [← hw]
    exact (List.getLast?_append_of_ne_nil w hne).symm
  rw [hlast, List.getLast?_reverse] at h
  exact dropWhile_head_false pyIsSpace h

theorem pyStrip_getLast {l : List Char} {x : Char}
    (h : (pyStrip l).getLast? = some x) : pyIsSpace x = false := by
  unfold pyStrip at h
  rw [List.getLast?_reverse] at h
  exact dropWhile_head_false pyIsSpace h

theorem pyStrip_id_of {l : List Char}
    (hh : ∀ x, l.head? = some x → pyIsSpace x = false)
    (hl : ∀ x, l.getLast? = some x → pyIsSpace x = false) :
    pyStrip l = l := by
  unfold pyStrip
  rw [dropWhile_eq_self_of_head pyIsSpace hh]
  rw [dropWhile_eq_self_of_head pyIsSpace
    (fun x hx => hl x (by rwa [List.head?_reverse] at hx))]
  exact List.reverse_reverse l

theorem pyStrip_idem (l : List Char) : pyStrip (pyStrip l) = pyStrip l := by
  cases hs : pyStrip l with
  | nil => rfl
  | cons c rest =>
    rw [← hs]
    exact pyStrip_id_of
      (fun x hx => pyStrip_head hx)
      (fun x hx => pyStrip_getLast hx)

theorem containsSeq_tail {p : List Char} {c : Char} {rest : List Char}
    (h : containsSeq p (c :: rest) = false) : containsSeq p rest = false := by
  rw [containsSeq, Bool.or_eq_false_iff] at h
  exact h.2

theorem containsSeq_false_of_decomp {p l : List Char}
    (h : containsSeq p l = false) {m : List Char}
    (hm : ∃ u v, l = u ++ m ++ v) : containsSeq p m = false := by
  cases hc : containsSeq p m with
  | false => rfl
  | true =>
    exfalso
    obtain ⟨u, v, rfl⟩ := hm
    obtain ⟨a, b, rfl⟩ := occursIn_iff_containsSeq.mpr hc
    have : occursIn p (u ++ (a ++ p ++ b) ++ v) :=
      ⟨u ++ a, b ++ v, by simp⟩
    rw [occursIn_iff_containsSeq, h] at this
    cases this

theorem isPrefixOf_pair (a b : Char) (T : List Char) :
    [a, b].isPrefixOf T = true ↔ ∃ t, T = a :: b :: t := by
  rw [isPrefixOf_iff_append]
  constructor
  · rintro ⟨v, rfl⟩; exact ⟨v, rfl⟩
  · rintro ⟨t, rfl⟩; exact ⟨t, rfl⟩

theorem spAux_true_head : ∀ {l : List Char} {x : Char},
    (spAux true l).head? = some x → isSpTab x = false := by
  intro l
  induction l with
  | nil => intro x h; cases h
  | cons c rest ih =>
    intro x h
    rw [spAux] at h
    split at h
    · exact ih h
    · rename_i hc
      injection h with h
      subst h
      simpa using hc

theorem spAux_no_double : ∀ (st : Bool) (l : List Char),
    containsSeq [' ', ' '] (spAux st l) = false := by
  intro st l
  induction l generalizing st with
  | nil => rfl
  | cons c rest ih =>
    rw [spAux]
    split
    · split
      · exact ih true
      · rw [containsSeq, Bool.or_eq_false_iff]
        refine ⟨?_, ih true⟩
        rw [← Bool.not_eq_true, isPrefixOf_pair]
        rintro ⟨t, ht⟩
        have h2 : spAux true rest = ' ' :: t := by
          have := congrArg List.tail ht
          simpa using this
        have h3 : (spAux true rest).head? = some ' ' := by rw [h2]; rfl
        have := spAux_true_head h3
        simp [isSpTab] at this
    · rename_i hc
      rw [containsSeq, Bool.or_eq_false_iff]
      refine ⟨?_, ih false⟩
      rw [← Bool.not_eq_true, isPrefixOf_pair]
      rintro ⟨t, ht⟩
      have : c = ' ' := by injection ht
      subst this
      simp [isSpTab] at hc

theorem spAux_true_eq_false {l : List Char}
    (h : ∀ x, l.head? = some x → isSpTab x = false) :
    spAux true l = spAux false l := by
  cases l with
  | nil => rfl
  | cons c rest =>
    have hc := h c rfl
    rw [spAux, spAux, if_neg (by simp [hc]), if_neg (by simp [hc])]

theorem spCollapse_id : ∀ {l : List Char}, (∀ c ∈ l, c ≠ '\t') →
    containsSeq [' ', ' '] l = false → spCollapse l = l := by
  intro l
  induction l with
  | nil => intro _ _; rfl
  | cons c rest ih =>
    intro ht hd
    show spAux false (c :: rest) = c :: rest
    rw [spAux]
    by_cases hc : isSpTab c = true
    · rw [if_pos hc]
      have hcsp : c = ' ' := by
        have := ht c (by simp)
        revert hc this
        unfold isSpTab
        rcases eq_or_ne c ' ' with rfl | h1
        · intro _ _; rfl
        · intro h2 h3
          simp [h1] at h2
          exact absurd h2 h3
      subst hcsp
      have hhead : ∀ x, rest.head? = some x → isSpTab x = false := by
        intro x hx
        cases rest with
        | nil => cases hx
        | cons d rest' =>
          injection hx with hx
          subst hx
          have hd' : d ≠ '\t' := ht d (by simp)
          have : d ≠ ' ' := by
            intro hde
            subst hde
            rw [containsSeq, Bool.or_eq_false_iff] at hd
            have := hd.1
            rw [← Bool.not_eq_true, isPrefixOf_pair] at this
            exact this ⟨rest', rfl⟩
          unfold isSpTab
          simp [hd', this]
      have ihr : spAux false rest = rest :=
        ih (fun d hdm => ht d (by simp [hdm])) (containsSeq_tail hd)
      rw [if_neg (by decide : ¬ (false = true)), spAux_true_eq_false hhead, ihr]
    · rw [if_neg hc]
      have ihr : spAux false rest = rest :=
        ih (fun d hdm => ht d (by simp [hdm])) (containsSeq_tail hd)
      rw [ihr]

/-- The output of `spAux` never contains a tab: every space/tab run of the
input is replaced by a single space. -/
theorem spAux_no_tab : ∀ (st : Bool) (l : List Char), ∀ c ∈ spAux st l, c ≠ '\t' := by
  intro st l
  induction l generalizing st with
  | nil => intro c hc; cases hc
  | cons a rest ih =>
    intro c hc
    rw [spAux] at hc
    split at hc
    · split at hc
      · exact ih true c hc
      · rcases List.mem_cons.mp hc with rfl | hc
        · decide
        · exact ih true c hc
    · rename_i ha
      rcases List.mem_cons.mp hc with rfl | hc
      · intro he
        exact ha (by rw [he]; decide)
      · exact ih false c hc

theorem occursIn_cons {p x : List Char} (c : Char) (h : occursIn p x) :
    occursIn p (c :: x) := by
  obtain ⟨u, v, rfl⟩ := h
  exact ⟨c :: u, v, rfl⟩

theorem occursIn_cons_elim {p : List Char} {c : Char} {x : List Char}
    (h : occursIn p (c :: x)) :
    (∃ v, c :: x = p ++ v) ∨ occursIn p x := by
  obtain ⟨u, v, he⟩ := h
  cases u with
  | nil => exact Or.inl ⟨v, by simpa using he⟩
  | cons a u' =>
    right
    simp only [List.cons_append] at he
    injection he with _ h2
    exact ⟨u', v, h2⟩

theorem pyStrip_mem {l : List Char} {c : Char} (h : c ∈ pyStrip l) : c ∈ l := by
  obtain ⟨u, v, he⟩ := pyStrip_decomp l
  rw [he]
  simp [h]

theorem mem_of_getLast {l : List Char} {c : Char} (h : l.getLast? = some c) :
    c ∈ l := by
  rw [← List.head?_reverse] at h
  have hm : c ∈ l.reverse := by
    cases hl : l.reverse with
    | nil => rw [hl] at h; cases h
    | cons d t =>
      rw [hl] at h
      injection h with h
      subst h
      simp
  simpa using hm

theorem mem_of_head {l : List Char} {c : Char} (h : l.head? = some c) :
    c ∈ l := by
  cases l with
  | nil => cases h
  | cons d t =>
    injection h with h
    subst h
    simp

theorem crSub_mem_pred (p : Char → Prop) (hnl : p '\n') {l : List Char}
    (h : ∀ c ∈ l, p c) : ∀ c ∈ crSub l, p c := by
  intro c hc
  simp only [crSub, List.mem_map] at hc
  obtain ⟨d, hd, hde⟩ := hc
  subst hde
  by_cases hdr : d = '\r'
  · rw [if_pos hdr]; exact hnl
  · rw [if_neg hdr]; exact h d hd

theorem getLast_cons_of_ne_nil {c : Char} {x : List Char} (hx : x ≠ []) :
    (c :: x).getLast? = x.getLast? := by
  cases x with
  | nil => exact absurd rfl hx
  | cons d t => exact List.getLast?_cons_cons

/-- Once two newlines of a run have been emitted, the next output character
is not a newline. -/
theorem nlAux_head_of_ge2 : ∀ {l : List Char} {run : Nat}, 2 ≤ run →
    (nlAux run l).head? ≠ some '\n' := by
  intro l
  induction l with
  | nil => intro run _ h; cases h
  | cons c rest ih =>
    intro run hr
    rw [nlAux]
    by_cases hc : c = '\n'
    · rw [if_pos hc, if_neg (by omega)]
      exact ih hr
    · rw [if_neg hc]
      intro h
      injection h with h
      exact hc h

/-- After at least one emitted newline of a run, the output does not start
with two newlines. -/
theorem nlAux_no_nn_of_ge1 : ∀ {l : List Char} {run : Nat}, 1 ≤ run →
    ['\n', '\n'].isPrefixOf (nlAux run l) = false := by
  intro l
  induction l with
  | nil => intro run _; rfl
  | cons c rest ih =>
    intro run hr
    rw [nlAux]
    by_cases hc : c = '\n'
    · rw [if_pos hc]
      by_cases h2 : run < 2
      · rw [if_pos h2]
        rw [← Bool.not_eq_true, isPrefixOf_pair]
        rintro ⟨t, ht⟩
        injection ht with h1 htl
        have hh2 : (nlAux (run + 1) rest).head? ≠ some '\n' :=
          nlAux_head_of_ge2 (by omega)
        exact hh2 (by rw [htl]; rfl)
      · rw [if_neg h2]
        exact ih hr
    · rw [if_neg hc]
      rw [← Bool.not_eq_true, isPrefixOf_pair]
      rintro ⟨t, ht⟩
      injection ht with h1 h2
      exact hc h1

/-- The output of `nlAux` never contains three consecutive newlines. -/
theorem nlAux_no_triple : ∀ (l : List Char) (run : Nat),
    containsSeq ['\n', '\n', '\n'] (nlAux run l) = false := by
  intro l
  induction l with
  | nil => intro run; rfl
  | cons c rest ih =>
    intro run
    rw [nlAux]
    by_cases hc : c = '\n'
    · rw [if_pos hc]
      by_cases h2 : run < 2
      · rw [if_pos h2]
        rw [containsSeq, Bool.or_eq_false_iff]
        refine ⟨?_, ih (run + 1)⟩
        have hnn : ['\n', '\n'].isPrefixOf (nlAux (run + 1) rest) = false :=
          nlAux_no_nn_of_ge1 (by omega)
        simpa [List.isPrefixOf] using hnn
      · rw [if_neg h2]
        exact ih run
    · rw [if_neg hc]
      rw [containsSeq, Bool.or_eq_false_iff]
      refine ⟨?_, ih 0⟩
      rw [← Bool.not_eq_true]
      intro hp
      rw [isPrefixOf_iff_append] at hp
      obtain ⟨v, hv⟩ := hp
      injection hv with h1 h2
      exact hc h1

theorem nlAux_zero_head : ∀ (l : List Char), (nlAux 0 l).head? = l.head? := by
  intro l
  cases l with
  | nil => rfl
  | cons c rest =>
    rw [nlAux]
    by_cases hc : c = '\n'
    · rw [if_pos hc, if_pos (by omega), hc]
      rfl
    · rw [if_neg hc]
      rfl

/-- Collapsing newline runs creates no new double space. -/
theorem nlAux_no_double : ∀ (l : List Char) (run : Nat),
    containsSeq [' ', ' '] l = false →
    containsSeq [' ', ' '] (nlAux run l) = false := by
  intro l
  induction l with
  | nil => intro run _; rfl
  | cons c rest ih =>
    intro run h
    rw [nlAux]
    by_cases hc : c = '\n'
    · rw [if_pos hc]
      by_cases h2 : run < 2
      · rw [if_pos h2]
        rw [containsSeq, Bool.or_eq_false_iff]
        refine ⟨?_, ih (run + 1) (containsSeq_tail h)⟩
        rw [← Bool.not_eq_true, isPrefixOf_pair]
        rintro ⟨t, ht⟩
        injection ht with h1 h2
        exact absurd h1 (by decide)
      · rw [if_neg h2]
        exact ih run (containsSeq_tail h)
    · rw [if_neg hc]
      rw [containsSeq, Bool.or_eq_false_iff]
      refine ⟨?_, ih 0 (containsSeq_tail h)⟩
      rw [← Bool.not_eq_true, isPrefixOf_pair]
      rintro ⟨t, ht⟩
      injection ht with h1 htl
      subst h1
      have hh : rest.head? = some ' ' := by
        rw [← nlAux_zero_head, htl]
        rfl
      rw [containsSeq, Bool.or_eq_false_iff] at h
      have h1 := h.1
      rw [← Bool.not_eq_true, isPrefixOf_pair] at h1
      cases rest with
      | nil => cases hh
      | cons d t' =>
        injection hh with hh
        exact h1 ⟨t', by rw [hh]⟩

theorem nlAux_eq_zero_of_head (r : Nat) : ∀ {y : List Char},
    y.head? ≠ some '\n' → nlAux r y = nlAux 0 y := by
  intro y hy
  cases y with
  | nil => rfl
  | cons d t =>
    have hd : d ≠ '\n' := fun h => hy (by rw [h]; rfl)
    rw [nlAux, nlAux, if_neg hd, if_neg hd]

/-- If a list has no triple newline, its leading newline run has length at
most two. -/
theorem lead_le_of_noTriple : ∀ {l : List Char},
    containsSeq ['\n', '\n', '\n'] l = false →
    (l.takeWhile (fun c => c == '\n')).length ≤ 2 := by
  intro l h
  match l with
  | [] => simp
  | [a] => exact le_trans ((List.takeWhile_prefix _).length_le) (by simp)
  | [a, b] => exact le_trans ((List.takeWhile_prefix _).length_le) (by simp)
  | a :: b :: c :: t =>
    by_cases ha : a = '\n'
    · by_cases hb : b = '\n'
      · by_cases hcc : c = '\n'
        · subst ha; subst hb; subst hcc
          simp [containsSeq, List.isPrefixOf] at h
        · simp [List.takeWhile_cons, beq_iff_eq, ha, hb, hcc]
      · simp [List.takeWhile_cons, beq_iff_eq, ha, hb]
    · simp [List.takeWhile_cons, beq_iff_eq, ha]

/-- `nlAux` is the identity on lists whose newline runs never exceed two,
starting from a compatible run counter. -/
theorem nlAux_id : ∀ {l : List Char} {run : Nat},
    run + (l.takeWhile (fun c => c == '\n')).length ≤ 2 →
    containsSeq ['\n', '\n', '\n'] l = false →
    nlAux run l = l := by
  intro l
  induction l with
  | nil => intro run _ _; rfl
  | cons c rest ih =>
    intro run hlen h3
    rw [nlAux]
    by_cases hc : c = '\n'
    · subst hc
      have hlen' : run + 1 + (rest.takeWhile (fun c => c == '\n')).length ≤ 2 := by
        rw [List.takeWhile_cons] at hlen
        simp only [beq_self_eq_true, if_true, List.length_cons] at hlen
        omega
      rw [if_pos rfl, if_pos (by omega), ih hlen' (containsSeq_tail h3)]
    · rw [if_neg hc]
      have hlead := lead_le_of_noTriple (containsSeq_tail h3)
      rw [ih (by omega) (containsSeq_tail h3)]

/-- `spAux` distributes over an append whose left part ends in a
non-space/tab character. -/
theorem spAux_append_of_last : ∀ (x : List Char) (st : Bool) (y : List Char),
    x ≠ [] → (∀ c, x.getLast? = some c → isSpTab c = false) →
    spAux st (x ++ y) = spAux st x ++ spAux false y := by
  intro x
  induction x with
  | nil => intro st y hx _; exact absurd rfl hx
  | cons c x' ih =>
    intro st y _ hlast
    by_cases hx' : x' = []
    · subst hx'
      have hc : isSpTab c = false := hlast c rfl
      simp only [List.cons_append, List.nil_append]
      rw [spAux, if_neg (by simp [hc])]
      show c :: spAux false y = spAux st [c] ++ spAux false y
      rw [show spAux st [c] = [c] from by rw [spAux, if_neg (by simp [hc])]; rfl]
      rfl
    · have hlast' : ∀ e, x'.getLast? = some e → isSpTab e = false := by
        intro e he
        apply hlast
        rw [getLast_cons_of_ne_nil hx']
        exact he
      simp only [List.cons_append]
      rw [spAux, spAux]
      by_cases hc : isSpTab c = true
      · rw [if_pos hc, if_pos hc]
        cases st
        · rw [if_neg (by decide : ¬ (false = true)),
            if_neg (by decide : ¬ (false = true)),
            ih true y hx' hlast']
          rfl
        · rw [if_pos rfl, if_pos rfl]
          exact ih true y hx' hlast'
      · rw [if_neg hc, if_neg hc, ih false y hx' hlast']
        rfl

/-- `spAux` distributes over an append whose right part starts with a
non-space/tab character. -/
theorem spAux_append_any : ∀ (x : List Char) (st : Bool) (y : List Char),
    x ≠ [] → (∀ c, y.head? = some c → isSpTab c = false) →
    spAux st (x ++ y) = spAux st x ++ spAux false y := by
  intro x
  induction x with
  | nil => intro st y hx _; exact absurd rfl hx
  | cons c x' ih =>
    intro st y _ hy
    have hyy : spAux true y = spAux false y := spAux_true_eq_false hy
    by_cases hx' : x' = []
    · subst hx'
      simp only [List.cons_append, List.nil_append]
      rw [spAux]
      by_cases hc : isSpTab c = true
      · rw [if_pos hc]
        cases st
        · rw [if_neg (by decide : ¬ (false = true)), hyy]
          show ' ' :: spAux false y = spAux false [c] ++ spAux false y
          rw [show spAux false [c] = [' '] from by
            rw [spAux, if_pos hc, if_neg (by decide : ¬ (false = true))]; rfl]
          rfl
        · rw [if_pos rfl, hyy]
          show spAux false y = spAux true [c] ++ spAux false y
          rw [show spAux true [c] = ([] : List Char) from by
            rw [spAux, if_pos hc, if_pos rfl]; rfl]
          rfl
      · rw [if_neg hc]
        show c :: spAux false y = spAux st [c] ++ spAux false y
        rw [show spAux st [c] = [c] from by rw [spAux, if_neg hc]; rfl]
        rfl
    · simp only [List.cons_append]
      rw [spAux, spAux]
      by_cases hc : isSpTab c = true
      · rw [if_pos hc, if_pos hc]
        cases st
        · rw [if_neg (by decide : ¬ (false = true)),
            if_neg (by decide : ¬ (false = true)),
            ih true y hx' hy]
          rfl
        · rw [if_pos rfl, if_pos rfl]
          exact ih true y hx' hy
      · rw [if_neg hc, if_neg hc, ih false y hx' hy]
        rfl

/-- `nlAux` distributes over an append whose left part ends in a
non-newline character. -/
theorem nlAux_append_of_last : ∀ (x : List Char) (run : Nat) (y : List Char),
    x ≠ [] → (∀ c, x.getLast? = some c → c ≠ '\n') →
    nlAux run (x ++ y) = nlAux run x ++ nlAux 0 y := by
  intro x
  induction x with
  | nil => intro run y hx _; exact absurd rfl hx
  | cons c x' ih =>
    intro run y _ hlast
    by_cases hx' : x' = []
    · subst hx'
      have hc : c ≠ '\n' := hlast c rfl
      simp only [List.cons_append, List.nil_append]
      rw [nlAux, if_neg hc]
      show c :: nlAux 0 y = nlAux run [c] ++ nlAux 0 y
      rw [show nlAux run [c] = [c] from by rw [nlAux, if_neg hc]; rfl]
      rfl
    · have hlast' : ∀ e, x'.getLast? = some e → e ≠ '\n' := by
        intro e he
        apply hlast
        rw [getLast_cons_of_ne_nil hx']
        exact he
      simp only [List.cons_append]
      rw [nlAux, nlAux]
      by_cases hc : c = '\n'
      · rw [if_pos hc, if_pos hc]
        by_cases h2 : run < 2
        · rw [if_pos h2, if_pos h2, ih (run + 1) y hx' hlast']
          rfl
        · rw [if_neg h2, if_neg h2]
          exact ih run y hx' hlast'
      · rw [if_neg hc, if_neg hc, ih 0 y hx' hlast']
        rfl

/-- `nlAux` distributes over an append whose right part starts with a
non-newline character. -/
theorem nlAux_append_any : ∀ (x : List Char) (run : Nat) (y : List Char),
    x ≠ [] → y.head? ≠ some '\n' →
    nlAux run (x ++ y) = nlAux run x ++ nlAux 0 y := by
  intro x
  induction x with
  | nil => intro run y hx _; exact absurd rfl hx
  | cons c x' ih =>
    intro run y _ hy
    by_cases hx' : x' = []
    · subst hx'
      simp only [List.cons_append, List.nil_append]
      rw [nlAux]
      by_cases hc : c = '\n'
      · rw [if_pos hc]
        by_cases h2 : run < 2
        · rw [if_pos h2, nlAux_eq_zero_of_head (run + 1) hy]
          show '\n' :: nlAux 0 y = nlAux run [c] ++ nlAux 0 y
          rw [show nlAux run [c] = ['\n'] from by
            rw [nlAux, if_pos hc, if_pos h2]; rfl]
          rfl
        · rw [if_neg h2, nlAux_eq_zero_of_head run hy]
          show nlAux 0 y = nlAux run [c] ++ nlAux 0 y
          rw [show nlAux run [c] = ([] : List Char) from by
            rw [nlAux, if_pos hc, if_neg h2]; rfl]
          rfl
      · rw [if_neg hc]
        show c :: nlAux 0 y = nlAux run [c] ++ nlAux 0 y
        rw [show nlAux run [c] = [c] from by rw [nlAux, if_neg hc]; rfl]
        rfl
    · simp only [List.cons_append]
      rw [nlAux, nlAux]
      by_cases hc : c = '\n'
      · rw [if_pos hc, if_pos hc]
        by_cases h2 : run < 2
        · rw [if_pos h2, if_pos h2, ih (run + 1) y hx' hy]
          rfl
        · rw [if_neg h2, if_neg h2]
          exact ih run y hx' hy
      · rw [if_neg hc, if_neg hc, ih 0 y hx' hy]
        rfl

theorem crlfSub_cons_ne {c : Char} (hc : c ≠ '\r') (x : List Char) :
    crlfSub (c :: x) = c :: crlfSub x := by
  cases x with
  | nil => simp [crlfSub]
  | cons d t =>
    have : ¬ (c = '\r' ∧ d = '\n') := fun h => hc h.1
    simp [crlfSub, hc]

theorem crlfSub_append_no_cr : ∀ (a : List Char), (∀ c ∈ a, c ≠ '\r') →
    ∀ (v : List Char), crlfSub (a ++ v) = a ++ crlfSub v := by
  intro a
  induction a with
  | nil => intro _ v; rfl
  | cons c a' ih =>
    intro h v
    rw [List.cons_append, crlfSub_cons_ne (h c (by simp)),
      ih (fun d hd => h d (by simp [hd])) v]
    rfl

/-- Normalizing CRLF line endings preserves every occurrence of a pattern
that contains neither a carriage return nor a newline. -/
theorem crlfSub_preserves {P : List Char} (hne : P ≠ [])
    (hcr : ∀ c ∈ P, c ≠ '\r') (hnl : ∀ c ∈ P, c ≠ '\n') :
    ∀ {l : List Char}, occursIn P l → occursIn P (crlfSub l) := by
  intro l
  induction l using crlfSub.induct with
  | case1 rest ih =>
    intro hocc
    rw [crlfSub]
    rcases occursIn_cons_elim hocc with ⟨v, he⟩ | hocc'
    · exfalso
      cases hP : P with
      | nil => exact hne hP
      | cons p0 P' =>
        rw [hP] at he
        simp only [List.cons_append] at he
        injection he with h1 _
        exact hcr p0 (by rw [hP]; simp) h1.symm
    · rcases occursIn_cons_elim hocc' with ⟨v, he⟩ | hocc''
      · exfalso
        cases hP : P with
        | nil => exact hne hP
        | cons p0 P' =>
          rw [hP] at he
          simp only [List.cons_append] at he
          injection he with h1 _
          exact hnl p0 (by rw [hP]; simp) h1.symm
      · exact occursIn_cons '\n' (ih hocc'')
  | case2 a rest hne2 ih =>
    intro hocc
    rw [crlfSub.eq_2 a rest hne2]
    rcases occursIn_cons_elim hocc with ⟨v, he⟩ | hocc'
    · cases hP : P with
      | nil => exact absurd hP hne
      | cons p0 P' =>
        rw [hP] at he
        simp only [List.cons_append] at he
        injection he with h1 h2
        rw [h2, crlfSub_append_no_cr P'
          (fun d hd => hcr d (by rw [hP]; simp [hd])) v]
        subst h1
        exact ⟨[], crlfSub v, by simp⟩
    · exact occursIn_cons a (ih hocc')
  | case3 =>
    intro hocc
    obtain ⟨u, v, he⟩ := hocc
    obtain ⟨h1, _⟩ := List.append_eq_nil.mp he.symm
    obtain ⟨_, h3⟩ := List.append_eq_nil.mp h1
    exact absurd h3 hne

/-- Replacing carriage returns by newlines preserves every occurrence of a
pattern without carriage returns. -/
theorem crSub_preserves {P : List Char} (hcr : ∀ c ∈ P, c ≠ '\r')
    {l : List Char} (h : occursIn P l) : occursIn P (crSub l) := by
  obtain ⟨u, v, rfl⟩ := h
  refine ⟨crSub u, crSub v, ?_⟩
  simp only [crSub, List.map_append]
  rw [show List.map (fun c => if c = '\r' then '\n' else c) P = P from
    crSub_id hcr]

/-- Collapsing space/tab runs preserves every occurrence of a pattern that
is already space-normal and starts and ends with a non-space/tab
character. -/
theorem spCollapse_preserves {P : List Char} (hne : P ≠ [])
    (htb : ∀ c ∈ P, c ≠ '\t')
    (hss : containsSeq [' ', ' '] P = false)
    (hhead : ∀ c, P.head? = some c → isSpTab c = false)
    (hlast : ∀ c, P.getLast? = some c → isSpTab c = false)
    {l : List Char} (h : occursIn P l) : occursIn P (spCollapse l) := by
  obtain ⟨u, v, rfl⟩ := h
  have hPid : spAux false P = P := spCollapse_id htb hss
  have hPv : spAux false (P ++ v) = P ++ spAux false v := by
    rw [spAux_append_of_last P false v hne hlast, hPid]
  have hhd : ∀ c, (P ++ v).head? = some c → isSpTab c = false := by
    intro c hc
    cases hP : P with
    | nil => exact absurd hP hne
    | cons p0 P' =>
      rw [hP] at hc
      simp only [List.cons_append, List.head?_cons] at hc
      injection hc with hc
      subst hc
      apply hhead
      rw [hP]
      rfl
  cases u with
  | nil =>
    rw [List.nil_append]
    show occursIn P (spAux false (P ++ v))
    rw [hPv]
    exact ⟨[], spAux false v, by simp⟩
  | cons a u' =>
    show occursIn P (spAux false ((a :: u') ++ P ++ v))
    rw [List.append_assoc,
      spAux_append_any (a :: u') false (P ++ v) (by simp) hhd, hPv]
    exact ⟨spAux false (a :: u'), spAux false v, by simp⟩

/-- Collapsing newline runs preserves every occurrence of a
newline-free pattern. -/
theorem nlCollapse_preserves {P : List Char} (hne : P ≠ [])
    (hnl : ∀ c ∈ P, c ≠ '\n')
    {l : List Char} (h : occursIn P l) : occursIn P (nlCollapse l) := by
  obtain ⟨u, v, rfl⟩ := h
  have hnnn : containsSeq ['\n', '\n', '\n'] P = false := by
    rw [← Bool.not_eq_true, ← occursIn_iff_containsSeq]
    rintro ⟨a, b, hab⟩
    exact hnl '\n' (by rw [hab]; simp) rfl
  have htw : P.takeWhile (fun c => c == '\n') = [] := by
    cases hP : P with
    | nil => rfl
    | cons p0 P' =>
      rw [List.takeWhile_cons, if_neg]
      simp only [beq_iff_eq]
      exact hnl p0 (by rw [hP]; simp)
  have hPid : nlAux 0 P = P := nlAux_id (by rw [htw]; simp) hnnn
  have hlastP : ∀ c, P.getLast? = some c → c ≠ '\n' :=
    fun c hc => hnl c (mem_of_getLast hc)
  have hPv : nlAux 0 (P ++ v) = P ++ nlAux 0 v := by
    rw [nlAux_append_of_last P 0 v hne hlastP, hPid]
  cases u with
  | nil =>
    rw [List.nil_append]
    show occursIn P (nlAux 0 (P ++ v))
    rw [hPv]
    exact ⟨[], nlAux 0 v, by simp⟩
  | cons a u' =>
    have hhd : (P ++ v).head? ≠ some '\n' := by
      cases hP : P with
      | nil => exact absurd hP hne
      | cons p0 P' =>
        simp only [List.cons_append, List.head?_cons]
        intro hc
        injection hc with hc
        exact hnl p0 (by rw [hP]; simp) hc
    show occursIn P (nlAux 0 ((a :: u') ++ P ++ v))
    rw [List.append_assoc,
      nlAux_append_any (a :: u') 0 (P ++ v) (by simp) hhd, hPv]
    exact ⟨nlAux 0 (a :: u'), nlAux 0 v, by simp⟩

theorem dropWhile_append_of_head (p : Char → Bool) :
    ∀ (u : List Char) {y : List Char},
    (∀ c, y.head? = some c → p c = false) →
    (u ++ y).dropWhile p = u.dropWhile p ++ y := by
  intro u
  induction u with
  | nil =>
    intro y hy
    simp only [List.nil_append, List.dropWhile_nil]
    exact dropWhile_eq_self_of_head p hy
  | cons c u' ih =>
    intro y hy
    simp only [List.cons_append, List.dropWhile_cons]
    by_cases hc : p c = true
    · rw [if_pos hc, if_pos hc]
      exact ih hy
    · rw [if_neg hc, if_neg hc]
      rfl

/-- Stripping leading and trailing whitespace preserves every occurrence of
a pattern that starts and ends with a non-whitespace character. -/
theorem pyStrip_preserves {P : List Char} (hne : P ≠ [])
    (hhead : ∀ c, P.head? = some c → pyIsSpace c = false)
    (hlast : ∀ c, P.getLast? = some c → pyIsSpace c = false)
    {l : List Char} (h : occursIn P l) : occursIn P (pyStrip l) := by
  obtain ⟨u, v, rfl⟩ := h
  unfold pyStrip
  have hhd : ∀ c, (P ++ v).head? = some c → pyIsSpace c = false := by
    intro c hc
    cases hP : P with
    | nil => exact absurd hP hne
    | cons p0 P' =>
      rw [hP] at hc
      simp only [List.cons_append, List.head?_cons] at hc
      injection hc with hc
      subst hc
      apply hhead
      rw [hP]
      rfl
  have h2 : ∀ c, (P.reverse ++ (u.dropWhile pyIsSpace).reverse).head? = some c →
      pyIsSpace c = false := by
    intro c hc
    cases hP : P.reverse with
    | nil => exact absurd (by simpa using congrArg List.reverse hP) hne
    | cons q Q =>
      rw [hP] at hc
      simp only [List.cons_append, List.head?_cons] at hc
      injection hc with hc
      subst hc
      apply hlast
      rw [← List.head?_reverse, hP]
      rfl
  show occursIn P ((((u ++ P ++ v).dropWhile pyIsSpace).reverse.dropWhile
    pyIsSpace).reverse)
  rw [List.append_assoc, dropWhile_append_of_head pyIsSpace u hhd,
    List.reverse_append,
    List.reverse_append, List.append_assoc,
    dropWhile_append_of_head pyIsSpace v.reverse h2, List.reverse_append,
    List.reverse_append, List.reverse_reverse, List.reverse_reverse]
  exact ⟨u.dropWhile pyIsSpace,
    ((v.reverse.dropWhile pyIsSpace).reverse : List Char), by simp⟩

/-- `cleanCommon` is the identity on a list that is already fully
normalized: no tags, no entities, no carriage returns, no tabs, no double
space, no triple newline. -/
theorem cleanCommon_id {l : List Char}
    (hlt : ∀ c ∈ l, c ≠ '<') (hamp : ∀ c ∈ l, c ≠ '&')
    (hcr : ∀ c ∈ l, c ≠ '\r') (htb : ∀ c ∈ l, c ≠ '\t')
    (hss : containsSeq [' ', ' '] l = false)
    (hnnn : containsSeq ['\n', '\n', '\n'] l = false) :
    cleanCommon l = l := by
  unfold cleanCommon lineNorm
  rw [tagSub_id hlt, unescapeGo_id hamp, crlfSub_id hcr, crSub_id hcr,
    show spCollapse l = l from spCollapse_id htb hss]
  show nlAux 0 l = l
  exact nlAux_id (by have := lead_le_of_noTriple hnnn; omega) hnnn

/-- The output of `cleanCommon` on tag-free, entity-free input is fully
normalized. -/
theorem cleanCommon_inv {l : List Char}
    (hlt : ∀ c ∈ l, c ≠ '<') (hamp : ∀ c ∈ l, c ≠ '&') :
    (∀ c ∈ cleanCommon l, c ≠ '<') ∧ (∀ c ∈ cleanCommon l, c ≠ '&') ∧
    (∀ c ∈ cleanCommon l, c ≠ '\r') ∧ (∀ c ∈ cleanCommon l, c ≠ '\t') ∧
    containsSeq [' ', ' '] (cleanCommon l) = false ∧
    containsSeq ['\n', '\n', '\n'] (cleanCommon l) = false := by
  unfold cleanCommon lineNorm
  rw [tagSub_id hlt, unescapeGo_id hamp]
  have h1lt : ∀ c ∈ crlfSub l, c ≠ '<' :=
    crlfSub_mem_pred _ (by decide) l hlt
  have h1amp : ∀ c ∈ crlfSub l, c ≠ '&' :=
    crlfSub_mem_pred _ (by decide) l hamp
  have h2lt : ∀ c ∈ crSub (crlfSub l), c ≠ '<' :=
    crSub_mem_pred _ (by decide) h1lt
  have h2amp : ∀ c ∈ crSub (crlfSub l), c ≠ '&' :=
    crSub_mem_pred _ (by decide) h1amp
  have h2cr : ∀ c ∈ crSub (crlfSub l), c ≠ '\r' := crSub_no_cr _
  have h3lt : ∀ c ∈ spAux false (crSub (crlfSub l)), c ≠ '<' :=
    spAux_mem_pred _ (by decide) false h2lt
  have h3amp : ∀ c ∈ spAux false (crSub (crlfSub l)), c ≠ '&' :=
    spAux_mem_pred _ (by decide) false h2amp
  have h3cr : ∀ c ∈ spAux false (crSub (crlfSub l)), c ≠ '\r' :=
    spAux_mem_pred _ (by decide) false h2cr
  have h3tb : ∀ c ∈ spAux false (crSub (crlfSub l)), c ≠ '\t' :=
    spAux_no_tab false _
  have h3ss : containsSeq [' ', ' '] (spAux false (crSub (crlfSub l))) = false :=
    spAux_no_double false _
  refine ⟨?_, ?_, ?_, ?_, ?_, ?_⟩
  · exact nlAux_mem_pred _ (by decide) 0 h3lt
  · exact nlAux_mem_pred _ (by decide) 0 h3amp
  · exact nlAux_mem_pred _ (by decide) 0 h3cr
  · exact nlAux_mem_pred _ (by decide) 0 h3tb
  · exact nlAux_no_double _ 0 h3ss
  · exact nlAux_no_triple _ 0

/-- C3 (amended): on input that contains neither a tag opener nor an
entity ampersand, `clean_resume_text` is idempotent - cleaning its own
output text is a no-op. -/
theorem clean_resume_idempotent (t : String)
    (h : ∀ c ∈ t.toList, c ≠ '<' ∧ c ≠ '&') :
    (clean_resume_text (clean_resume_text t).text).text =
      (clean_resume_text t).text := by
  by_cases ht : t = ""
  · subst ht
    rfl
  · have hlt : ∀ c ∈ t.toList, c ≠ '<' := fun c hc => (h c hc).1
    have hamp : ∀ c ∈ t.toList, c ≠ '&' := fun c hc => (h c hc).2
    have houter : (clean_resume_text t).text =
        String.mk (pyStrip (cleanCommon t.toList)) := by
      unfold clean_resume_text
      rw [if_neg ht]
    obtain ⟨i1, i2, i3, i4, i5, i6⟩ := cleanCommon_inv hlt hamp
    have p1 : ∀ c ∈ pyStrip (cleanCommon t.toList), c ≠ '<' :=
      fun c hc => i1 c (pyStrip_mem hc)
    have p2 : ∀ c ∈ pyStrip (cleanCommon t.toList), c ≠ '&' :=
      fun c hc => i2 c (pyStrip_mem hc)
    have p3 : ∀ c ∈ pyStrip (cleanCommon t.toList), c ≠ '\r' :=
      fun c hc => i3 c (pyStrip_mem hc)
    have p4 : ∀ c ∈ pyStrip (cleanCommon t.toList), c ≠ '\t' :=
      fun c hc => i4 c (pyStrip_mem hc)
    have p5 : containsSeq [' ', ' '] (pyStrip (cleanCommon t.toList)) = false :=
      containsSeq_false_of_decomp i5 (pyStrip_decomp _)
    have p6 : containsSeq ['\n', '\n', '\n']
        (pyStrip (cleanCommon t.toList)) = false :=
      containsSeq_false_of_decomp i6 (pyStrip_decomp _)
    have hcid : cleanCommon (pyStrip (cleanCommon t.toList)) =
        pyStrip (cleanCommon t.toList) :=
      cleanCommon_id p1 p2 p3 p4 p5 p6
    rw [houter]
    by_cases hm : String.mk (pyStrip (cleanCommon t.toList)) = ""
    · rw [hm]
      rfl
    · unfold clean_resume_text
      rw [if_neg hm]
      show String.mk (pyStrip (cleanCommon (pyStrip (cleanCommon t.toList)))) =
        String.mk (pyStrip (cleanCommon t.toList))
      rw [hcid, pyStrip_idem]

theorem clean_resume_idempotent_witness :
    (∀ c ∈ ("a  b" : String).toList, c ≠ '<' ∧ c ≠ '&') ∧
    (clean_resume_text (clean_resume_text "a  b").text).text =
      (clean_resume_text "a  b").text :=
  ⟨by decide, clean_resume_idempotent "a  b" (by decide)⟩

/-- C8 (amended): on input that contains neither '<' nor '&', every
occurrence of "equal opportunity" or of "apply" survives
`clean_resume_text`. -/
theorem clean_resume_preserves (t : String) (P : List Char)
    (hP : P = "equal opportunity".toList ∨ P = "apply".toList)
    (h : ∀ c ∈ t.toList, c ≠ '<' ∧ c ≠ '&')
    (hocc : occursIn P t.toList) :
    occursIn P (clean_resume_text t).text.toList := by
  have hPne : P ≠ [] := by rcases hP with rfl | rfl <;> decide
  have ht : t ≠ "" := by
    intro he
    subst he
    obtain ⟨u, v, hv⟩ := hocc
    obtain ⟨h1, _⟩ := List.append_eq_nil.mp hv.symm
    obtain ⟨_, h3⟩ := List.append_eq_nil.mp h1
    exact hPne h3
  have hPcr : ∀ c ∈ P, c ≠ '\r' := by rcases hP with rfl | rfl <;> decide
  have hPnl : ∀ c ∈ P, c ≠ '\n' := by rcases hP with rfl | rfl <;> decide
  have hPtb : ∀ c ∈ P, c ≠ '\t' := by rcases hP with rfl | rfl <;> decide
  have hPss : containsSeq [' ', ' '] P = false := by
    rcases hP with rfl | rfl <;> decide
  have hPhd : ∀ c, P.head? = some c → isSpTab c = false := by
    intro c hc
    rcases hP with rfl | rfl <;> (injection hc with hc; subst hc; decide)
  have hPlt : ∀ c, P.getLast? = some c → isSpTab c = false := by
    intro c hc
    rcases hP with rfl | rfl <;> (injection hc with hc; subst hc; decide)
  have hPhdw : ∀ c, P.head? = some c → pyIsSpace c = false := by
    intro c hc
    rcases hP with rfl | rfl <;> (injection hc with hc; subst hc; decide)
  have hPltw : ∀ c, P.getLast? = some c → pyIsSpace c = false := by
    intro c hc
    rcases hP with rfl | rfl <;> (injection hc with hc; subst hc; decide)
  have hlt : ∀ c ∈ t.toList, c ≠ '<' := fun c hc => (h c hc).1
  have hamp : ∀ c ∈ t.toList, c ≠ '&' := fun c hc => (h c hc).2
  have houter : (clean_resume_text t).text =
      String.mk (pyStrip (cleanCommon t.toList)) := by
    unfold clean_resume_text
    rw [if_neg ht]
  rw [houter]
  show occursIn P (pyStrip (cleanCommon t.toList))
  have hcc : cleanCommon t.toList =
      nlCollapse (spCollapse (crSub (crlfSub t.toList))) := by
    unfold cleanCommon lineNorm
    rw [tagSub_id hlt, unescapeGo_id hamp]
  rw [hcc]
  apply pyStrip_preserves hPne hPhdw hPltw
  apply nlCollapse_preserves hPne hPnl
  apply spCollapse_preserves hPne hPtb hPss hPhd hPlt
  apply crSub_preserves hPcr
  exact crlfSub_preserves hPne hPcr hPnl hocc

theorem clean_resume_preserves_witness :
    (("apply" : String).toList = "equal opportunity".toList ∨
      ("apply" : String).toList = "apply".toList) ∧
    (∀ c ∈ ("we apply daily" : String).toList, c ≠ '<' ∧ c ≠ '&') ∧
    occursIn ("apply" : String).toList ("we apply daily" : String).toList ∧
    occursIn ("apply" : String).toList
      (clean_resume_text "we apply daily").text.toList :=
  ⟨Or.inr rfl, by decide, by decide,
    clean_resume_preserves "we apply daily" "apply".toList (Or.inr rfl)
      (by decide) (by decide)⟩

end JobFinder
